import Mathlib

/-!
# Verification of the Mafia-Blender-Tools 4DS codec

A shallow embedding of the 4DS binary model importer/exporter
(`Mafia_Formats/import_4ds.py`, `Mafia_Formats/export_4ds.py`,
`Mafia_Formats/helper.py`) together with proofs of the testable
properties stated in the design specification.

Modelling conventions:
* The byte stream is modelled at primitive-read granularity: a stream is a
  list of typed tokens (`u8`, `u16`, `u32`, `f32`, length-prefixed string,
  fixed string, opaque byte run), each with its exact byte width, so byte
  cursor arithmetic (seeks, skip-reads) is preserved while IEEE-754 float
  payloads are abstracted to exact rationals.
* 32-bit floats are modelled as `ℚ`; identities proved over `ℚ` are exact,
  hence inside any positive tolerance.
* Host (Blender) collaborator operations are modelled at their documented
  interface: object/material registries are explicit lists, `bmesh`
  operations are explicit list transformations.
-/

namespace Mafia4DS

/-! ## Byte-stream model -/

/-- One primitive read/write unit of the binary stream, carrying its decoded
value and (via `Tok.size`) its exact byte width. `raw n` is an opaque run of
`n` bytes (consumed by skip-reads, never interpreted). -/
inductive Tok where
  | u8  (n : Nat)
  | u16 (n : Nat)
  | u32 (n : Nat)
  | f32 (q : ℚ)
  | fix (s : String)
  | lstr (s : String)
  | raw (n : Nat)
deriving DecidableEq, Repr

abbrev BStream := List Tok

/-- Exact byte width of one token (little-endian fixed-width encodings;
strings are single-byte code-page text, one byte per character, and `lstr`
carries its one-byte length header). -/
def Tok.size : Tok → Nat
  | .u8 _   => 1
  | .u16 _  => 2
  | .u32 _  => 4
  | .f32 _  => 4
  | .fix s  => s.length
  | .lstr s => 1 + s.length
  | .raw n  => n

/-- Total byte width of a stream segment: the byte-cursor distance covered
when the segment is consumed. -/
def streamSize (s : BStream) : Nat := (s.map Tok.size).sum

theorem streamSize_append (a b : BStream) :
    streamSize (a ++ b) = streamSize a + streamSize b := by
  simp [streamSize]

theorem streamSize_cons (t : Tok) (b : BStream) :
    streamSize (t :: b) = t.size + streamSize b := by
  simp [streamSize]

/-! ## Geometric value types

`ℚ`-valued vectors and quaternions standing for `mathutils.Vector` /
`mathutils.Quaternion`. -/

structure Vec3 where
  x : ℚ
  y : ℚ
  z : ℚ
deriving DecidableEq, Repr

structure Vec2 where
  x : ℚ
  y : ℚ
deriving DecidableEq, Repr

/-- Quaternion in `(w, x, y, z)` component order, as `mathutils.Quaternion`. -/
structure Quat where
  w : ℚ
  x : ℚ
  y : ℚ
  z : ℚ
deriving DecidableEq, Repr

/-- The axis-swap convention bridge: exchange the 2nd and 3rd components
(Y and Z) of a 3-vector. -/
def Vec3.swapYZ (v : Vec3) : Vec3 := ⟨v.x, v.z, v.y⟩

/-- The axis-swap convention bridge on quaternions: exchange the y and z
components, keeping w and x. -/
def Quat.swapYZ (q : Quat) : Quat := ⟨q.w, q.x, q.z, q.y⟩

/-! ## Binary primitive codec (`helper.py`, class `Util`)

Readers take a stream and return the decoded value plus the remaining
stream, or `none` when the stream does not hold the requested primitive
(the Python code would raise `struct.error` there). Writers return the
emitted token run, or `none` where the Python write raises. -/

def read_uint_8 : BStream → Option (Nat × BStream)
  | .u8 n :: r => some (n, r)
  | _ => none

def read_int_16 : BStream → Option (Nat × BStream)
  | .u16 n :: r => some (n, r)
  | _ => none

def read_int_32 : BStream → Option (Nat × BStream)
  | .u32 n :: r => some (n, r)
  | _ => none

def read_float_32 : BStream → Option (ℚ × BStream)
  | .f32 q :: r => some (q, r)
  | _ => none

/-- `Util.read_string`: one length byte then that many single-byte-code-page
characters (decode errors are replaced, never fatal, hence total on the
token). -/
def read_string : BStream → Option (String × BStream)
  | .lstr s :: r => some (s, r)
  | _ => none

/-- `Util.read_string_fixed(f, n)`: exactly `n` raw bytes decoded as text. -/
def read_string_fixed (n : Nat) : BStream → Option (String × BStream)
  | .fix s :: r => if s.length = n then some (s, r) else none
  | _ => none

/-- `f.read(n)` used as a skip: consume whole tokens totalling exactly `n`
bytes (the Python byte read is oblivious to our token boundaries, but every
skip in this codec lands on a primitive boundary; a misaligned skip is
modelled as a stream error). -/
def skipBytes (n : Nat) : BStream → Option BStream
  | [] => if n = 0 then some [] else none
  | t :: r =>
      if n = 0 then some (t :: r)
      else if t.size ≤ n ∧ 0 < t.size then skipBytes (n - t.size) r
      else none

/-- `Util.read_quat`: four little-endian floats `(w, x, y, z)`; with
`reorder` the y/z components are exchanged. -/
def read_quat (reorder : Bool) (s : BStream) : Option (Quat × BStream) := do
  let (w, s) ← read_float_32 s
  let (x, s) ← read_float_32 s
  let (y, s) ← read_float_32 s
  let (z, s) ← read_float_32 s
  if reorder then
    return (⟨w, x, z, y⟩, s)
  else
    return (⟨w, x, y, z⟩, s)

/-- `Util.write_quat`: writes `(w, x, z, y)` under `reorder`, else
`(w, x, y, z)`. -/
def write_quat (reorder : Bool) (q : Quat) : BStream :=
  if reorder then [.f32 q.w, .f32 q.x, .f32 q.z, .f32 q.y]
  else [.f32 q.w, .f32 q.x, .f32 q.y, .f32 q.z]

/-- `Util.read_vector3`: three little-endian floats `(x, y, z)`; with
`reorder` the result is `(x, z, y)`. -/
def read_vector3 (reorder : Bool) (s : BStream) : Option (Vec3 × BStream) := do
  let (x, s) ← read_float_32 s
  let (y, s) ← read_float_32 s
  let (z, s) ← read_float_32 s
  if reorder then
    return (⟨x, z, y⟩, s)
  else
    return (⟨x, y, z⟩, s)

/-- `Util.write_vector3`: writes `(x, z, y)` under `reorder`, else
`(x, y, z)`. -/
def write_vector3 (reorder : Bool) (v : Vec3) : BStream :=
  if reorder then [.f32 v.x, .f32 v.z, .f32 v.y]
  else [.f32 v.x, .f32 v.y, .f32 v.z]

def read_vector2 (s : BStream) : Option (Vec2 × BStream) := do
  let (x, s) ← read_float_32 s
  let (y, s) ← read_float_32 s
  return (⟨x, y⟩, s)

def write_vector2 (v : Vec2) : BStream := [.f32 v.x, .f32 v.y]

/-- `Util.read_vector_4`: four floats returned as a plain 4-tuple. -/
def read_vector_4 (s : BStream) : Option ((ℚ × ℚ × ℚ × ℚ) × BStream) := do
  let (a, s) ← read_float_32 s
  let (b, s) ← read_float_32 s
  let (c, s) ← read_float_32 s
  let (d, s) ← read_float_32 s
  return ((a, b, c, d), s)

/-- A run of `n` consecutive floats (`Util.read_matrix4x4` /
`struct.unpack("<16f", ...)` with `n = 16`, skin-weight arrays with
`n = num_weighted`). -/
def read_floats : Nat → BStream → Option (List ℚ × BStream)
  | 0, s => some ([], s)
  | n + 1, s => do
      let (q, s) ← read_float_32 s
      let (qs, s) ← read_floats n s
      return (q :: qs, s)

/-- A run of `n` consecutive u16s (`struct.unpack(f"<{n}H", ...)`). -/
def read_u16s : Nat → BStream → Option (List Nat × BStream)
  | 0, s => some ([], s)
  | n + 1, s => do
      let (v, s) ← read_int_16 s
      let (vs, s) ← read_u16s n s
      return (v :: vs, s)

def write_matrix16 (qs : List ℚ) : BStream := qs.map Tok.f32

/-- `Util.write_string`: encode to the single-byte code page and fail
(`String too long`) when the encoded length exceeds 255. For the modelled
code page one character is one byte. -/
def write_string (str : String) : Option BStream :=
  if str.length > 255 then none else some [.lstr str]

def write_uint_8 (n : Nat) : Option BStream :=
  if n < 256 then some [.u8 n] else none

def write_int_16 (n : Nat) : Option BStream :=
  if n < 65536 then some [.u16 n] else none

def write_int_32 (n : Nat) : Option BStream :=
  if n < 4294967296 then some [.u32 n] else none

def write_float_32 (q : ℚ) : BStream := [.f32 q]

/-- `Util.read_face_indices`: exactly three u16 triangle indices. -/
def read_face_indices (s : BStream) : Option ((Nat × Nat × Nat) × BStream) := do
  let (a, s) ← read_int_16 s
  let (b, s) ← read_int_16 s
  let (c, s) ← read_int_16 s
  return ((a, b, c), s)

/-- `Util.write_face_indices`: exactly three u16s; any other arity, or an
index out of u16 range, fails the write. -/
def write_face_indices (idxs : List Nat) : Option BStream :=
  match idxs with
  | [a, b, c] =>
      if a < 65536 ∧ b < 65536 ∧ c < 65536 then some [.u16 a, .u16 b, .u16 c]
      else none
  | _ => none

def write_float_array (qs : List ℚ) : BStream := qs.map Tok.f32

def write_uint16_array (ns : List Nat) : Option BStream :=
  if ns.all (· < 65536) then some (ns.map Tok.u16) else none

/-- `Util.write_BB`: exactly two single bytes. -/
def write_BB (a b : Nat) : Option BStream :=
  if a < 256 ∧ b < 256 then some [.u8 a, .u8 b] else none

/-- `Util.serialize_header`: magic `"4DS\0"`, u16 version, then the 8-byte
Windows-FILETIME timestamp (an opaque 8-byte run in the model; its value is
regenerated from the current time and never read back). -/
def serialize_header (version : Nat) : Option BStream := do
  let v ← write_int_16 version
  return .fix "4DS\x00" :: v ++ [.raw 8]

/-- `str.lower()` / `str.upper()` of the single-byte code-page text, at
the character-list level (ASCII case mapping). -/
def strLower (s : String) : String := String.mk (s.toList.map Char.toLower)

def strUpper (s : String) : String := String.mk (s.toList.map Char.toUpper)

/-! ## Material codec (`import_4ds.py`, `deserialize_material`) -/

/-- Material bit-flag constants (`MTL_*`). -/
def MTL_DIFFUSETEX  : Nat := 0x00040000
def MTL_ANIMTEXDIFF : Nat := 0x04000000
def MTL_ENVMAP      : Nat := 0x00080000
def MTL_ADDEFFECT   : Nat := 0x00008000
def MTL_ALPHATEX    : Nat := 0x40000000
def MTL_COLORKEY    : Nat := 0x20000000

/-- Python truthiness of `flags & MASK`. -/
def hasFlag (flags mask : Nat) : Bool := flags &&& mask ≠ 0

/-- A decoded Blender material handle. `set_material_data` (shader-graph
construction) is an external collaborator; the handle records exactly the
arguments the decoder passes to it, plus the registry name. -/
structure BMat where
  name : String
  diffuse : String
  alphaTex : String
  envTex : String
  emission : Vec3
  alpha : ℚ
  metallic : ℚ
  useColorKey : Bool
deriving DecidableEq, Repr

/-- The global `bpy.data.materials` registry, modelled as a name-keyed
association list (names are unique: `new` is only called after a failed
lookup). -/
abbrev MatRegistry := List (String × BMat)

/-- Second phase of `The4DSImporter.deserialize_material`, from the
name→material cache probe on: on a hit the flag-dependent tail fields
(alpha-texture name, 18 animated-texture bytes) are still consumed before
the cached handle is returned; on a miss they are read and a new material
is registered. `diffuse_tex` is already lower-cased by the first phase. -/
def deserialize_material_tail (reg : MatRegistry) (flags : Nat)
    (emission : Vec3) (alpha metallic : ℚ) (env_tex diffuse_tex : String)
    (s : BStream) : Option (BMat × MatRegistry × BStream) :=
  let use_color_key := hasFlag flags MTL_COLORKEY
  let has_alpha_tex := hasFlag flags MTL_ADDEFFECT && hasFlag flags MTL_ALPHATEX
  let is_animated   := hasFlag flags MTL_ANIMTEXDIFF
  let mat_name := if diffuse_tex = "" then "material" else diffuse_tex
  match reg.lookup mat_name with
  | some mat => do
      let s ← if has_alpha_tex then do
                let (_, s) ← read_string s
                pure s
              else pure s
      let s ← if is_animated then skipBytes 18 s else pure s
      return (mat, reg, s)
  | none => do
      let (alpha_tex, s) ←
        if has_alpha_tex then do
          let (a, s) ← read_string s
          pure (strLower a, s)
        else pure ("", s)
      let s ← if is_animated then skipBytes 18 s else pure s
      let mat : BMat :=
        ⟨mat_name, diffuse_tex, alpha_tex, env_tex, emission, alpha, metallic,
          use_color_key⟩
      return (mat, (mat_name, mat) :: reg, s)

/-- `The4DSImporter.deserialize_material`: read the flag word, the three
colour triples and opacity, the optional env block, the diffuse-texture
name; then run the cache-probing second phase
(`deserialize_material_tail`). -/
def deserialize_material (reg : MatRegistry) (s : BStream) :
    Option (BMat × MatRegistry × BStream) := do
  let (flags, s) ← read_int_32 s
  let has_env_map := hasFlag flags MTL_ENVMAP
  let (_ambient, s) ← read_vector3 false s
  let (_diffuseCol, s) ← read_vector3 false s
  let (emission, s) ← read_vector3 false s
  let (alpha, s) ← read_float_32 s
  let (metallic, env_tex, s) ←
    if has_env_map then do
      let (m, s) ← read_float_32 s
      let (e, s) ← read_string s
      pure ((m : ℚ), e, s)
    else
      pure ((0 : ℚ), "", s)
  let (diffuse_raw, s) ← read_string s
  deserialize_material_tail reg flags emission alpha metallic env_tex
    (strLower diffuse_raw) s

/-- Parameter block for building a concrete well-formed material record
stream (test-input builder, not part of the codec). -/
structure MatRecParams where
  flags : Nat
  ambient : Vec3
  diffuseCol : Vec3
  emission : Vec3
  alpha : ℚ
  metallic : ℚ
  envTex : String
  diffuseTex : String
  alphaTex : String

/-- The flag-dependent tail tokens of a material record: the alpha-texture
name (present iff both add-effect and alpha-texture flags are set) then the
18 bytes of animated-texture metadata (present iff the animated-diffuse
flag is set). -/
def mkMaterialTail (flags : Nat) (alphaTex : String) : BStream :=
  (if hasFlag flags MTL_ADDEFFECT && hasFlag flags MTL_ALPHATEX
    then [.lstr alphaTex] else []) ++
  (if hasFlag flags MTL_ANIMTEXDIFF then [.raw 18] else [])

/-- Serialize a `MatRecParams` into the exact flag-consistent token layout
that `deserialize_material` expects. -/
def mkMaterialRecord (p : MatRecParams) : BStream :=
  .u32 p.flags ::
    write_vector3 false p.ambient ++ write_vector3 false p.diffuseCol ++
    write_vector3 false p.emission ++ [.f32 p.alpha] ++
    (if hasFlag p.flags MTL_ENVMAP then [.f32 p.metallic, .lstr p.envTex] else []) ++
    [.lstr p.diffuseTex] ++
    mkMaterialTail p.flags p.alphaTex

/-! ## Skin application (`import_4ds.py`, `apply_skinning`)

The decode-side positional vertex-to-bone assignment: a running cursor
walks the mesh's vertex indices, handing each bone its locked vertices and
then its weighted vertices, in bone-declaration order; whatever remains
goes to the synthetic base bone at full weight. -/

inductive VGMode where
  | add
  | replace
deriving DecidableEq, Repr

/-- One `vertex_group.add(indices, weight, mode)` call issued by the
skinning pass. -/
structure VGAssign where
  group : String
  indices : List Nat
  weight : ℚ
  mode : VGMode
deriving DecidableEq, Repr

/-- Insertion sort of `(bone_id, name)` pairs by bone id —
`sorted(self.bone_nodes.items())`. -/
def insertByKey (p : Nat × String) : List (Nat × String) → List (Nat × String)
  | [] => [p]
  | q :: r => if p.1 ≤ q.1 then p :: q :: r else q :: insertByKey p r

def sortByKey : List (Nat × String) → List (Nat × String)
  | [] => []
  | p :: r => insertByKey p (sortByKey r)

/-- `grouped.setdefault(weight, []).append(idx)`: append an index to its
weight's group, keeping first-seen group order. -/
def addToGroup (w : ℚ) (i : Nat) : List (ℚ × List Nat) → List (ℚ × List Nat)
  | [] => [(w, [i])]
  | (w', is) :: r =>
      if w' = w then (w', is ++ [i]) :: r else (w', is) :: addToGroup w i r

def groupByWeight (l : List (Nat × ℚ)) : List (ℚ × List Nat) :=
  l.foldl (fun acc iw => addToGroup iw.2 iw.1 acc) []

/-- Bone name resolution: `bone_names[bone_id]` with the
`unknown_bone_<id>` fallback. -/
def boneNameFor (boneNames : List String) (boneId : Nat) : String :=
  if boneId < boneNames.length then boneNames.getD boneId ""
  else "unknown_bone_" ++ toString boneId

/-- One iteration of the per-bone loop of `apply_skinning`: assign the
locked run `[counter, counter+num_locked)` at weight 1, then the weighted
run `[counter, counter+len(weights))` grouped by weight value (indices `≥`
the vertex total are dropped from the assignment but still advance the
cursor). -/
def applySkinningBone (boneNames : List String) (totalVerts : Nat)
    (st : Nat × List VGAssign) (entry : Nat × Nat × List ℚ) :
    Nat × List VGAssign :=
  let counter := st.1
  let acc := st.2
  let boneName := boneNameFor boneNames entry.1
  let numLocked := entry.2.1
  let weights := entry.2.2
  let st1 : Nat × List VGAssign :=
    if numLocked > 0 then
      (counter + numLocked,
        acc ++ [⟨boneName, List.range' counter numLocked, 1, .add⟩])
    else (counter, acc)
  if weights ≠ [] then
    let weightedIndices := List.range' st1.1 weights.length
    let valid := (weightedIndices.zip weights).filter (fun iw => iw.1 < totalVerts)
    let grouped := groupByWeight valid
    (st1.1 + weights.length,
      st1.2 ++ grouped.map (fun wi => ⟨boneName, wi.2, wi.1, .replace⟩))
  else st1

/-- `The4DSImporter.apply_skinning`, as the list of vertex-group
assignments it issues (the armature-modifier attachment is recorded by the
caller, see `runSkinning`). -/
def apply_skinning (totalVerts : Nat)
    (vertexGroups : List (List (Nat × Nat × List ℚ)))
    (boneNodes : List (Nat × String)) (baseBone : String) : List VGAssign :=
  match vertexGroups with
  | [] => []
  | lod0 :: _ =>
      let boneNames := (sortByKey boneNodes).map Prod.snd
      let res := lod0.foldl (applySkinningBone boneNames totalVerts) (0, [])
      let remaining := List.range' res.1 (totalVerts - res.1)
      if remaining ≠ [] then
        res.2 ++ [⟨baseBone, remaining, 1, .add⟩]
      else res.2

/-- Per-bone slot width: `locked_i + weighted_i`. -/
def skinCounts (lod : List (Nat × Nat × List ℚ)) : Nat :=
  (lod.map (fun e => e.2.1 + e.2.2.length)).sum

/-- The cursor value at which bone `k`'s block starts: the sum of the
locked+weighted widths of all earlier bones. -/
def cursorStart (lod : List (Nat × Nat × List ℚ)) (k : Nat) : Nat :=
  skinCounts (lod.take k)

/-- The assignments one bone contributes when its block starts at cursor
position `c` (locked run, then weighted run grouped by weight value). -/
def boneBlock (boneNames : List String) (totalVerts : Nat) (c : Nat)
    (entry : Nat × Nat × List ℚ) : List VGAssign :=
  (applySkinningBone boneNames totalVerts (c, []) entry).2

/-- The cursor-ordered decomposition of the whole skinning pass: bone 0's
block at cursor 0, bone 1's block right after it, and so on. -/
def skinBlocks (boneNames : List String) (totalVerts : Nat) (c : Nat) :
    List (Nat × Nat × List ℚ) → List VGAssign
  | [] => []
  | e :: r =>
      boneBlock boneNames totalVerts c e ++
        skinBlocks boneNames totalVerts (c + (e.2.1 + e.2.2.length)) r

/-! ## Helper lemmas: weight grouping and the skinning fold -/

theorem flattenSnd_addToGroup (w : ℚ) (i : Nat) (acc : List (ℚ × List Nat)) :
    ((addToGroup w i acc).map Prod.snd).flatten.Perm
      ((acc.map Prod.snd).flatten ++ [i]) := by
  induction acc with
  | nil => simp [addToGroup]
  | cons p r ih =>
      obtain ⟨w', is⟩ := p
      by_cases h : w' = w
      · rw [addToGroup, if_pos h]
        simp only [List.map_cons, List.flatten_cons]
        have hc : ([i] ++ (r.map Prod.snd).flatten).Perm
            ((r.map Prod.snd).flatten ++ [i]) := List.perm_append_comm
        have e1 : (is ++ [i]) ++ (r.map Prod.snd).flatten
            = is ++ ([i] ++ (r.map Prod.snd).flatten) := by
          simp [List.append_assoc]
        have e2 : is ++ ((r.map Prod.snd).flatten ++ [i])
            = (is ++ (r.map Prod.snd).flatten) ++ [i] := by
          simp [List.append_assoc]
        rw [e1, ← e2]
        exact hc.append_left is
      · rw [addToGroup, if_neg h]
        simp only [List.map_cons, List.flatten_cons]
        have e2 : is ++ ((r.map Prod.snd).flatten ++ [i])
            = (is ++ (r.map Prod.snd).flatten) ++ [i] := by
          simp [List.append_assoc]
        rw [← e2]
        exact ih.append_left is

theorem flattenSnd_foldl_addToGroup (l : List (Nat × ℚ)) :
    ∀ acc : List (ℚ × List Nat),
      (((l.foldl (fun acc iw => addToGroup iw.2 iw.1 acc) acc).map Prod.snd).flatten).Perm
        ((acc.map Prod.snd).flatten ++ l.map Prod.fst) := by
  induction l with
  | nil => intro acc; simp
  | cons iw r ih =>
      intro acc
      refine (ih (addToGroup iw.2 iw.1 acc)).trans ?_
      refine (((flattenSnd_addToGroup iw.2 iw.1 acc).append_right (r.map Prod.fst))).trans ?_
      simp [List.append_assoc]

theorem groupByWeight_flatten (l : List (Nat × ℚ)) :
    ((groupByWeight l).map Prod.snd).flatten.Perm (l.map Prod.fst) := by
  simpa [groupByWeight] using flattenSnd_foldl_addToGroup l []

theorem applySkinningBone_eq (bn : List String) (tv : Nat) (c : Nat)
    (acc : List VGAssign) (e : Nat × Nat × List ℚ) :
    applySkinningBone bn tv (c, acc) e
      = (c + (e.2.1 + e.2.2.length), acc ++ boneBlock bn tv c e) := by
  obtain ⟨bid, L, ws⟩ := e
  by_cases hL : L > 0 <;> by_cases hw : ws = [] <;>
    simp [applySkinningBone, boneBlock, hL, hw, List.append_assoc,
      Nat.add_assoc] <;> omega

theorem skin_foldl_eq (bn : List String) (tv : Nat)
    (l : List (Nat × Nat × List ℚ)) :
    ∀ (c : Nat) (acc : List VGAssign),
      l.foldl (applySkinningBone bn tv) (c, acc)
        = (c + skinCounts l, acc ++ skinBlocks bn tv c l) := by
  induction l with
  | nil => intro c acc; simp [skinCounts, skinBlocks]
  | cons e r ih =>
      intro c acc
      rw [List.foldl_cons, applySkinningBone_eq, ih]
      simp only [skinCounts, skinBlocks, List.map_cons, List.sum_cons,
        Prod.mk.injEq]
      exact ⟨by omega, by simp [List.append_assoc]⟩

theorem skinCounts_append (a b : List (Nat × Nat × List ℚ)) :
    skinCounts (a ++ b) = skinCounts a + skinCounts b := by
  simp [skinCounts]

theorem skinCounts_take_get (l : List (Nat × Nat × List ℚ)) (k : Nat)
    (e : Nat × Nat × List ℚ) (he : l[k]? = some e) :
    skinCounts (l.take (k + 1))
      = skinCounts (l.take k) + (e.2.1 + e.2.2.length) := by
  rw [List.take_succ, he]
  simp [skinCounts_append, skinCounts]

theorem skinCounts_take_le (l : List (Nat × Nat × List ℚ)) (k : Nat) :
    skinCounts (l.take k) ≤ skinCounts l := by
  conv_rhs => rw [← List.take_append_drop k l]
  rw [skinCounts_append]
  exact Nat.le_add_right _ _

/-- Explicit shape of one bone's assignment block: the locked run starting
at the cursor, then the weighted run (grouped by weight value) starting
right after the locked run. -/
theorem boneBlock_eq (bn : List String) (tv c bid L : Nat) (ws : List ℚ) :
    boneBlock bn tv c (bid, L, ws)
      = (if L > 0 then
          [⟨boneNameFor bn bid, List.range' c L, 1, .add⟩]
         else []) ++
        (if ws = [] then [] else
          (groupByWeight (((List.range' (c + L) ws.length).zip ws).filter
              (fun iw => iw.1 < tv))).map
            (fun wi => ⟨boneNameFor bn bid, wi.2, wi.1, .replace⟩)) := by
  rcases Nat.eq_zero_or_pos L with h0 | h0
  · subst h0
    by_cases hw : ws = [] <;> simp [boneBlock, applySkinningBone, hw]
  · by_cases hw : ws = [] <;> simp [boneBlock, applySkinningBone, h0, hw]

theorem boneBlock_indices_perm (bn : List String) (tv c : Nat)
    (e : Nat × Nat × List ℚ) (h : c + e.2.1 + e.2.2.length ≤ tv) :
    (((boneBlock bn tv c e).map VGAssign.indices).flatten).Perm
      (List.range' c (e.2.1 + e.2.2.length)) := by
  obtain ⟨bid, L, ws⟩ := e
  simp only at h
  rw [boneBlock_eq]
  have h1 : (((if L > 0 then
        [(⟨boneNameFor bn bid, List.range' c L, 1, .add⟩ : VGAssign)]
      else []).map VGAssign.indices).flatten) = List.range' c L := by
    rcases Nat.eq_zero_or_pos L with h0 | h0
    · simp [h0]
    · simp [h0]
  have h2 : (((if ws = [] then ([] : List VGAssign) else
        (groupByWeight (((List.range' (c + L) ws.length).zip ws).filter
            (fun iw => iw.1 < tv))).map
          (fun wi => ⟨boneNameFor bn bid, wi.2, wi.1, .replace⟩)).map
        VGAssign.indices).flatten).Perm (List.range' (c + L) ws.length) := by
    by_cases hw : ws = []
    · simp [hw]
    · have hfilter :
          ((List.range' (c + L) ws.length).zip ws).filter
              (fun iw => decide (iw.1 < tv))
            = (List.range' (c + L) ws.length).zip ws := by
        refine List.filter_eq_self.mpr ?_
        intro x hx
        have hmem := List.of_mem_zip hx
        have hlt := (List.mem_range'_1.mp hmem.1).2
        simp only [decide_eq_true_eq]
        omega
      have hfst : ((List.range' (c + L) ws.length).zip ws).map Prod.fst
          = List.range' (c + L) ws.length := by
        apply List.map_fst_zip
        simp
      have hgrp := groupByWeight_flatten
        (((List.range' (c + L) ws.length).zip ws).filter
          (fun iw => decide (iw.1 < tv)))
      rw [hfilter, hfst] at hgrp
      have hcomp : (VGAssign.indices ∘ fun wi : ℚ × List Nat =>
          (⟨boneNameFor bn bid, wi.2, wi.1, .replace⟩ : VGAssign))
          = Prod.snd := rfl
      rw [if_neg hw, List.map_map, hcomp, hfilter]
      exact hgrp
  rw [show ((bid, L, ws).2.1 + (bid, L, ws).2.2.length) = L + ws.length from rfl,
    List.map_append, List.flatten_append, h1]
  refine (h2.append_left (List.range' c L)).trans ?_
  rw [List.range'_append_1, Nat.add_comm]

/-! ## Decoded-material characterization -/

/-- The registry name under which a decoded material record is cached:
the lower-cased diffuse-texture name, or `"material"` when empty. -/
def decodedMatName (p : MatRecParams) : String :=
  if strLower p.diffuseTex = "" then "material" else strLower p.diffuseTex

/-- Handle and registry resulting from the cache-probing phase, for
already-resolved field values. -/
def decodeMatResultG (flags : Nat) (emission : Vec3) (alpha metallic : ℚ)
    (env_tex diffuse_tex alphaTex : String) (reg : MatRegistry) :
    BMat × MatRegistry :=
  let mat_name := if diffuse_tex = "" then "material" else diffuse_tex
  match reg.lookup mat_name with
  | some m => (m, reg)
  | none =>
      let mat : BMat := ⟨mat_name, diffuse_tex,
        if hasFlag flags MTL_ADDEFFECT && hasFlag flags MTL_ALPHATEX
          then strLower alphaTex else "",
        env_tex, emission, alpha, metallic, hasFlag flags MTL_COLORKEY⟩
      (mat, (mat_name, mat) :: reg)

/-- Handle and registry resulting from decoding one whole record. -/
def decodeMatResult (p : MatRecParams) (reg : MatRegistry) :
    BMat × MatRegistry :=
  decodeMatResultG p.flags p.emission p.alpha
    (if hasFlag p.flags MTL_ENVMAP then p.metallic else 0)
    (if hasFlag p.flags MTL_ENVMAP then p.envTex else "")
    (strLower p.diffuseTex) p.alphaTex reg

theorem skipBytes_zero (s : BStream) : skipBytes 0 s = some s := by
  cases s <;> simp [skipBytes]

theorem skipBytes_raw18 (rest : BStream) :
    skipBytes 18 (.raw 18 :: rest) = some rest := by
  simp [skipBytes, Tok.size, skipBytes_zero]

theorem read_vector3_false_write_false (v : Vec3) (tail : BStream) :
    read_vector3 false (write_vector3 false v ++ tail) = some (v, tail) := by
  cases v
  simp [read_vector3, write_vector3, read_float_32]

/-- The cache-probing phase consumes exactly the flag-dependent tail — on
the hit path just as on the miss path. -/
theorem deserialize_material_tail_mk (reg : MatRegistry) (flags : Nat)
    (emission : Vec3) (alpha metallic : ℚ) (env_tex diffuse_tex alphaTex : String)
    (rest : BStream) :
    deserialize_material_tail reg flags emission alpha metallic env_tex
        diffuse_tex (mkMaterialTail flags alphaTex ++ rest)
      = some ((decodeMatResultG flags emission alpha metallic env_tex
            diffuse_tex alphaTex reg).1,
          (decodeMatResultG flags emission alpha metallic env_tex
            diffuse_tex alphaTex reg).2, rest) := by
  cases ha : (hasFlag flags MTL_ADDEFFECT && hasFlag flags MTL_ALPHATEX) <;>
    cases hn : hasFlag flags MTL_ANIMTEXDIFF <;>
      rcases hlk : reg.lookup
          (if diffuse_tex = "" then "material" else diffuse_tex) with _ | m <;>
        simp [deserialize_material_tail, mkMaterialTail, decodeMatResultG,
          ha, hn, hlk, read_string, skipBytes_raw18]

set_option maxHeartbeats 2000000 in
/-- Decoding a well-formed material record consumes exactly the record —
independently of the registry contents — and produces `decodeMatResult`. -/
theorem deserialize_material_mkRecord (p : MatRecParams) (reg : MatRegistry)
    (rest : BStream) :
    deserialize_material reg (mkMaterialRecord p ++ rest)
      = some ((decodeMatResult p reg).1, (decodeMatResult p reg).2, rest) := by
  cases he : hasFlag p.flags MTL_ENVMAP <;>
    simp only [deserialize_material, mkMaterialRecord, he, List.cons_append,
      List.append_assoc, List.nil_append, List.singleton_append,
      read_int_32, read_vector3_false_write_false, read_float_32,
      read_string, Option.bind_eq_bind, Option.some_bind,
      Bool.false_eq_true, if_true, if_false, ite_true, ite_false,
      reduceIte, deserialize_material_tail_mk, decodeMatResult] <;>
    simp [Option.pure_def, deserialize_material_tail_mk]

/-! ## Claim theorems: C4, C5, C9 -/

/-- C4: For every valid SkinBinding applied to a mesh (validity: the
declared locked+weighted totals fit in the mesh), vertex-to-bone assignment
follows the positional running-cursor order — the whole pass decomposes
into per-bone blocks, bone `k`'s block starting at the prefix-sum cursor
`cursorStart`, with its locked run first and weighted run second covering
exactly `[cursorStart k, cursorStart k + locked_k + weighted_k)` — every
vertex left over after the cursor pass receives full weight (1) on the
synthetic base bone, and `Σ (locked_i + weighted_i)` plus the base-bone
vertex count equals the total mesh vertex count. -/
theorem C4_skin_cursor_invariant (totalVerts : Nat)
    (lod0 : List (Nat × Nat × List ℚ)) (lods : List (List (Nat × Nat × List ℚ)))
    (boneNodes : List (Nat × String)) (baseBone : String)
    (hvalid : skinCounts lod0 ≤ totalVerts) :
    apply_skinning totalVerts (lod0 :: lods) boneNodes baseBone
      = skinBlocks ((sortByKey boneNodes).map Prod.snd) totalVerts 0 lod0 ++
          (if skinCounts lod0 < totalVerts then
            [⟨baseBone,
              List.range' (skinCounts lod0) (totalVerts - skinCounts lod0),
              1, .add⟩]
          else [])
    ∧ (∀ (k : Nat) (e : Nat × Nat × List ℚ), lod0[k]? = some e →
        (((boneBlock ((sortByKey boneNodes).map Prod.snd) totalVerts
            (cursorStart lod0 k) e).map VGAssign.indices).flatten).Perm
          (List.range' (cursorStart lod0 k) (e.2.1 + e.2.2.length)))
    ∧ skinCounts lod0
        + (List.range' (skinCounts lod0) (totalVerts - skinCounts lod0)).length
        = totalVerts := by
  refine ⟨?_, ?_, ?_⟩
  · rw [apply_skinning, skin_foldl_eq]
    by_cases hlt : skinCounts lod0 < totalVerts
    · have hne : totalVerts - skinCounts lod0 ≠ 0 := by omega
      simp [hlt, hne]
    · have heq : totalVerts - skinCounts lod0 = 0 := by omega
      simp [hlt, heq]
  · intro k e he
    apply boneBlock_indices_perm
    have h1 := skinCounts_take_get lod0 k e he
    have h2 := skinCounts_take_le lod0 (k + 1)
    have hc : cursorStart lod0 k = skinCounts (lod0.take k) := rfl
    omega
  · simp only [List.length_range']
    omega

theorem C4_skin_cursor_invariant_witness :
    skinCounts [(0, 1, [(1:ℚ)/2])] ≤ 3 ∧
    (apply_skinning 3 [[(0, 1, [(1:ℚ)/2])]] [(0, "j0")] "base"
        = skinBlocks ((sortByKey [(0, "j0")]).map Prod.snd) 3 0
            [(0, 1, [(1:ℚ)/2])] ++
            (if skinCounts [(0, 1, [(1:ℚ)/2])] < 3 then
              [⟨"base",
                List.range' (skinCounts [(0, 1, [(1:ℚ)/2])])
                  (3 - skinCounts [(0, 1, [(1:ℚ)/2])]),
                1, .add⟩]
            else [])
      ∧ (∀ (k : Nat) (e : Nat × Nat × List ℚ),
          [(0, 1, [(1:ℚ)/2])][k]? = some e →
          (((boneBlock ((sortByKey [(0, "j0")]).map Prod.snd) 3
              (cursorStart [(0, 1, [(1:ℚ)/2])] k) e).map
                VGAssign.indices).flatten).Perm
            (List.range' (cursorStart [(0, 1, [(1:ℚ)/2])] k)
              (e.2.1 + e.2.2.length)))
      ∧ skinCounts [(0, 1, [(1:ℚ)/2])]
          + (List.range' (skinCounts [(0, 1, [(1:ℚ)/2])])
              (3 - skinCounts [(0, 1, [(1:ℚ)/2])])).length
          = 3) :=
  ⟨by decide,
    C4_skin_cursor_invariant 3 [(0, 1, [(1:ℚ)/2])] [] [(0, "j0")] "base"
      (by decide)⟩

/-- C5: decoding a MaterialRecord consumes exactly the record's bytes for
every registry state — hence the byte cursor after each decode is the same
whether the diffuse-texture name hits the cache or not, the flag-dependent
tail fields (alpha-texture name under add-effect ∧ alpha-texture flags,
18 animated-texture bytes under the animated-diffuse flag) being consumed
on the hit path too — and decoding two records with the same
diffuse-texture name yields one material handle used by both. -/
theorem C5_material_cache_idempotence :
    (∀ (p : MatRecParams) (reg : MatRegistry) (rest : BStream),
        deserialize_material reg (mkMaterialRecord p ++ rest)
          = some ((decodeMatResult p reg).1, (decodeMatResult p reg).2, rest)) ∧
    (∀ (p q : MatRecParams) (reg : MatRegistry) (rest : BStream),
        ∃ m₁ reg₁ m₂ reg₂,
          deserialize_material reg
              (mkMaterialRecord p ++
                (mkMaterialRecord { q with diffuseTex := p.diffuseTex } ++ rest))
            = some (m₁, reg₁,
                mkMaterialRecord { q with diffuseTex := p.diffuseTex } ++ rest) ∧
          deserialize_material reg₁
              (mkMaterialRecord { q with diffuseTex := p.diffuseTex } ++ rest)
            = some (m₂, reg₂, rest) ∧
          m₂ = m₁) := by
  constructor
  · exact deserialize_material_mkRecord
  · intro p q reg rest
    refine ⟨(decodeMatResult p reg).1, (decodeMatResult p reg).2,
      (decodeMatResult { q with diffuseTex := p.diffuseTex }
        (decodeMatResult p reg).2).1,
      (decodeMatResult { q with diffuseTex := p.diffuseTex }
        (decodeMatResult p reg).2).2,
      deserialize_material_mkRecord p reg _,
      deserialize_material_mkRecord _ _ rest, ?_⟩
    rcases hlk : reg.lookup
        (if strLower p.diffuseTex = "" then "material"
         else strLower p.diffuseTex) with _ | m <;>
      simp [decodeMatResult, decodeMatResultG, hlk, List.lookup]

/-- C9: applying the axis swap twice is the identity for every 3-vector
(including `(0,0,0)`) and every quaternion (including unit quaternions),
and the `reorder=True` read of the binary primitive codec undoes the
`reorder=True` write's component swap. -/
theorem C9_axis_swap_involution :
    (∀ v : Vec3, v.swapYZ.swapYZ = v) ∧
    (∀ q : Quat, q.swapYZ.swapYZ = q) ∧
    (∀ (v : Vec3) (rest : BStream),
        read_vector3 true (write_vector3 true v ++ rest) = some (v, rest)) ∧
    (∀ (q : Quat) (rest : BStream),
        read_quat true (write_quat true q ++ rest) = some (q, rest)) := by
  refine ⟨?_, ?_, ?_, ?_⟩
  · intro v; cases v; rfl
  · intro q; cases q; rfl
  · intro v rest; cases v
    simp [read_vector3, write_vector3, read_float_32]
  · intro q rest; cases q
    simp [read_quat, write_quat, read_float_32]

/-! ## Geometry helpers for the armature model -/

instance : Add Vec3 := ⟨fun a b => ⟨a.x + b.x, a.y + b.y, a.z + b.z⟩⟩
instance : Sub Vec3 := ⟨fun a b => ⟨a.x - b.x, a.y - b.y, a.z - b.z⟩⟩

def Vec3.smul (c : ℚ) (v : Vec3) : Vec3 := ⟨c * v.x, c * v.y, c * v.z⟩

def Vec3.cross (a b : Vec3) : Vec3 :=
  ⟨a.y * b.z - a.z * b.y, a.z * b.x - a.x * b.z, a.x * b.y - a.y * b.x⟩

def Vec3.dot (a b : Vec3) : ℚ := a.x * b.x + a.y * b.y + a.z * b.z

def Vec3.normSq (v : Vec3) : ℚ := v.x * v.x + v.y * v.y + v.z * v.z

/-- Exact rational square root, when it exists. The Python code computes the
float square root; in the exact model a vector length is available exactly
iff it is rational. -/
def ratSqrt (q : ℚ) : Option ℚ :=
  if q < 0 then none
  else
    let sn := Nat.sqrt q.num.toNat
    let sd := Nat.sqrt q.den
    if sn * sn = q.num.toNat ∧ sd * sd = q.den then some ((sn : ℚ) / (sd : ℚ))
    else none

/-- `mathutils.Vector.normalized()`: the zero vector normalizes to the zero
vector; a vector of irrational length has no exact-model normalization
(`none`). -/
def qnormalize (v : Vec3) : Option Vec3 :=
  match ratSqrt v.normSq with
  | none => none
  | some r =>
      if r = 0 then some ⟨0, 0, 0⟩
      else some ⟨v.x / r, v.y / r, v.z / r⟩

/-- Rotation of a vector by a (unit) quaternion:
`v + 2w (qv × v) + 2 (qv × (qv × v))`. -/
def quatRotate (q : Quat) (v : Vec3) : Vec3 :=
  let qv : Vec3 := ⟨q.x, q.y, q.z⟩
  let t := Vec3.cross qv v
  v + Vec3.smul (2 * q.w) t + Vec3.smul 2 (Vec3.cross qv t)

/-- A `mathutils.Matrix` of the shape `Translation(pos) @ rot @ Diagonal(scale)`
(the only shape this codec builds): `to_translation()` is `pos`,
`to_scale()` is `scale` (exact for unit `rot`), and the 3×3 block applied
to a vector is `rot · (scale ⊙ v)`. -/
structure TMat where
  pos : Vec3
  rot : Quat
  scale : Vec3
deriving DecidableEq, Repr

/-- The 3×3 block of the matrix applied to a vector. -/
def TMat.lin3 (m : TMat) (v : Vec3) : Vec3 :=
  quatRotate m.rot ⟨m.scale.x * v.x, m.scale.y * v.y, m.scale.z * v.z⟩

/-! ## Frame registry entries -/

/-- A value of `self.frames_map`: either a created scene object (keyed into
the decode-session object registry) or — for Joint frames — the bone's name
string. -/
inductive FrameEntry where
  | obj (id : Nat)
  | jointName (s : String)
deriving DecidableEq, Repr

/-! ## Armature construction (`import_4ds.py`, `build_armature`) -/

/-- One entry of `self.joints`: `(name, transform_mat, parent_id, bone_id)`
as recorded by `deserialize_frame` for a Joint frame. -/
structure ArmJoint where
  name : String
  mat : TMat
  parentId : Nat
  boneId : Nat
deriving DecidableEq, Repr

/-- An edit bone created by `build_armature`. The tail is
`head + 0.15 · normalize(forward)` where `forward` is the matrix's local
Y axis; `none` when the normalization is irrational in the exact model. -/
structure EditBone where
  name : String
  parent : Option String
  head : Vec3
  tail : Option Vec3
deriving DecidableEq, Repr

/-- The `NotImplementedError("Non-uniform armature scaling is not
supported.")` raised by `build_armature`. -/
inductive ArmErr where
  | nonUniformScale
deriving DecidableEq, Repr

/-- The base bone created by `deserialize_singlemesh`:
head `(0, -0.3, 0)`, tail `(0, 0, 0)`. -/
def baseEditBone (baseBone : String) : EditBone :=
  ⟨baseBone, none, ⟨0, -(3/10), 0⟩, some ⟨0, 0, 0⟩⟩

def mkEditBone (j : ArmJoint) (parent : String) (head : Vec3) : EditBone :=
  { name := j.name
    parent := some parent
    head := head
    tail := (qnormalize (j.mat.lin3 ⟨0, 1, 0⟩)).map
      (fun u => head + Vec3.smul (3/20) u) }

/-- One iteration of the joint loop of `build_armature`: root joints
(`parent_id == 1`) hang off the base bone and must agree on one scale
factor; non-root joints must be unit-scaled and attach to their parent bone
when the parent frame resolves to an already-created bone name. -/
def buildArmatureStep (baseBone : String) (framesMap : List (Nat × FrameEntry))
    (st : List (String × EditBone) × Option Vec3) (j : ArmJoint) :
    Except ArmErr (List (String × EditBone) × Option Vec3) :=
  let bm := st.1
  let factor := st.2
  let loc := j.mat.pos
  let scale := j.mat.scale
  if j.parentId = 1 then
    match factor with
    | some f =>
        if f ≠ scale then .error .nonUniformScale
        else .ok (bm ++ [(j.name, mkEditBone j baseBone loc)], some f)
    | none => .ok (bm ++ [(j.name, mkEditBone j baseBone loc)], some scale)
  else
    if scale ≠ (⟨1, 1, 1⟩ : Vec3) then .error .nonUniformScale
    else
      match framesMap.lookup j.parentId with
      | some (.jointName pn) =>
          match bm.lookup pn with
          | some pb =>
              .ok (bm ++ [(j.name, mkEditBone j pn (loc + pb.head))], factor)
          | none =>
              .ok (bm ++ [(j.name, mkEditBone j baseBone loc)], factor)
      | _ => .ok (bm ++ [(j.name, mkEditBone j baseBone loc)], factor)

def buildArmatureLoop (baseBone : String) (framesMap : List (Nat × FrameEntry)) :
    List ArmJoint → (List (String × EditBone) × Option Vec3) →
    Except ArmErr (List (String × EditBone) × Option Vec3)
  | [], st => .ok st
  | j :: r, st =>
      match buildArmatureStep baseBone framesMap st j with
      | .ok st' => buildArmatureLoop baseBone framesMap r st'
      | .error e => .error e

/-- `The4DSImporter.build_armature`: early-returns when there is no
armature or no joints; otherwise runs the joint loop starting from the
base-bone map and the session's (initially absent) scale factor. -/
def build_armature (hasArm : Bool) (joints : List ArmJoint) (baseBone : String)
    (framesMap : List (Nat × FrameEntry)) (factor0 : Option Vec3) :
    Except ArmErr (List (String × EditBone) × Option Vec3) :=
  if hasArm ∧ joints ≠ [] then
    buildArmatureLoop baseBone framesMap joints
      ([(baseBone, baseEditBone baseBone)], factor0)
  else .ok ([], factor0)

/-! ## Post-frame-loop phase of `import_file` -/

/-- One entry of `self.skinned_meshes`. -/
structure SkinnedMesh where
  meshId : Nat
  totalVerts : Nat
  vertexGroups : List (List (Nat × Nat × List ℚ))
deriving Repr

structure PostFramesResult where
  armatureCompleted : Bool
  skinApplications : List (Nat × List VGAssign)
deriving DecidableEq, Repr

/-- The armature/skinning phase of `import_file`
(`if self.armature and self.joints: build_armature(); for each skinned
mesh: apply_skinning(...)`). With `catchScaleErr` (the
`Mafia_Formats`/`Mafia_Importer`/`Scene2Importer` subclass override that
wraps `build_armature` in `try/except NotImplementedError`), a
non-uniform-scale error is swallowed and the phase continues — including
the skinning loop; without it the exception propagates. -/
def importPostFrames (catchScaleErr hasArm : Bool) (joints : List ArmJoint)
    (baseBone : String) (framesMap : List (Nat × FrameEntry))
    (factor0 : Option Vec3) (skinned : List SkinnedMesh)
    (boneNodes : List (Nat × String)) : Except ArmErr PostFramesResult :=
  if hasArm ∧ joints ≠ [] then
    let skinApps := skinned.map fun sm =>
      (sm.meshId, apply_skinning sm.totalVerts sm.vertexGroups boneNodes baseBone)
    match build_armature hasArm joints baseBone framesMap factor0 with
    | .ok _ => .ok ⟨true, skinApps⟩
    | .error e => if catchScaleErr then .ok ⟨false, skinApps⟩ else .error e
  else .ok ⟨false, []⟩

/-! ## Deferred parenting resolver (`apply_deferred_parenting`) -/

/-- Frame-type constants (`FRAME_*`). -/
def FRAME_VISUAL   : Nat := 1
def FRAME_SECTOR   : Nat := 5
def FRAME_DUMMY    : Nat := 6
def FRAME_TARGET   : Nat := 7
def FRAME_JOINT    : Nat := 10
def FRAME_OCCLUDER : Nat := 12

/-- One parenting operation issued by the resolution pass. -/
inductive ParentAction where
  | toBone (childFrame : Nat) (boneName : String)
  | toObject (childFrame : Nat) (parentFrame : Nat)
deriving DecidableEq, Repr

/-- Resolution of one queued `(child_frame_index, parent_index)` pair:
self-parenting is ignored; missing or string-valued children are skipped;
a Joint-typed parent goes through the bone maps and the armature's bone
list to a bone-relative parenting; anything else is plain object
parenting; every unresolved case is a logged warning and produces no
action. -/
def resolveParentLink (framesMap : List (Nat × FrameEntry))
    (frameTypes : List (Nat × Nat)) (bonesMap : List (Nat × String))
    (hasArm : Bool) (armBones : List String) (link : Nat × Nat) :
    List ParentAction :=
  if link.1 = link.2 then []
  else
    match framesMap.lookup link.1 with
    | none => []
    | some (.jointName _) => []
    | some (.obj _) =>
        match framesMap.lookup link.2 with
        | none => []
        | some parentEntry =>
            if (frameTypes.lookup link.2).getD 0 = FRAME_JOINT then
              if ¬hasArm then []
              else
                match bonesMap.lookup link.2 with
                | none => []
                | some bn => if bn ∈ armBones then [.toBone link.1 bn] else []
            else
              match parentEntry with
              | .jointName _ => []
              | .obj _ => [.toObject link.1 link.2]

/-- `The4DSImporter.apply_deferred_parenting`: walk the queue in order,
resolving each link. (A total function: the pass cannot loop.) -/
def apply_deferred_parenting (parentingInfo : List (Nat × Nat))
    (framesMap : List (Nat × FrameEntry)) (frameTypes : List (Nat × Nat))
    (bonesMap : List (Nat × String)) (hasArm : Bool)
    (armBones : List String) : List ParentAction :=
  (parentingInfo.map
    (resolveParentLink framesMap frameTypes bonesMap hasArm armBones)).flatten

/-! ## Armature-scale lemmas -/

theorem buildArmatureStep_some_factor (baseBone : String)
    (framesMap : List (Nat × FrameEntry)) (bm : List (String × EditBone))
    (f : Vec3) (j : ArmJoint) (st' : List (String × EditBone) × Option Vec3)
    (h : buildArmatureStep baseBone framesMap (bm, some f) j = .ok st') :
    st'.2 = some f ∧ (j.parentId = 1 → j.mat.scale = f) := by
  unfold buildArmatureStep at h
  simp only at h
  split at h
  · rename_i h1
    split at h
    · exact absurd h (by simp)
    · rename_i hne
      push_neg at hne
      cases h
      exact ⟨rfl, fun _ => hne.symm⟩
  · rename_i h1
    split at h
    · exact absurd h (by simp)
    · split at h
      · split at h
        · cases h; exact ⟨rfl, fun hr => absurd hr h1⟩
        · cases h; exact ⟨rfl, fun hr => absurd hr h1⟩
      · cases h; exact ⟨rfl, fun hr => absurd hr h1⟩

theorem buildArmatureStep_none_factor (baseBone : String)
    (framesMap : List (Nat × FrameEntry)) (bm : List (String × EditBone))
    (j : ArmJoint) (st' : List (String × EditBone) × Option Vec3)
    (h : buildArmatureStep baseBone framesMap (bm, none) j = .ok st') :
    st'.2 = if j.parentId = 1 then some j.mat.scale else none := by
  unfold buildArmatureStep at h
  simp only at h
  split at h
  · rename_i h1
    cases h
    simp [h1]
  · rename_i h1
    rw [if_neg h1]
    split at h
    · exact absurd h (by simp)
    · split at h
      · split at h
        · cases h; rfl
        · cases h; rfl
      · cases h; rfl

theorem buildLoop_ok_root_scale (baseBone : String)
    (framesMap : List (Nat × FrameEntry)) :
    ∀ (js : List ArmJoint) (bm : List (String × EditBone)) (f : Vec3)
      (res : List (String × EditBone) × Option Vec3),
      buildArmatureLoop baseBone framesMap js (bm, some f) = .ok res →
      ∀ j ∈ js, j.parentId = 1 → j.mat.scale = f := by
  intro js
  induction js with
  | nil => intro bm f res _ j hj; simp at hj
  | cons j0 r ih =>
      intro bm f res hok j hj hroot
      rw [buildArmatureLoop] at hok
      cases hstep : buildArmatureStep baseBone framesMap (bm, some f) j0 with
      | error e => rw [hstep] at hok; exact absurd hok (by simp)
      | ok st' =>
          rw [hstep] at hok
          obtain ⟨hfac, hrs⟩ :=
            buildArmatureStep_some_factor baseBone framesMap bm f j0 st' hstep
          rcases List.mem_cons.mp hj with rfl | hmem
          · exact hrs hroot
          · have hst : st' = (st'.1, some f) := by
              rw [← hfac]
            rw [hst] at hok
            exact ih st'.1 f res hok j hmem hroot

theorem buildLoop_ok_roots_eq (baseBone : String)
    (framesMap : List (Nat × FrameEntry)) :
    ∀ (js : List ArmJoint) (bm : List (String × EditBone))
      (res : List (String × EditBone) × Option Vec3),
      buildArmatureLoop baseBone framesMap js (bm, none) = .ok res →
      ∀ j₁ ∈ js, ∀ j₂ ∈ js, j₁.parentId = 1 → j₂.parentId = 1 →
        j₁.mat.scale = j₂.mat.scale := by
  intro js
  induction js with
  | nil => intro bm res _ j₁ hj₁; simp at hj₁
  | cons j0 r ih =>
      intro bm res hok j₁ hj₁ j₂ hj₂ h1 h2
      rw [buildArmatureLoop] at hok
      cases hstep : buildArmatureStep baseBone framesMap (bm, none) j0 with
      | error e => rw [hstep] at hok; exact absurd hok (by simp)
      | ok st' =>
          rw [hstep] at hok
          have hfac := buildArmatureStep_none_factor baseBone framesMap bm j0
            st' hstep
          by_cases hr : j0.parentId = 1
          · rw [if_pos hr] at hfac
            have hst : st' = (st'.1, some j0.mat.scale) := by
              rw [← hfac]
            rw [hst] at hok
            have hall := buildLoop_ok_root_scale baseBone framesMap r st'.1
              j0.mat.scale res hok
            rcases List.mem_cons.mp hj₁ with rfl | hm₁ <;>
              rcases List.mem_cons.mp hj₂ with rfl | hm₂
            · rfl
            · exact (hall j₂ hm₂ h2).symm
            · exact hall j₁ hm₁ h1
            · rw [hall j₁ hm₁ h1, hall j₂ hm₂ h2]
          · rw [if_neg hr] at hfac
            have hst : st' = (st'.1, none) := by
              rw [← hfac]
            rw [hst] at hok
            rcases List.mem_cons.mp hj₁ with rfl | hm₁
            · exact absurd h1 hr
            rcases List.mem_cons.mp hj₂ with rfl | hm₂
            · exact absurd h2 hr
            exact ih st'.1 res hok j₁ hm₁ j₂ hm₂ h1 h2

/-- Inconsistent root scale factors force the armature build to fail with
the non-uniform-scale error. -/
theorem build_armature_inconsistent_roots (joints : List ArmJoint)
    (baseBone : String) (framesMap : List (Nat × FrameEntry))
    (h : ∃ j₁ ∈ joints, ∃ j₂ ∈ joints,
      j₁.parentId = 1 ∧ j₂.parentId = 1 ∧ j₁.mat.scale ≠ j₂.mat.scale) :
    build_armature true joints baseBone framesMap none
      = .error .nonUniformScale := by
  obtain ⟨j₁, hj₁, j₂, hj₂, hp₁, hp₂, hne⟩ := h
  have hnonnil : joints ≠ [] := by
    intro hnil
    rw [hnil] at hj₁
    simp at hj₁
  cases hres : build_armature true joints baseBone framesMap none with
  | error e => cases e; rfl
  | ok res =>
      exfalso
      unfold build_armature at hres
      rw [if_pos ⟨rfl, hnonnil⟩] at hres
      exact hne (buildLoop_ok_roots_eq baseBone framesMap joints
        [(baseBone, baseEditBone baseBone)] res hres j₁ hj₁ j₂ hj₂ hp₁ hp₂)

/-! ## C6: non-uniform armature scale -/

/-- C6 (amended): when the joints decode to inconsistent root scale
factors, armature construction raises the non-uniform-scale error
(`NotImplementedError`, the spec's `NonUniformScaleError`) — it fails
loudly rather than silently approximating — and the caller-level wrapper
(the importer subclasses' `build_armature` override) catches the error so
the import continues without exception and the decoded meshes stay
present; however the importer then still runs the skinning loop, so each
skinned mesh still receives its armature-modifier/vertex-group
application rather than being left un-skinned. -/
theorem C6_nonuniform_scale_amended (joints : List ArmJoint)
    (baseBone : String) (framesMap : List (Nat × FrameEntry))
    (skinned : List SkinnedMesh) (boneNodes : List (Nat × String))
    (h : ∃ j₁ ∈ joints, ∃ j₂ ∈ joints,
      j₁.parentId = 1 ∧ j₂.parentId = 1 ∧ j₁.mat.scale ≠ j₂.mat.scale) :
    build_armature true joints baseBone framesMap none
      = .error .nonUniformScale
    ∧ importPostFrames true true joints baseBone framesMap none skinned
        boneNodes
      = .ok ⟨false, skinned.map (fun sm =>
          (sm.meshId,
            apply_skinning sm.totalVerts sm.vertexGroups boneNodes
              baseBone))⟩ := by
  have herr := build_armature_inconsistent_roots joints baseBone framesMap h
  have hnonnil : joints ≠ [] := by
    obtain ⟨j₁, hj₁, _⟩ := h
    intro hnil
    rw [hnil] at hj₁
    simp at hj₁
  refine ⟨herr, ?_⟩
  unfold importPostFrames
  rw [if_pos ⟨rfl, hnonnil⟩]
  rw [herr]
  rfl

def c6joint1 : ArmJoint := ⟨"a", ⟨⟨0, 0, 0⟩, ⟨1, 0, 0, 0⟩, ⟨1, 1, 1⟩⟩, 1, 0⟩
def c6joint2 : ArmJoint := ⟨"b", ⟨⟨0, 0, 0⟩, ⟨1, 0, 0, 0⟩, ⟨2, 2, 2⟩⟩, 1, 1⟩
def c6mesh : SkinnedMesh := ⟨5, 3, [[(0, 1, [])]]⟩
def c6meshW : SkinnedMesh := ⟨7, 2, [[(1, 2, [])]]⟩

/-- C6 counterexample: two root joints with scales `(1,1,1)` and `(2,2,2)`.
Armature construction raises the non-uniform-scale error and the wrapper
catches it and continues — but the skinning loop still runs and attaches
skin data (vertex-group assignments under the armature modifier) to the
mesh, so the mesh is *not* left un-skinned as the claim states. -/
theorem C6_counterexample :
    build_armature true [c6joint1, c6joint2] "base" [] none
      = .error .nonUniformScale
    ∧ importPostFrames true true [c6joint1, c6joint2] "base" [] none
        [c6mesh] [(0, "a"), (1, "b")]
      = .ok ⟨false,
          [(5, apply_skinning 3 [[(0, 1, [])]] [(0, "a"), (1, "b")] "base")]⟩
    ∧ apply_skinning 3 [[(0, 1, [])]] [(0, "a"), (1, "b")] "base" ≠ [] := by
  refine ⟨by rfl, by rfl, by decide⟩

theorem C6_nonuniform_scale_amended_witness :
    (∃ j₁ ∈ [c6joint1, c6joint2], ∃ j₂ ∈ [c6joint1, c6joint2],
      j₁.parentId = 1 ∧ j₂.parentId = 1 ∧ j₁.mat.scale ≠ j₂.mat.scale) ∧
    (build_armature true [c6joint1, c6joint2] "base2" [] none
        = .error .nonUniformScale
     ∧ importPostFrames true true [c6joint1, c6joint2] "base2" [] none
         [c6meshW] [(0, "a"), (1, "b")]
       = .ok ⟨false, [c6meshW].map (fun sm =>
           (sm.meshId,
             apply_skinning sm.totalVerts sm.vertexGroups [(0, "a"), (1, "b")]
               "base2"))⟩) :=
  ⟨by decide,
    C6_nonuniform_scale_amended [c6joint1, c6joint2] "base2" []
      [c6meshW] [(0, "a"), (1, "b")] (by decide)⟩

/-! ## Decoded scene objects -/

/-- Visual-type constants (`VISUAL_*`). -/
def VISUAL_OBJECT      : Nat := 0
def VISUAL_LITOBJECT   : Nat := 1
def VISUAL_SINGLEMESH  : Nat := 2
def VISUAL_SINGLEMORPH : Nat := 3
def VISUAL_BILLBOARD   : Nat := 4
def VISUAL_MORPH       : Nat := 5

/-- A Blender custom-property value stored on a decoded object. -/
inductive PropVal where
  | s (v : String)
  | q (v : ℚ)
  | n (v : Nat)
  | natList (v : List Nat)
  | vec (v : Vec3)
  | strPair (a b : String)
  | quad (a b c d : ℚ)
  | flag (v : Bool)
deriving DecidableEq, Repr

/-- One decoded triangle: corner vertex indices (after the `(i0, i2, i1)`
winding swap), the face-group material-slot ordinal, and the per-corner
UVs (V already negated at read time). -/
structure DecFace where
  a : Nat
  b : Nat
  c : Nat
  slot : Nat
  uvs : Vec2 × Vec2 × Vec2
deriving DecidableEq, Repr

/-- A decoded visual mesh after the bmesh pipeline: vertex positions,
faces, the flat per-loop custom normal list (3 entries per face, in face
order; `none` where the exact-arithmetic normalization is irrational),
and the per-face-group material slots. -/
structure DecodedMesh where
  verts : List Vec3
  faces : List DecFace
  loopNormals : List (Option Vec3)
  slotMats : List (Option BMat)
deriving DecidableEq, Repr

def emptyDecodedMesh : DecodedMesh := ⟨[], [], [], []⟩

/-- The payload of a created Blender object. `rawMesh` stands for meshes
built with `from_pydata` (sectors, occluders, portals). -/
inductive BlendData where
  | meshData (m : DecodedMesh)
  | rawMesh (verts : List Vec3) (faces : List (Nat × Nat × Nat))
  | emptyData
  | armatureData (baseBone : String)
deriving DecidableEq, Repr

/-- A created Blender object (mesh object, empty, or armature). -/
structure BlendObj where
  name : String
  data : BlendData
  matrixLocal : Option TMat
  location : Option Vec3
  rotationQ : Option Quat
  scaleV : Option Vec3
  parentId : Option Nat
  props : List (String × PropVal)
  hidden : Bool
  wire : Bool
  showName : Bool
deriving DecidableEq, Repr

def mkBlendObj (name : String) (data : BlendData) : BlendObj :=
  ⟨name, data, none, none, none, none, none, [], false, false, false⟩

/-! ## The bmesh pipeline of `deserialize_object` -/

/-- Normalized unordered-edge key. -/
def ekey (a b : Nat) : Nat × Nat := if a ≤ b then (a, b) else (b, a)

def sort3 (a b c : Nat) : Nat × Nat × Nat :=
  let lo := min a (min b c)
  let hi := max a (max b c)
  let mid := a + b + c - lo - hi
  (lo, mid, hi)

/-- `bmesh` considers a face a duplicate of another when it uses the same
vertex set. -/
def sameVertexSet (f : DecFace) (t : Nat × Nat × Nat) : Bool :=
  sort3 f.a f.b f.c = sort3 t.1 t.2.1 t.2.2

def distSq (a b : Vec3) : ℚ := Vec3.normSq (a - b)

/-- Interface model of `bmesh.ops.remove_doubles(dist=d)`: each vertex
welds to the earliest vertex within distance `d`; only self-welded
vertices survive, faces are remapped and faces degenerated by the weld
are dropped. Exact whenever welding produces no chains — in particular
whenever every pair of vertices is either coincident or farther apart
than `d`, the only regime any theorem below relies on. -/
def removeDoubles (d : ℚ) (verts : List Vec3) (faces : List DecFace) :
    List Vec3 × List DecFace :=
  let n := verts.length
  let target : Nat → Nat := fun i =>
    ((List.range n).find?
      (fun j => distSq (verts.getD j ⟨0,0,0⟩) (verts.getD i ⟨0,0,0⟩) ≤ d * d)).getD i
  let kept := (List.range n).filter (fun i => target i = i)
  let remap : Nat → Nat := fun i => kept.findIdx (fun x => x = target i)
  let verts' := kept.map (fun i => verts.getD i ⟨0,0,0⟩)
  let faces' := faces.filterMap (fun f =>
    let a := remap f.a
    let b := remap f.b
    let c := remap f.c
    if a = b ∨ b = c ∨ a = c then none
    else some { f with a := a, b := b, c := c })
  (verts', faces')

def faceCross (verts : List Vec3) (f : DecFace) : Vec3 :=
  let pa := verts.getD f.a ⟨0, 0, 0⟩
  let pb := verts.getD f.b ⟨0, 0, 0⟩
  let pc := verts.getD f.c ⟨0, 0, 0⟩
  Vec3.cross (pb - pa) (pc - pa)

def faceEdges (f : DecFace) : List (Nat × Nat) :=
  [ekey f.a f.b, ekey f.b f.c, ekey f.c f.a]

def faceCorners (f : DecFace) : List Nat := [f.a, f.b, f.c]

/-- Sharpness test of `apply_average_face_area_normals`: an edge is smooth
when it is not 2-manifold, when either face normal has zero length, or
when the angle between the face normals is at most 60°. Over exact
rationals, `angle n₁ n₂ ≤ 60°` for the unit normals `cᵢ/|cᵢ|` is
`dot c₁ c₂ ≥ |c₁||c₂|/2`, i.e. `0 ≤ dot ∧ 4·dot² ≥ |c₁|²·|c₂|²`. -/
def edgeSmooth (verts : List Vec3) (faces : List DecFace) (e : Nat × Nat) :
    Bool :=
  match faces.filter (fun f => e ∈ faceEdges f) with
  | [f1, f2] =>
      let c1 := faceCross verts f1
      let c2 := faceCross verts f2
      if c1 = ⟨0, 0, 0⟩ ∨ c2 = ⟨0, 0, 0⟩ then true
      else
        decide (0 ≤ Vec3.dot c1 c2 ∧
          Vec3.normSq c1 * Vec3.normSq c2 ≤ 4 * Vec3.dot c1 c2 * Vec3.dot c1 c2)
  | _ => true

/-- Whether `linked` shares a smooth edge with `f`. -/
def sharesSmoothEdge (verts : List Vec3) (faces : List DecFace)
    (linked f : DecFace) : Bool :=
  (faceEdges linked).any (fun e => e ∈ faceEdges f ∧ edgeSmooth verts faces e)

/-- The faces contributing to the loop normal at vertex `v` of face `fi`:
the face itself plus every other face of `v` sharing a smooth edge. -/
def contributingFaces (verts : List Vec3) (faces : List DecFace)
    (fi : Nat) (v : Nat) : List DecFace :=
  (faces.enum.filter (fun g =>
    v ∈ faceCorners g.2 ∧
      (g.1 = fi ∨ sharesSmoothEdge verts faces g.2
        ((faces.getD fi ⟨0, 0, 0, 0, (⟨0,0⟩, ⟨0,0⟩, ⟨0,0⟩)⟩))))).map Prod.snd

/-- The loop normal at vertex `v` of face index `fi`: the normalized
area-weighted accumulation `Σ n_g · area_g = Σ cross_g / 2` over the
contributing faces, with the source's `(0,0,1)` fallback when the
accumulated area is zero. -/
def loopNormalAt (verts : List Vec3) (faces : List DecFace) (fi v : Nat) :
    Option Vec3 :=
  let contrib := contributingFaces verts faces fi v
  let accum := contrib.foldl
    (fun acc g => acc + Vec3.smul (1/2) (faceCross verts g)) ⟨0, 0, 0⟩
  if contrib.all (fun g => faceCross verts g = ⟨0, 0, 0⟩) then
    some ⟨0, 0, 1⟩
  else qnormalize accum

/-- The flat loop-normal list set by `normals_split_custom_set`: three
entries per face, faces in order, corners in face-vertex order. -/
def loopNormalsOf (verts : List Vec3) (faces : List DecFace) :
    List (Option Vec3) :=
  (faces.enum.map (fun g =>
    (faceCorners g.2).map (loopNormalAt verts faces g.1))).flatten

/-- Assembly of one drawn LOD: optional `remove_doubles` weld, then the
custom-normal recomputation. -/
def buildLODMesh (removeDbl : Bool) (vertsRaw : List (Vec3 × Vec3 × Vec2))
    (faces : List DecFace) (slots : List (Option BMat)) : DecodedMesh :=
  let verts := vertsRaw.map (·.1)
  let vf := if removeDbl then removeDoubles (1/1000) verts faces
            else (verts, faces)
  ⟨vf.1, vf.2, loopNormalsOf vf.1 vf.2, slots⟩

/-- `should_be_wireframe`: a mesh object is wireframed when it has no
material slots or every slot's material is blank. A decoded material
always has a linked output node (`set_material_data`), so at this
interface a slot is blank exactly when it holds no material. -/
def should_be_wireframe (m : DecodedMesh) : Bool :=
  m.slotMats.isEmpty || m.slotMats.all Option.isNone

/-! ## Importer session state -/

/-- The mutable decode-session state of `The4DSImporter` (the fields the
frame codec touches). `objs` is the created-object registry; objects are
referenced by their index in it. -/
structure ImpState where
  version : Nat
  drawLODS : Bool
  frameIndex : Nat
  framesMap : List (Nat × FrameEntry)
  frameTypes : List (Nat × Nat)
  parentingInfo : List (Nat × Nat)
  joints : List ArmJoint
  boneNodes : List (Nat × String)
  bonesMap : List (Nat × String)
  armatureId : Option Nat
  baseBoneName : Option String
  skinnedMeshes : List SkinnedMesh
  objs : List BlendObj
  frames : List Nat
deriving Repr

def initImpState (version : Nat) (drawLODS : Bool) : ImpState :=
  ⟨version, drawLODS, 1, [], [], [], [], [], [], none, none, [], [], []⟩

def modifyObj (st : ImpState) (id : Nat) (f : BlendObj → BlendObj) :
    ImpState :=
  { st with objs := st.objs.enum.map (fun io => if io.1 = id then f io.2 else io.2) }

def getObj (st : ImpState) (id : Nat) : BlendObj :=
  st.objs.getD id (mkBlendObj "" .emptyData)

/-- `make_mesh` of `deserialize_frame`: create a mesh object, link it,
append it to `frames`, register it at the current frame index, and apply
the local transform unless suppressed. -/
def makeMesh (st : ImpState) (name : String) (applyLocal : Bool) (tm : TMat) :
    ImpState × Nat :=
  let id := st.objs.length
  let obj := { mkBlendObj name (.meshData emptyDecodedMesh) with
    matrixLocal := if applyLocal then some tm else none }
  ({ st with
      objs := st.objs ++ [obj]
      frames := st.frames ++ [id]
      framesMap := (st.frameIndex, .obj id) :: st.framesMap }, id)

/-- `make_dummy` of `deserialize_frame`. -/
def makeDummy (st : ImpState) (name : String) : ImpState × Nat :=
  let id := st.objs.length
  let obj := mkBlendObj name .emptyData
  ({ st with
      objs := st.objs ++ [obj]
      frames := st.frames ++ [id]
      framesMap := (st.frameIndex, .obj id) :: st.framesMap }, id)

/-- `setWireFrame`. -/
def setWireFrame (st : ImpState) (id : Nat) (showName : Bool) : ImpState :=
  modifyObj st id (fun o =>
    { o with
        props := o.props ++ [("Mafia.wireframe", .flag true)]
        wire := true
        showName := o.showName || showName })

/-- Hex rendering used for the sector/portal flag custom properties
(`hex(f)`). -/
def hexStr (n : Nat) : String := "0x" ++ String.mk (Nat.toDigits 16 n)

def read_bool (s : BStream) : Option (Bool × BStream) :=
  match s with
  | .u8 n :: r => some (n ≠ 0, r)
  | _ => none

/-! ## Mesh object payload (`deserialize_object`) -/

/-- Read `n` vertices: position and normal in reorder mode, then the UV
with its V component negated. -/
def readVertsN : Nat → BStream → Option (List (Vec3 × Vec3 × Vec2) × BStream)
  | 0, s => some ([], s)
  | n + 1, s => do
      let (pos, s) ← read_vector3 true s
      let (norm, s) ← read_vector3 true s
      let (uv, s) ← read_vector2 s
      let (rest, s) ← readVertsN n s
      return ((pos, norm, ⟨uv.x, -uv.y⟩) :: rest, s)

/-- `bm.faces.new` on the swapped triple: an out-of-range index is an
uncaught `IndexError` (decode failure); a repeated vertex or an existing
face with the same vertex set is the caught `ValueError` (face skipped,
with its UVs). -/
def addFace (uvs : List Vec2) (nverts slot : Nat) (acc : List DecFace)
    (idxs : Nat × Nat × Nat) : Option (List DecFace) :=
  let sw : Nat × Nat × Nat := (idxs.1, idxs.2.2, idxs.2.1)
  if sw.1 < nverts ∧ sw.2.1 < nverts ∧ sw.2.2 < nverts then
    if sw.1 = sw.2.1 ∨ sw.1 = sw.2.2 ∨ sw.2.1 = sw.2.2 ∨
        acc.any (fun f => sameVertexSet f sw) then
      some acc
    else
      some (acc ++ [⟨sw.1, sw.2.1, sw.2.2, slot,
        (uvs.getD sw.1 ⟨0, 0⟩, uvs.getD sw.2.1 ⟨0, 0⟩, uvs.getD sw.2.2 ⟨0, 0⟩)⟩])
  else none

def readFacesN (uvs : List Vec2) (nverts slot : Nat) :
    Nat → List DecFace → BStream → Option (List DecFace × BStream)
  | 0, acc, s => some (acc, s)
  | n + 1, acc, s => do
      let (idxs, s) ← read_face_indices s
      let acc ← addFace uvs nverts slot acc idxs
      readFacesN uvs nverts slot n acc s

/-- One face group: u16 triangle count, the triangles, then the trailing
1-based material-table reference (0 or out-of-range leaves the slot
empty). -/
def readFaceGroupsN (uvs : List Vec2) (nverts : Nat) (materials : List BMat) :
    Nat → List DecFace → List (Option BMat) → BStream →
    Option (List DecFace × List (Option BMat) × BStream)
  | 0, faces, slots, s => some (faces, slots, s)
  | g + 1, faces, slots, s => do
      let (nf, s) ← read_int_16 s
      let (faces, s) ← readFacesN uvs nverts slots.length nf faces s
      let (matIdx, s) ← read_int_16 s
      let slot := if 0 < matIdx ∧ matIdx ≤ materials.length
        then materials[matIdx - 1]? else none
      readFaceGroupsN uvs nverts materials g faces (slots ++ [slot]) s

/-- The byte-exact seek-skip of an undrawn LOD's face groups:
`num_faces * 6 + 2` bytes per group. -/
def skipFaceGroups : Nat → BStream → Option BStream
  | 0, s => some s
  | g + 1, s => do
      let (nf, s) ← read_int_16 s
      let s ← skipBytes (nf * 6 + 2) s
      skipFaceGroups g s

/-- LODs beyond the first get a fresh `"<name>_lodN"` child object when
they are drawn; otherwise the current object is reused. -/
def objLodNewObj (st : ImpState) (curId lodIdx : Nat) (draw : Bool) :
    ImpState × Nat :=
  if lodIdx > 0 ∧ draw then
    let nm := (getObj st curId).name ++ "_lod" ++ toString lodIdx
    let newObj := { mkBlendObj nm (.meshData emptyDecodedMesh) with
      parentId := some curId }
    ({ st with objs := st.objs ++ [newObj] }, st.objs.length)
  else (st, curId)

/-- The per-LOD loop of `deserialize_object`. `curId` is the object the
loop currently writes to (LOD children chain off it); `lodIdx` counts up,
`rem` counts the remaining LODs. -/
def objLodLoop (materials : List BMat) (drawLODS removeDbl : Bool) :
    Nat → Nat → ImpState → Nat → List Nat → BStream →
    Option (ImpState × List Nat × BStream)
  | _, 0, st, _, acc, s => some (st, acc, s)
  | lodIdx, rem + 1, st, curId, acc, s =>
      let draw := lodIdx = 0 || drawLODS
      let stId : ImpState × Nat := objLodNewObj st curId lodIdx draw
      let st := stId.1
      let curId := stId.2
      do
        let (_clip, s) ← read_float_32 s
        let (nv, s) ← read_int_16 s
        if draw then do
          let (vertsRaw, s) ← readVertsN nv s
          let (ngroups, s) ← read_uint_8 s
          let uvs := vertsRaw.map (·.2.2)
          let (faces, slots, s) ←
            readFaceGroupsN uvs nv materials ngroups [] [] s
          let mesh := buildLODMesh removeDbl vertsRaw faces slots
          let st := modifyObj st curId (fun o =>
            { o with
                data := .meshData mesh
                hidden := o.hidden || decide (lodIdx > 0) })
          objLodLoop materials drawLODS removeDbl (lodIdx + 1) rem st curId
            (acc ++ [nv]) s
        else do
          let s ← skipBytes (32 * nv) s
          let (ngroups, s) ← read_uint_8 s
          let s ← skipFaceGroups ngroups s
          objLodLoop materials drawLODS removeDbl (lodIdx + 1) rem st curId
            (acc ++ [nv]) s

/-- `The4DSImporter.deserialize_object`: the 2-byte instance-id read, the
LOD count, then the per-LOD geometry (or its byte-exact skip for LODs
beyond the first when LOD import is off). Returns the LOD count and the
per-LOD vertex counts. -/
def deserialize_object (st : ImpState) (materials : List BMat) (meshId : Nat)
    (removeDbl : Bool) (s : BStream) :
    Option (ImpState × Nat × List Nat × BStream) := do
  let (_instanceId, s) ← read_int_16 s
  let (numLods, s) ← read_uint_8 s
  let (st, vpl, s) ←
    objLodLoop materials st.drawLODS removeDbl 0 numLods st meshId [] s
  return (st, numLods, vpl, s)

/-! ## SingleMesh payload (`deserialize_singlemesh`) -/

/-- Per-bone skin records of one LOD: inverse-bind matrix (discarded),
locked and weighted counts, the file bone id (used to resolve the joint
parent), the redundant per-bone box, and the weight scalars. -/
def readBones (joints : List ArmJoint) :
    Nat → Nat → BStream →
    Option (List (Nat × Nat × List ℚ) × List (Nat × Nat) × BStream)
  | _, 0, s => some ([], [], s)
  | boneIdx, n + 1, s => do
      let (_invBind, s) ← read_floats 16 s
      let (numLocked, s) ← read_int_32 s
      let (numWeighted, s) ← read_int_32 s
      let (fileBoneId, s) ← read_int_32 s
      let (_boneMin, s) ← read_vector3 true s
      let (_boneMax, s) ← read_vector3 true s
      let (weights, s) ← read_floats numWeighted s
      let parentId := ((joints.find? (fun j => j.boneId = fileBoneId)).map
        (·.parentId)).getD 0
      let (groups, b2p, s) ← readBones joints (boneIdx + 1) n s
      return ((boneIdx, numLocked, weights) :: groups,
        (boneIdx, parentId) :: b2p, s)

def readSkinLods (joints : List ArmJoint) :
    Nat → BStream →
    Option (List (List (Nat × Nat × List ℚ)) × List (Nat × Nat) × BStream)
  | 0, s => some ([], [], s)
  | n + 1, s => do
      let (numBones, s) ← read_uint_8 s
      let (_numNonWeighted, s) ← read_int_32 s
      let (_minB, s) ← read_vector3 true s
      let (_maxB, s) ← read_vector3 true s
      let (groups, b2p, s) ← readBones joints 0 numBones s
      let (rest, b2p', s) ← readSkinLods joints n s
      return (groups :: rest, b2p ++ b2p', s)

/-- `The4DSImporter.deserialize_singlemesh`: create the (single, shared)
armature object with its base bone on first use, attach it to this mesh,
then read the per-LOD per-bone skin records and queue the mesh for the
skinning pass. -/
def deserialize_singlemesh (st : ImpState) (numLods : Nat) (meshId : Nat)
    (s : BStream) : Option (ImpState × BStream) := do
  let armName := (getObj st meshId).name
  let st :=
    match st.armatureId with
    | some _ => st
    | none =>
        let aId := st.objs.length
        let armObj := mkBlendObj armName (.armatureData armName)
        { st with
            objs := st.objs ++ [armObj]
            armatureId := some aId
            baseBoneName := some armName }
  let st :=
    match st.armatureId with
    | some aId => modifyObj st aId (fun o =>
        { o with
            name := armName ++ "_armature"
            parentId := some meshId })
    | none => st
  let (vgs, _boneToParent, s) ← readSkinLods st.joints numLods s
  let totalVerts :=
    match (getObj st meshId).data with
    | .meshData m => m.verts.length
    | _ => 0
  let st := { st with
    skinnedMeshes := st.skinnedMeshes ++ [⟨meshId, totalVerts, vgs⟩] }
  return (st, s)

/-! ## Dummy / Target payloads -/

/-- `deserialize_dummy`: the two reordered bound vectors, the cube display
empty sized by the largest bound extent, and the bounds as custom
properties. -/
def deserialize_dummy (st : ImpState) (emptyId : Nat) (pos : Vec3)
    (rot : Quat) (scale : Vec3) (s : BStream) : Option (ImpState × BStream) := do
  let (minB, s) ← read_vector3 true s
  let (maxB, s) ← read_vector3 true s
  let size := max (maxB.x - minB.x) (max (maxB.y - minB.y) (maxB.z - minB.z))
    * (1/2)
  let st := modifyObj st emptyId (fun o =>
    { o with
        location := some pos
        rotationQ := some rot
        scaleV := some scale
        showName := true
        props := o.props ++
          [("empty_display_type", .s "CUBE"), ("empty_display_size", .q size),
            ("bbox_min", .vec minB), ("bbox_max", .vec maxB)] })
  return (st, s)

/-- `deserialize_target`: u16 unknown, u8 link count, the u16 link ids;
plain-axes display and the link ids as a custom property. Note the
rotation is re-swapped `(w, x, z, y)` when applied. -/
def deserialize_target (st : ImpState) (emptyId : Nat) (pos : Vec3)
    (rot : Quat) (scale : Vec3) (s : BStream) : Option (ImpState × BStream) := do
  let (_unknown, s) ← read_int_16 s
  let (numLinks, s) ← read_uint_8 s
  let (linkIds, s) ← read_u16s numLinks s
  let st := modifyObj st emptyId (fun o =>
    { o with
        location := some pos
        rotationQ := some ⟨rot.w, rot.x, rot.z, rot.y⟩
        scaleV := some scale
        showName := true
        props := o.props ++
          [("empty_display_type", .s "PLAIN_AXES"),
            ("empty_display_size", .q (1/2)),
            ("link_ids", .natList linkIds)] })
  return (st, s)

/-! ## Morph payload (`deserialize_morph`) -/

/-- Per morph vertex: one `(position, normal)` pair per target. -/
def readMorphTargets : Nat → BStream → Option (List (Vec3 × Vec3) × BStream)
  | 0, s => some ([], s)
  | n + 1, s => do
      let (p, s) ← read_vector3 true s
      let (nm, s) ← read_vector3 true s
      let (rest, s) ← readMorphTargets n s
      return ((p, nm) :: rest, s)

def readMorphVerts (nt : Nat) :
    Nat → BStream → Option (List (List (Vec3 × Vec3)) × BStream)
  | 0, s => some ([], s)
  | n + 1, s => do
      let (v, s) ← readMorphTargets nt s
      let (rest, s) ← readMorphVerts nt n s
      return (v :: rest, s)

/-- One `(LOD, channel)` block: `none` for an empty channel (vertex count
0), else the per-vertex target data and the explicit-or-identity vertex
index mapping. -/
def readMorphChannel (nt : Nat) (s : BStream) :
    Option (Option (List (List (Vec3 × Vec3)) × List Nat) × BStream) := do
  let (nmv, s) ← read_int_16 s
  if nmv = 0 then return (none, s)
  else do
    let (vd, s) ← readMorphVerts nt nmv s
    let (useIdx, s) ← read_bool s
    let (vidx, s) ← if useIdx then read_u16s nmv s
                    else pure (List.range nmv, s)
    return (some (vd, vidx), s)

def readMorphChannels (nt : Nat) :
    Nat → BStream →
    Option (List (Option (List (List (Vec3 × Vec3)) × List Nat)) × BStream)
  | 0, s => some ([], s)
  | n + 1, s => do
      let (c, s) ← readMorphChannel nt s
      let (rest, s) ← readMorphChannels nt n s
      return (c :: rest, s)

/-- Per LOD: the channel blocks then the 40-byte skip of the bounds block
(min, max, center, distance). -/
def readMorphLods (nt nchan : Nat) :
    Nat → BStream →
    Option (List (List (Option (List (List (Vec3 × Vec3)) × List Nat))) × BStream)
  | 0, s => some ([], s)
  | n + 1, s => do
      let (cs, s) ← readMorphChannels nt nchan s
      let s ← skipBytes 40 s
      let (rest, s) ← readMorphLods nt nchan n s
      return (cs :: rest, s)

/-- Shape-key names created by the application pass: skipped entirely for
a LOD whose recorded vertex count mismatches the mesh, skipped for empty
channels, one `Target_<t>_LOD<l>_Channel<c>` key per target otherwise. -/
def morphKeyNames (nt totalVerts : Nat) (numVertsPerLod : List Nat)
    (morphData : List (List (Option (List (List (Vec3 × Vec3)) × List Nat)))) :
    List String :=
  (morphData.enum.map (fun ld =>
    if totalVerts ≠ numVertsPerLod.getD ld.1 0 then []
    else
      (ld.2.enum.map (fun ch =>
        match ch.2 with
        | none => []
        | some _ =>
            (List.range nt).map (fun t =>
              "Target_" ++ toString t ++ "_LOD" ++ toString ld.1 ++
                "_Channel" ++ toString ch.1))).flatten)).flatten

/-- `The4DSImporter.deserialize_morph`: target/channel/LOD counts, the per
`(LOD, channel)` vertex/target streams, and shape-key creation (shape-key
coordinate payloads belong to the external shape-key collaborator and are
not modelled beyond their exact stream consumption). -/
def deserialize_morph (st : ImpState) (meshId : Nat)
    (numVertsPerLod : List Nat) (s : BStream) :
    Option (ImpState × BStream) := do
  let (nt, s) ← read_uint_8 s
  if nt = 0 then return (st, s)
  else do
    let (nchan, s) ← read_uint_8 s
    let (nlodsRaw, s) ← read_uint_8 s
    let nlods := if numVertsPerLod.length ≠ nlodsRaw
      then min nlodsRaw numVertsPerLod.length else nlodsRaw
    let (morphData, s) ← readMorphLods nt nchan nlods s
    let totalVerts :=
      match (getObj st meshId).data with
      | .meshData m => m.verts.length
      | _ => 0
    let hasKeys := (getObj st meshId).props.any (fun p => p.1 = "shape_key")
    let st := if hasKeys then st
      else modifyObj st meshId (fun o =>
        { o with props := o.props ++ [("shape_key", .s "Basis")] })
    let names := morphKeyNames nt totalVerts numVertsPerLod morphData
    let st := modifyObj st meshId (fun o =>
      { o with props := o.props ++ names.map (fun nm => ("shape_key", .s nm)) })
    return (st, s)

/-! ## Sector / Occluder payloads -/

def readVec3List : Nat → BStream → Option (List Vec3 × BStream)
  | 0, s => some ([], s)
  | n + 1, s => do
      let (v, s) ← read_vector3 true s
      let (rest, s) ← readVec3List n s
      return (v :: rest, s)

/-- Version-41 vertices: a quaternion read (`reorder=False`) sliced
`[:3]`, i.e. its `(w, x, y)` components. -/
def readQuatV3List : Nat → BStream → Option (List Vec3 × BStream)
  | 0, s => some ([], s)
  | n + 1, s => do
      let (q, s) ← read_quat false s
      let (rest, s) ← readQuatV3List n s
      return (⟨q.w, q.x, q.y⟩ :: rest, s)

def readFaceList : Nat → BStream → Option (List (Nat × Nat × Nat) × BStream)
  | 0, s => some ([], s)
  | n + 1, s => do
      let (t, s) ← read_face_indices s
      let (rest, s) ← readFaceList n s
      return (t :: rest, s)

/-- One decoded portal record. -/
structure PortalRec where
  numVerts : Nat
  plane : ℚ × ℚ × ℚ × ℚ
  flags : Nat
  nearRange : ℚ
  farRange : ℚ
  verts : List Vec3
deriving DecidableEq, Repr

def readPortals (version : Nat) :
    Nat → BStream → Option (List PortalRec × BStream)
  | 0, s => some ([], s)
  | n + 1, s => do
      let (pnv, s) ← read_uint_8 s
      let (plane, s) ← read_vector_4 s
      let (pf, s) ← read_int_32 s
      let (nearR, s) ← read_float_32 s
      let (farR, s) ← read_float_32 s
      let s ← if version ≠ 29 then do
                let (_, s) ← read_int_32 s
                pure s
              else pure s
      let (pverts, s) ← if version = 41 then readQuatV3List pnv s
                        else readVec3List pnv s
      let (rest, s) ← readPortals version n s
      return (⟨pnv, plane, pf, nearR, farR, pverts⟩ :: rest, s)

/-- `The4DSImporter.deserialize_sector`: flag words, version-dependent
vertex/bounds layout (bounds follow the faces only for version 29), the
portal list, the sector mesh and one child mesh object per portal. -/
def deserialize_sector (st : ImpState) (meshId : Nat) (pos : Vec3)
    (rot : Quat) (scale : Vec3) (s : BStream) :
    Option (ImpState × BStream) := do
  let (f1, s) ← read_int_32 s
  let (f2, s) ← read_int_32 s
  let (nv, s) ← read_int_32 s
  let (nf, s) ← read_int_32 s
  let (minB, maxB, verts, faces, s) ←
    if st.version = 29 then do
      let (verts, s) ← readVec3List nv s
      let (faces, s) ← readFaceList nf s
      let (minB, s) ← read_vector3 true s
      let (maxB, s) ← read_vector3 true s
      pure ((minB, maxB, verts, faces, s) :
        Vec3 × Vec3 × List Vec3 × List (Nat × Nat × Nat) × BStream)
    else if st.version = 41 then do
      let (minQ, s) ← read_quat false s
      let (maxQ, s) ← read_quat false s
      let (verts, s) ← readQuatV3List nv s
      let (faces, s) ← readFaceList nf s
      pure ((⟨minQ.w, minQ.x, minQ.y⟩, ⟨maxQ.w, maxQ.x, maxQ.y⟩, verts,
        faces, s))
    else do
      let (minB, s) ← read_vector3 true s
      let (maxB, s) ← read_vector3 true s
      let (verts, s) ← readVec3List nv s
      let (faces, s) ← readFaceList nf s
      pure ((minB, maxB, verts, faces, s))
  let (np, s) ← read_uint_8 s
  let (portals, s) ← readPortals st.version np s
  let st := modifyObj st meshId (fun o =>
    { o with
        data := .rawMesh verts faces
        location := some pos
        rotationQ := some ⟨rot.w, rot.x, rot.z, rot.y⟩
        scaleV := some scale
        props := o.props ++
          [("flags", .strPair (hexStr f1) (hexStr f2)),
            ("min_bounds", .vec minB), ("max_bounds", .vec maxB),
            ("num_portals", .n np)] })
  let st := setWireFrame st meshId true
  let sectorName := (getObj st meshId).name
  let st := portals.enum.foldl (fun st ip =>
    let p := ip.2
    let pid := st.objs.length
    let pobj := { mkBlendObj (sectorName ++ "_Portal" ++ toString ip.1)
        (.rawMesh p.verts []) with
      parentId := some meshId
      props :=
        [("plane", .quad p.plane.1 p.plane.2.1 p.plane.2.2.1 p.plane.2.2.2),
          ("flags", .s (hexStr p.flags)), ("near_range", .q p.nearRange),
          ("far_range", .q p.farRange), ("isPortal", .flag true)] }
    setWireFrame { st with objs := st.objs ++ [pobj] } pid true) st
  return (st, s)

/-- Version-41 occluder vertices: `read_vector_4()[:3]` then the manual
`(x, z, y)` transposition. -/
def readVec4XzyList : Nat → BStream → Option (List Vec3 × BStream)
  | 0, s => some ([], s)
  | n + 1, s => do
      let (v, s) ← read_vector_4 s
      let (rest, s) ← readVec4XzyList n s
      return (⟨v.1, v.2.2.1, v.2.1⟩ :: rest, s)

/-- `The4DSImporter.deserialize_occluder`: vertex/face counts, the
version-dependent vertex width, the wireframe display, and the transform
applied with the rotation as passed (no re-swap here). -/
def deserialize_occluder (st : ImpState) (meshId : Nat) (pos : Vec3)
    (rot : Quat) (scale : Vec3) (s : BStream) :
    Option (ImpState × BStream) := do
  let (nv, s) ← read_int_32 s
  let (nf, s) ← read_int_32 s
  let (verts, s) ← if st.version = 41 then readVec4XzyList nv s
                   else readVec3List nv s
  let (faces, s) ← readFaceList nf s
  let st := modifyObj st meshId (fun o =>
    { o with
        data := .rawMesh verts faces
        location := some pos
        rotationQ := some rot
        scaleV := some scale })
  let st := setWireFrame st meshId true
  return (st, s)

/-! ## Frame codec (`deserialize_frame`, `import_file`) -/

def meshOf (st : ImpState) (id : Nat) : DecodedMesh :=
  match (getObj st id).data with
  | .meshData m => m
  | _ => emptyDecodedMesh

/-- `mesh["Frame Properties"] = user_props` when non-empty. -/
def attachFrameProps (st : ImpState) (id : Nat) (userProps : String) :
    ImpState :=
  if userProps.length > 0 then
    modifyObj st id (fun o =>
      { o with props := o.props ++ [("Frame Properties", .s userProps)] })
  else st

/-- The `VISUAL_OBJECT`/`VISUAL_LITOBJECT` branch of `deserialize_frame`
(the only one that passes `remove_doubles=True`, and the only one that
increments the frame index before reading the payload). -/
def frameVisualObject (st : ImpState) (materials : List BMat) (name userProps : String)
    (tm : TMat) (s : BStream) : Option (ImpState × Bool × BStream) := do
  let stId := makeMesh st name true tm
  let st := { stId.1 with frameIndex := stId.1.frameIndex + 1 }
  let (st, _numLods, _vpl, s) ← deserialize_object st materials stId.2 true s
  let st := if should_be_wireframe (meshOf st stId.2) then
      setWireFrame st stId.2 false
    else st
  return (attachFrameProps st stId.2 userProps, true, s)

def frameVisualSingleMesh (st : ImpState) (materials : List BMat)
    (name userProps : String) (tm : TMat) (s : BStream) :
    Option (ImpState × Bool × BStream) := do
  let stId := makeMesh st name true tm
  let (st, numLods, _vpl, s) ← deserialize_object stId.1 materials stId.2 false s
  let (st, s) ← deserialize_singlemesh st numLods stId.2 s
  let st := { st with
    bonesMap := (st.frameIndex, st.baseBoneName.getD "") :: st.bonesMap }
  let st := { st with frameIndex := st.frameIndex + 1 }
  return (attachFrameProps st stId.2 userProps, true, s)

def frameVisualBillboard (st : ImpState) (materials : List BMat)
    (name userProps : String) (tm : TMat) (s : BStream) :
    Option (ImpState × Bool × BStream) := do
  let stId := makeMesh st name true tm
  let (st, _numLods, _vpl, s) ← deserialize_object stId.1 materials stId.2 false s
  let (_, s) ← read_int_32 s
  let (_, s) ← read_uint_8 s
  let st := { st with frameIndex := st.frameIndex + 1 }
  return (attachFrameProps st stId.2 userProps, true, s)

def frameVisualSingleMorph (st : ImpState) (materials : List BMat)
    (name userProps : String) (tm : TMat) (s : BStream) :
    Option (ImpState × Bool × BStream) := do
  let stId := makeMesh st name true tm
  let (st, numLods, vpl, s) ← deserialize_object stId.1 materials stId.2 false s
  let (st, s) ← deserialize_singlemesh st numLods stId.2 s
  let (st, s) ← deserialize_morph st stId.2 vpl s
  let st := { st with
    bonesMap := (st.frameIndex, st.baseBoneName.getD "") :: st.bonesMap }
  let st := { st with frameIndex := st.frameIndex + 1 }
  return (attachFrameProps st stId.2 userProps, true, s)

def frameVisualMorph (st : ImpState) (materials : List BMat)
    (name userProps : String) (tm : TMat) (s : BStream) :
    Option (ImpState × Bool × BStream) := do
  let stId := makeMesh st name true tm
  let (st, _numLods, vpl, s) ← deserialize_object stId.1 materials stId.2 false s
  let (st, s) ← deserialize_morph st stId.2 vpl s
  let st := { st with frameIndex := st.frameIndex + 1 }
  return (attachFrameProps st stId.2 userProps, true, s)

def frameDummyTarget (st : ImpState) (frameType : Nat) (name userProps : String)
    (pos : Vec3) (rot : Quat) (scaleV : Vec3) (s : BStream) :
    Option (ImpState × Bool × BStream) := do
  let stId := makeDummy st name
  let (st, s) ←
    if frameType = FRAME_DUMMY then
      deserialize_dummy stId.1 stId.2 pos rot scaleV s
    else
      deserialize_target stId.1 stId.2 pos rot scaleV s
  let st := { st with frameIndex := st.frameIndex + 1 }
  return (attachFrameProps st stId.2 userProps, true, s)

def frameSectorOccluder (st : ImpState) (frameType : Nat)
    (name userProps : String) (tm : TMat) (pos : Vec3) (rot : Quat)
    (scaleV : Vec3) (s : BStream) : Option (ImpState × Bool × BStream) := do
  let stId := makeMesh st name false tm
  let (st, s) ←
    if frameType = FRAME_SECTOR then
      deserialize_sector stId.1 stId.2 pos rot scaleV s
    else
      deserialize_occluder stId.1 stId.2 pos rot scaleV s
  let st := { st with frameIndex := st.frameIndex + 1 }
  return (attachFrameProps st stId.2 userProps, true, s)

/-- The Joint branch: the 4×4 matrix and bone id are always consumed, but
the joint is registered — and the frame index advanced — only when the
armature already exists. -/
def frameJoint (st : ImpState) (name : String) (parentId : Nat) (tm : TMat)
    (s : BStream) : Option (ImpState × Bool × BStream) := do
  let (_matrix, s) ← read_floats 16 s
  let (bone_id, s) ← read_int_32 s
  let st :=
    if st.armatureId.isSome then
      { st with
          joints := st.joints ++ [⟨name, tm, parentId, bone_id⟩]
          boneNodes := (bone_id, name) :: st.boneNodes
          bonesMap := (st.frameIndex, name) :: st.bonesMap
          framesMap := (st.frameIndex, .jointName name) :: st.framesMap
          frameIndex := st.frameIndex + 1 }
    else st
  return (st, true, s)

/-- The `(frame_type, visual_type)` dispatch of `deserialize_frame`;
unknown combinations return `false` (truncate the frame loop). -/
def frameDispatch (st : ImpState) (materials : List BMat)
    (frameType visualType parentId : Nat) (tm : TMat)
    (name userProps : String) (s : BStream) :
    Option (ImpState × Bool × BStream) :=
  if frameType = FRAME_VISUAL then
    if visualType = VISUAL_OBJECT ∨ visualType = VISUAL_LITOBJECT then
      frameVisualObject st materials name userProps tm s
    else if visualType = VISUAL_SINGLEMESH then
      frameVisualSingleMesh st materials name userProps tm s
    else if visualType = VISUAL_BILLBOARD then
      frameVisualBillboard st materials name userProps tm s
    else if visualType = VISUAL_SINGLEMORPH then
      frameVisualSingleMorph st materials name userProps tm s
    else if visualType = VISUAL_MORPH then
      frameVisualMorph st materials name userProps tm s
    else some (st, false, s)
  else if frameType = FRAME_DUMMY ∨ frameType = FRAME_TARGET then
    frameDummyTarget st frameType name userProps tm.pos tm.rot tm.scale s
  else if frameType = FRAME_SECTOR ∨ frameType = FRAME_OCCLUDER then
    frameSectorOccluder st frameType name userProps tm tm.pos tm.rot tm.scale s
  else if frameType = FRAME_JOINT then
    frameJoint st name parentId tm s
  else some (st, false, s)

/-- `The4DSImporter.deserialize_frame`: read the common frame header,
record the frame type and any deferred parent link at the current frame
index, then dispatch on `(frame_type, visual_type)`. The returned `Bool`
is the source's return value: `false` truncates the frame loop; `none`
models an uncaught stream exception. A Joint frame is only registered —
and only consumes a frame-index slot — when the armature already exists;
it still returns `true`. -/
def deserialize_frame (st : ImpState) (materials : List BMat) (s : BStream) :
    Option (ImpState × Bool × BStream) := do
  let (frame_type, s) ← read_uint_8 s
  let (visual_type, s) ←
    if frame_type = FRAME_VISUAL then do
      let (vt, s) ← read_uint_8 s
      let s ← skipBytes 2 s
      pure (vt, s)
    else pure (0, s)
  let (parent_id, s) ← read_int_16 s
  let (position, s) ← read_vector3 true s
  let (scaleV, s) ← read_vector3 true s
  let (rot, s) ← read_quat true s
  let transform_mat : TMat := ⟨position, rot, scaleV⟩
  let (_culling, s) ← read_uint_8 s
  let (name, s) ← read_string s
  let (user_props, s) ← read_string s
  let st := { st with
    frameTypes := (st.frameIndex, frame_type) :: st.frameTypes }
  let st := if parent_id > 0 then
      { st with
        parentingInfo := st.parentingInfo ++ [(st.frameIndex, parent_id)] }
    else st
  frameDispatch st materials frame_type visual_type parent_id transform_mat
    name user_props s

/-- The material-table loop of `import_file`. -/
def readMaterials : MatRegistry → Nat → BStream →
    Option (List BMat × MatRegistry × BStream)
  | reg, 0, s => some ([], reg, s)
  | reg, n + 1, s => do
      let (m, reg', s) ← deserialize_material reg s
      let (ms, reg'', s) ← readMaterials reg' n s
      return (m :: ms, reg'', s)

/-- The frame loop of `import_file`: at most `n` iterations, broken at the
first record whose decode returns `false`. Also returns the number of
frame records actually processed. -/
def decodeFrames (materials : List BMat) :
    Nat → ImpState → BStream → Option (ImpState × Nat × BStream)
  | 0, st, s => some (st, 0, s)
  | n + 1, st, s => do
      let (st', ok, s') ← deserialize_frame st materials s
      if ok then do
        let (st'', k, s'') ← decodeFrames materials n st' s'
        pure (st'', k + 1, s'')
      else pure (st', 1, s')

inductive ImportErr where
  | streamErr
  | scaleErr
deriving DecidableEq, Repr

/-- Everything `import_file` leaves behind: the returned `frames` list
(object ids), the final session state, the parenting operations, the
skinning applications and the trailing animation flag. -/
structure ImportResult where
  frames : List Nat
  finalState : ImpState
  parentActions : List ParentAction
  skinApplications : List (Nat × List VGAssign)
  animationFlag : Nat
deriving Repr

def optToErr : Option α → Except ImportErr α
  | some a => .ok a
  | none => .error .streamErr

def VERSION_MAFIA : Nat := 29

/-- `The4DSImporter.import_file`: magic and version gate (`None`, i.e. no
frames, for a wrong magic or any version other than 29), the GUID skip,
the material table, the truncating frame loop, armature construction and
skinning (with `catchScaleErr` selecting the subclass wrapper behaviour),
deferred parenting, and the trailing animation byte. -/
def import_file (drawLODS catchScaleErr : Bool) (reg0 : MatRegistry)
    (s : BStream) : Except ImportErr (Option ImportResult) := do
  let (magic, s) ← optToErr (read_string_fixed 4 s)
  if magic ≠ "4DS\x00" then return none
  else do
    let (version, s) ← optToErr (read_int_16 s)
    if version ≠ VERSION_MAFIA then return none
    else do
      let s ← optToErr (skipBytes 8 s)
      let (matCount, s) ← optToErr (read_int_16 s)
      let (materials, _reg, s) ← optToErr (readMaterials reg0 matCount s)
      let (frameCount, s) ← optToErr (read_int_16 s)
      let st0 := initImpState version drawLODS
      let (st, _iters, s) ← optToErr (decodeFrames materials frameCount st0 s)
      let baseBone := st.baseBoneName.getD ""
      let hasArm := st.armatureId.isSome
      let armBones ←
        if hasArm ∧ st.joints ≠ [] then
          match build_armature true st.joints baseBone st.framesMap none with
          | .ok (bm, _) => (.ok (bm.map Prod.fst) : Except ImportErr _)
          | .error _ =>
              if catchScaleErr then .ok [] else .error .scaleErr
        else if hasArm then (.ok [baseBone] : Except ImportErr _)
        else (.ok [] : Except ImportErr _)
      let skinApps :=
        if hasArm ∧ st.joints ≠ [] then
          st.skinnedMeshes.map (fun sm =>
            (sm.meshId,
              apply_skinning sm.totalVerts sm.vertexGroups st.boneNodes
                baseBone))
        else []
      let actions := apply_deferred_parenting st.parentingInfo st.framesMap
        st.frameTypes st.bonesMap hasArm armBones
      let (anim, s) ← optToErr (read_uint_8 s)
      let _ := s
      return some ⟨st.frames, st, actions, skinApps, anim⟩

/-! ## Exporter (`export_4ds.py`, `The4DSExporter`) -/

/-- Python `needle in hay` on strings. -/
def listTakeEq : List Char → List Char → Bool
  | [], _ => true
  | _ :: _, [] => false
  | a :: as, b :: bs => a = b && listTakeEq as bs

def strContains (hay needle : String) : Bool :=
  (List.range (hay.length + 1)).any
    (fun i => listTakeEq needle.toList (hay.toList.drop i))

/-- Python `int(s, 16)` (with optional `0x` prefixed input), `none` on a
malformed string or a non-string argument (a `TypeError`/`ValueError`). -/
def hexParse (str : String) : Option Nat :=
  let body :=
    match str.toList with
    | '0' :: 'x' :: rest => rest
    | '0' :: 'X' :: rest => rest
    | l => l
  if body = [] then none
  else
    body.foldl (fun acc c =>
      match acc with
      | none => none
      | some v =>
          if '0' ≤ c ∧ c ≤ '9' then some (v * 16 + (c.toNat - '0'.toNat))
          else if 'a' ≤ c ∧ c ≤ 'f' then some (v * 16 + 10 + (c.toNat - 'a'.toNat))
          else if 'A' ≤ c ∧ c ≤ 'F' then some (v * 16 + 10 + (c.toNat - 'A'.toNat))
          else none) (some 0)

/-- Python `round` (half to even). -/
def bankersRound (x : ℚ) : ℤ :=
  let f := Int.floor x
  if x - f = 1/2 then (if Even f then f else f + 1) else Int.floor (x + 1/2)

/-- Python `round(x, 6)` used in the export dedup key. -/
def pyRound6 (x : ℚ) : ℚ := (bankersRound (x * 1000000) : ℚ) / 1000000

namespace Exp

/-- The shader-graph facts `serialize_material` probes (an external
collaborator interface): what the Base Color input is linked to, what the
Alpha input is linked to, and the principled scalar inputs. -/
inductive BaseColorLink where
  | unlinked
  | tex (imageName : String)
  | mix (diffuse : Option String) (env : Option String)
deriving DecidableEq, Repr

inductive AlphaLink where
  | unlinked (value : ℚ)
  | tex (imageName : String)
  | math
  | otherNode
deriving DecidableEq, Repr

/-- An exported Blender material, at the descriptor interface the encoder
reads from the shader graph. `emissionColor` is the result of the
`get_emission_color` graph probe. -/
structure ExpMat where
  hasPrincipled : Bool
  baseColor : BaseColorLink
  alphaLink : AlphaLink
  metallic : ℚ
  emissionStrength : ℚ
  emissionColor : Option Vec3
deriving DecidableEq, Repr

/-- The field values `serialize_material` computes before writing:
`(flags, diffuse_tex, alpha_tex, env_tex, metallic, emission, alpha)`. -/
def matFields (m : ExpMat) :
    Nat × String × String × String × ℚ × Vec3 × ℚ :=
  if ¬m.hasPrincipled then (0, "", "", "", 0, ⟨0, 0, 0⟩, 1)
  else
    let base :=
      match m.baseColor with
      | .unlinked => ((0 : Nat), "", "", (0 : ℚ))
      | .tex img => (MTL_DIFFUSETEX, strUpper img, "", (0 : ℚ))
      | .mix d e =>
          ((match d with | some _ => MTL_DIFFUSETEX | none => 0) |||
            (match e with | some _ => MTL_ENVMAP | none => 0),
            strUpper (d.getD ""),
            (match e with | some img => strUpper img | none => ""),
            m.metallic)
    let flags := base.1
    let alphaStep :=
      match m.alphaLink with
      | .tex img =>
          let nm := strUpper img
          if ¬strContains nm "KEYMASK" then
            (flags ||| MTL_ADDEFFECT ||| MTL_ALPHATEX, nm, (1 : ℚ))
          else if hasFlag flags MTL_DIFFUSETEX then
            (flags ||| MTL_ADDEFFECT ||| MTL_COLORKEY, "", (1 : ℚ))
          else (flags, "", (1 : ℚ))
      | .math =>
          if hasFlag flags MTL_DIFFUSETEX then
            (flags ||| MTL_ADDEFFECT ||| MTL_COLORKEY, "", (1 : ℚ))
          else (flags, "", (1 : ℚ))
      | .otherNode => (flags, "", (1 : ℚ))
      | .unlinked v => (flags, "", v)
    let emission :=
      if m.emissionStrength > 0 then (m.emissionColor.getD ⟨0, 0, 0⟩)
      else ⟨0, 0, 0⟩
    (alphaStep.1, base.2.1, alphaStep.2.1, base.2.2.1, base.2.2.2, emission,
      alphaStep.2.2)

/-- `The4DSExporter.serialize_material`: flag word, the hardcoded white
ambient/diffuse, emission, opacity, the env block iff the env flag, the
diffuse name, the alpha name iff the alpha flag. -/
def serialize_material (m : ExpMat) : Option BStream := do
  let (flags, diffuse_tex, alpha_tex, env_tex, metallic, emission, alpha) :=
    matFields m
  let f ← write_int_32 flags
  let envPart ←
    if hasFlag flags MTL_ENVMAP then do
      let e ← write_string env_tex
      pure (write_float_32 metallic ++ e)
    else pure []
  let d ← write_string diffuse_tex
  let alphaPart ←
    if hasFlag flags MTL_ALPHATEX then write_string alpha_tex
    else pure []
  return f ++ write_vector3 false ⟨1, 1, 1⟩ ++ write_vector3 false ⟨1, 1, 1⟩ ++
    write_vector3 false emission ++ write_float_32 alpha ++ envPart ++ d ++
    alphaPart

/-! ### Matrix helpers (`mathutils` interface) -/

/-- 4×4 row-major rational matrix. -/
abbrev Mat4 := List ℚ

def mat4Get (m : Mat4) (r c : Nat) : ℚ := m.getD (r * 4 + c) 0

/-- Rotation matrix of a (unit) quaternion. -/
def quatToRows (q : Quat) : List (List ℚ) :=
  [[1 - 2*(q.y*q.y + q.z*q.z), 2*(q.x*q.y - q.z*q.w), 2*(q.x*q.z + q.y*q.w)],
   [2*(q.x*q.y + q.z*q.w), 1 - 2*(q.x*q.x + q.z*q.z), 2*(q.y*q.z - q.x*q.w)],
   [2*(q.x*q.z - q.y*q.w), 2*(q.y*q.z + q.x*q.w), 1 - 2*(q.x*q.x + q.y*q.y)]]

/-- `Translation(pos) @ rot @ Diagonal(scale)` as a row-major 4×4. -/
def TMat.toMat4 (m : TMat) : Mat4 :=
  let r := quatToRows m.rot
  let sc := [m.scale.x, m.scale.y, m.scale.z]
  let t := [m.pos.x, m.pos.y, m.pos.z]
  ((List.range 3).map (fun i =>
    ((List.range 3).map (fun j =>
      (r.getD i []).getD j 0 * sc.getD j 0)) ++ [t.getD i 0])).flatten
    ++ [0, 0, 0, 1]

def mat4Mul (a b : Mat4) : Mat4 :=
  ((List.range 4).map (fun i =>
    (List.range 4).map (fun j =>
      ((List.range 4).map (fun k => mat4Get a i k * mat4Get b k j)).sum))).flatten

/-- 3×3 minor determinant of `m` dropping row `r` and column `c`. -/
def mat4Minor (m : Mat4) (r c : Nat) : ℚ :=
  let rs := (List.range 4).filter (· ≠ r)
  let cs := (List.range 4).filter (· ≠ c)
  let g := fun i j => mat4Get m (rs.getD i 0) (cs.getD j 0)
  g 0 0 * (g 1 1 * g 2 2 - g 1 2 * g 2 1)
    - g 0 1 * (g 1 0 * g 2 2 - g 1 2 * g 2 0)
    + g 0 2 * (g 1 0 * g 2 1 - g 1 1 * g 2 0)

def mat4Det (m : Mat4) : ℚ :=
  ((List.range 4).map (fun c =>
    (if c % 2 = 0 then 1 else -1) * mat4Get m 0 c * mat4Minor m 0 c)).sum

/-- `Matrix.inverted()`: adjugate over determinant; `none` for a singular
matrix (mathutils raises there). -/
def mat4Inv (m : Mat4) : Option Mat4 :=
  let d := mat4Det m
  if d = 0 then none
  else some (((List.range 4).map (fun i =>
    (List.range 4).map (fun j =>
      (if (i + j) % 2 = 0 then 1 else -1) * mat4Minor m j i / d))).flatten)

/-- The row swap `matrix[1], matrix[2] = matrix[2], matrix[1]` of
`serialize_joint`. -/
def mat4SwapRows12 (m : Mat4) : Mat4 :=
  (List.range 4).map (mat4Get m 0 ·) ++ (List.range 4).map (mat4Get m 2 ·) ++
    (List.range 4).map (mat4Get m 1 ·) ++ (List.range 4).map (mat4Get m 3 ·)

def Quat.mul (a b : Quat) : Quat :=
  ⟨a.w*b.w - a.x*b.x - a.y*b.y - a.z*b.z,
   a.w*b.x + a.x*b.w + a.y*b.z - a.z*b.y,
   a.w*b.y - a.x*b.z + a.y*b.w + a.z*b.x,
   a.w*b.z + a.x*b.y - a.y*b.x + a.z*b.w⟩

def Quat.conj (q : Quat) : Quat := ⟨q.w, -q.x, -q.y, -q.z⟩

/-- `parent.matrix_local.inverted() @ bone.matrix_local` for rest-pose bone
matrices, which Blender keeps rigid (rotation + translation, unit scale);
the result is again rigid, so its `to_translation`/`to_quaternion`/
`to_scale` decomposition is exact. -/
def rigidInvCompose (p c : TMat) : TMat :=
  let qi := Quat.conj p.rot
  ⟨quatRotate qi (c.pos - p.pos), Quat.mul qi c.rot, ⟨1, 1, 1⟩⟩

/-! ### Exported scene model (the Blender data the exporter reads) -/

/-- One triangle of an export mesh: three vertex indices, the three corner
UVs (the loop data), and the face's material slot index. -/
structure ExpFace where
  v0 : Nat
  v1 : Nat
  v2 : Nat
  uv0 : Vec2
  uv1 : Vec2
  uv2 : Vec2
  matIndex : Nat

/-- Mesh datablock: per-vertex `(co, normal)`, triangles, the material list
(`data.materials`, with `none` for empty slots), whether an active UV layer
exists, the shape-key blocks (`(name, per-vertex co)`, basis first), and the
vertex-group names plus per-vertex `(group index, weight)` assignments. -/
structure ExpMesh where
  verts : List (Vec3 × Vec3)
  faces : List ExpFace
  materialSlots : List (Option ExpMat)
  hasUV : Bool
  shapeKeys : List (String × List Vec3)
  vertexGroupNames : List String
  vertexWeights : List (List (Nat × ℚ))

/-- Rest-pose bone: Blender keeps `bone.matrix_local` rigid. -/
structure ExpBone where
  name : String
  parentName : Option String
  matrixLocal : TMat

structure ExpArmature where
  name : String
  matrixWorld : TMat
  bones : List ExpBone

/-- A `"plane"`-propertied MESH child, as `serialize_sector` reads it. -/
structure ExpPortal where
  verts : List Vec3
  plane : Option (ℚ × ℚ × ℚ × ℚ)
  flagsHex : Option String
  nearRange : Option ℚ
  farRange : Option ℚ

inductive ExpObjType where
  | mesh
  | empty
  | armatureObj
  | lightOther
deriving DecidableEq

/-- A selected Blender object as the exporter probes it: type, datablocks,
display settings, custom properties, parent link and transforms. -/
structure ExpObj where
  name : String
  objType : ExpObjType
  meshData : Option ExpMesh
  armData : Option ExpArmature
  armatureMod : Option ExpArmature
  emptyDisplay : String
  displayType : String
  hasNumPortals : Bool
  childHasPlane : Bool
  portalChildren : List ExpPortal
  parentName : Option String
  matrixLocal : TMat
  matrixWorld : TMat
  bboxMin : Option Vec3
  bboxMax : Option Vec3
  linkIds : Option (List Nat)
  sectorFlags : Option (String × String)
  minBounds : Option Vec3
  maxBounds : Option Vec3
  frameProps : Option String

def tmatId : TMat := ⟨⟨0, 0, 0⟩, ⟨1, 0, 0, 0⟩, ⟨1, 1, 1⟩⟩

/-- Default object record; witnesses override what they need. -/
def defaultExpObj : ExpObj :=
  ⟨"", .mesh, none, none, none, "", "TEXTURED", false, false, [], none,
    tmatId, tmatId, none, none, none, none, none, none, none⟩

def parseNatDigits (s : String) : Option Nat :=
  if s.toList ≠ [] ∧ s.toList.all Char.isDigit then
    some (s.toList.foldl (fun a c => a * 10 + (c.toNat - '0'.toNat)) 0)
  else none

/-- Sequence and concatenate a list of optional byte runs. -/
def joinOptList : List (Option BStream) → Option BStream
  | [] => some []
  | o :: rest => do
      let h ← o
      let r ← joinOptList rest
      pure (h ++ r)

/-! ### `serialize_object` (mesh payload with per-loop UV split)

`bmesh.ops.split_edges(bm, edges=bm.edges, use_verts=True)` runs first
(export_4ds.py:231): it gives every face its own copies of its vertices,
so the `(v.index, round(uv, 6))` dedup key of the flatten pass that
follows never matches a previously visited corner — not one of another
face, because the vertices differ after the split, and not one of this
face, because a face has three distinct vertices. Every loop therefore
appends exactly one flattened output vertex. -/

structure FlatSt where
  verts : List (Vec3 × Vec3 × Vec2)

/-- One corner (loop): append the source position and normal and the UV
with its V component negated; the returned index is the corner's position
in the flattened list. -/
def flattenCorner (mverts : List (Vec3 × Vec3)) (st : FlatSt) (c : Nat × Vec2) :
    FlatSt × Nat :=
  let vn := mverts.getD c.1 (⟨0, 0, 0⟩, ⟨0, 0, 0⟩)
  (⟨st.verts ++ [(vn.1, vn.2, (⟨c.2.x, -c.2.y⟩ : Vec2))]⟩, st.verts.length)

/-- One face, loops visited in the winding-flip order `[0, 2, 1]`. -/
def flattenFace (mverts : List (Vec3 × Vec3)) (hasUV : Bool) (st : FlatSt)
    (fc : ExpFace) : FlatSt × (Nat × Nat × Nat) :=
  let uvOf := fun (u : Vec2) => if hasUV then u else ⟨0, 0⟩
  let r0 := flattenCorner mverts st (fc.v0, uvOf fc.uv0)
  let r2 := flattenCorner mverts r0.1 (fc.v2, uvOf fc.uv2)
  let r1 := flattenCorner mverts r2.1 (fc.v1, uvOf fc.uv1)
  (r1.1, (r0.2, r2.2, r1.2))

/-- `face_groups.setdefault(slot, []).append(face_indices)`: an
insertion-ordered dict of per-slot payload lists. -/
def addFaceGroup {α : Type _} (slot : Nat) (tri : α) :
    List (Nat × List α) → List (Nat × List α)
  | [] => [(slot, [tri])]
  | (k, ts) :: rest =>
      if k = slot then (k, ts ++ [tri]) :: rest
      else (k, ts) :: addFaceGroup slot tri rest

def flattenMesh (m : ExpMesh) : FlatSt × List (Nat × List (Nat × Nat × Nat)) :=
  m.faces.foldl (fun acc fc =>
    let r := flattenFace m.verts m.hasUV acc.1 fc
    (r.1, addFaceGroup fc.matIndex r.2 acc.2)) (⟨[]⟩, [])

def writeFlatVerts (vs : List (Vec3 × Vec3 × Vec2)) : BStream :=
  (vs.map (fun v =>
    write_vector3 true v.1 ++ write_vector3 true v.2.1 ++ write_vector2 v.2.2)).flatten

/-- `mat_id = self.materials.index(mat) + 1 if mat in self.materials else 0`,
after the out-of-range slot fallback; `none` when the slot list is empty
(an IndexError in the source). -/
def matIdOf (table : List ExpMat) (slots : List (Option ExpMat)) (slot : Nat) :
    Option Nat :=
  let ms := if slot < slots.length then slot else 0
  match slots[ms]? with
  | none => none
  | some none => some 0
  | some (some m) =>
      some (match table.indexOf? m with
        | some i => i + 1
        | none => 0)

def writeFaceGroup (table : List ExpMat) (slots : List (Option ExpMat))
    (g : Nat × List (Nat × Nat × Nat)) : Option BStream := do
  let cnt ← write_int_16 g.2.length
  let fs ← joinOptList (g.2.map (fun t => write_face_indices [t.1, t.2.1, t.2.2]))
  let mid ← matIdOf table slots g.1
  let midw ← write_int_16 mid
  pure (cnt ++ fs ++ midw)

def serialize_object_lod (table : List ExpMat) (lodIdx : Nat) (obj : ExpObj) :
    Option BStream := do
  let mesh ← obj.meshData
  let fm := flattenMesh mesh
  let nv ← write_int_16 fm.1.verts.length
  let ng ← write_uint_8 fm.2.length
  let gs ← joinOptList (fm.2.map (writeFaceGroup table mesh.materialSlots))
  pure (write_float_32 (100 * (1 + lodIdx)) ++ nv ++ writeFlatVerts fm.1.verts
    ++ ng ++ gs)

def serializeLods (table : List ExpMat) : Nat → List ExpObj → Option BStream
  | _, [] => some []
  | i, o :: rest => do
      let h ← serialize_object_lod table i o
      let r ← serializeLods table (i + 1) rest
      pure (h ++ r)

/-- `The4DSExporter.serialize_object`: instance id 0, LOD count, then each
LOD's payload; returns the written bytes and `len(lods)`. -/
def serialize_object (table : List ExpMat) (lods : List ExpObj) :
    Option (BStream × Nat) := do
  let inst ← write_int_16 0
  let nl ← write_uint_8 lods.length
  let body ← serializeLods table 0 lods
  pure (inst ++ nl ++ body, lods.length)

/-! ### `serialize_singlemesh` -/

def aabbOf (coords : List Vec3) : Option (Vec3 × Vec3) :=
  match coords with
  | [] => none
  | c :: cs =>
      some (cs.foldl (fun a v =>
        (⟨min a.1.x v.x, min a.1.y v.y, min a.1.z v.z⟩,
          ⟨max a.2.x v.x, max a.2.y v.y, max a.2.z v.z⟩)) (c, c))

def vertexHasRelevant (mesh : ExpMesh) (boneNames : List String)
    (gs : List (Nat × ℚ)) : Bool :=
  gs.any (fun g =>
    boneNames.contains (mesh.vertexGroupNames.getD g.1 "") ∧ g.2 > 0)

/-- The locked (weight exactly 1) and partially weighted (0 < w < 1) vertex
lists of one bone's vertex group, in vertex order. -/
def boneLockedWeighted (mesh : ExpMesh) (vgIdx : Nat) :
    List Nat × List (Nat × ℚ) :=
  mesh.vertexWeights.enum.foldl (fun acc iv =>
    iv.2.foldl (fun a g =>
      if g.1 = vgIdx then
        if g.2 = 1 then (a.1 ++ [iv.1], a.2)
        else if 0 < g.2 ∧ g.2 < 1 then (a.1, a.2 ++ [(iv.1, g.2)])
        else a
      else a) acc) ([], [])

def serialize_singlemesh_bone (mesh : ExpMesh) (arm : ExpArmature)
    (boneIdx : Nat) (bone : ExpBone) (mn mx : Vec3) : Option BStream := do
  let ib ← mat4Inv (mat4Mul (TMat.toMat4 arm.matrixWorld)
    (TMat.toMat4 bone.matrixLocal))
  let lw :=
    match mesh.vertexGroupNames.indexOf? bone.name with
    | none => ([], [])
    | some vgIdx => boneLockedWeighted mesh vgIdx
  let l1 ← write_int_32 lw.1.length
  let l2 ← write_int_32 lw.2.length
  let bi ← write_int_32 boneIdx
  pure (write_matrix16 ib ++ l1 ++ l2 ++ bi ++ write_vector3 true mn ++
    write_vector3 true mx ++ lw.2.map (fun w => Tok.f32 w.2))

def serializeSMBones (mesh : ExpMesh) (arm : ExpArmature) (mn mx : Vec3) :
    Nat → List ExpBone → Option BStream
  | _, [] => some []
  | i, b :: rest => do
      let h ← serialize_singlemesh_bone mesh arm i b mn mx
      let r ← serializeSMBones mesh arm mn mx (i + 1) rest
      pure (h ++ r)

def serialize_singlemesh_lod (mesh : ExpMesh) (arm : ExpArmature) :
    Option BStream := do
  let nb ← write_uint_8 arm.bones.length
  let boneNames := arm.bones.map (·.name)
  let nonW := (mesh.vertexWeights.filter
    (fun gs => ¬ vertexHasRelevant mesh boneNames gs)).length
  let nw ← write_int_32 nonW
  let bounds ← aabbOf (mesh.verts.map (·.1))
  let bones ← serializeSMBones mesh arm bounds.1 bounds.2 0 arm.bones
  pure (nb ++ nw ++ write_vector3 true bounds.1 ++ write_vector3 true bounds.2
    ++ bones)

/-- `serialize_singlemesh`: nothing without an armature modifier; otherwise
the (identical) per-LOD skin block, `num_lods` times. -/
def serialize_singlemesh (obj : ExpObj) (numLods : Nat) : Option BStream :=
  match obj.armatureMod with
  | none => some []
  | some arm => do
      let mesh ← obj.meshData
      let one ← serialize_singlemesh_lod mesh arm
      pure (List.flatten (List.replicate numLods one))

/-! ### `serialize_morph` -/

/-- `name.split("_")`, at the character-list level. -/
def splitUnderscore (cs : List Char) (acc : List Char) : List String :=
  match cs with
  | [] => [String.mk acc.reverse]
  | ch :: rest =>
      if ch = '_' then String.mk acc.reverse :: splitUnderscore rest []
      else splitUnderscore rest (ch :: acc)

def strStartsWith (s pre : String) : Bool := listTakeEq pre.toList s.toList

/-- Parse a shape-key name `Target_<t>[_LOD<l>][_Channel<c>]`; `none` means
the key is skipped (malformed name or a number parse error). -/
def morphParseKey (name : String) : Option (Nat × Nat × Nat) :=
  let parts := splitUnderscore name.toList []
  if parts.length < 2 ∨ parts.getD 0 "" ≠ "Target" then none
  else do
    let t ← parseNatDigits (parts.getD 1 "")
    let l ← match parts.find? (fun p => strStartsWith p "LOD") with
      | some p => parseNatDigits (p.drop 3)
      | none => some 0
    let c ← match parts.find? (fun p => strStartsWith p "Channel") with
      | some p => parseNatDigits (p.drop 7)
      | none => some 0
    pure (t, l, c)

/-- `morph_data[lod][channel] = [(target_idx, key data), ...]`, nested
insertion-ordered dicts. -/
abbrev MorphData := List (Nat × List (Nat × List (Nat × List Vec3)))

def alistApp (k : Nat) (e : Nat × List Vec3) :
    List (Nat × List (Nat × List Vec3)) → List (Nat × List (Nat × List Vec3))
  | [] => [(k, [e])]
  | (g, l) :: rest =>
      if g = k then (g, l ++ [e]) :: rest else (g, l) :: alistApp k e rest

def mdInsert (l c : Nat) (e : Nat × List Vec3) : MorphData → MorphData
  | [] => [(l, [(c, [e])])]
  | (k, chans) :: rest =>
      if k = l then (k, alistApp c e chans) :: rest
      else (k, chans) :: mdInsert l c e rest

def buildMorphData (mesh : ExpMesh) (numLods : Nat) : MorphData :=
  (mesh.shapeKeys.drop 1).foldl (fun md key =>
    match morphParseKey key.1 with
    | none => md
    | some tlc =>
        if tlc.2.1 < numLods then mdInsert tlc.2.1 tlc.2.2 (tlc.1, key.2) md
        else md) []

/-- The per-vertex, per-target position/normal pairs of one channel. Blender
keeps shape-key data aligned with the mesh vertices, so the `getD` default
is never reached on real data. -/
def morphTargetsFor (targets : List (Nat × List Vec3)) (nt vIdx : Nat)
    (vert : Vec3 × Vec3) : BStream :=
  ((List.range nt).map (fun tid =>
    let pos := match targets.find? (fun k => k.1 = tid) with
      | some k => k.2.getD vIdx ⟨0, 0, 0⟩
      | none => vert.1
    write_vector3 true pos ++ write_vector3 true vert.2)).flatten

def morphChannelBlock (mesh : ExpMesh) (nt : Nat)
    (targets : List (Nat × List Vec3)) : Option BStream := do
  let nv ← write_int_16 mesh.verts.length
  let body := (mesh.verts.enum.map
    (fun iv => morphTargetsFor targets nt iv.1 iv.2)).flatten
  pure (nv ++ body ++ [Tok.u8 0])

def vecAvg (a b : Vec3) : Vec3 :=
  ⟨(a.x + b.x) / 2, (a.y + b.y) / 2, (a.z + b.z) / 2⟩

/-- One LOD's morph payload, closing with the bounding box; the box diagonal
length is irrational in general, in which case the exact model records 0
(no claim depends on that scalar). -/
def morphLodBlock (mesh : ExpMesh) (nt nc : Nat) (md : MorphData)
    (lodIdx : Nat) : Option BStream := do
  let chans ← joinOptList ((List.range nc).map (fun c =>
    morphChannelBlock mesh nt ((((md.lookup lodIdx).getD []).lookup c).getD [])))
  let bounds ← aabbOf (mesh.verts.map (·.1))
  let center := vecAvg bounds.1 bounds.2
  let dist := (ratSqrt (Vec3.normSq (bounds.2 - bounds.1))).getD 0
  pure (chans ++ write_vector3 true bounds.1 ++ write_vector3 true bounds.2 ++
    write_vector3 true center ++ write_float_32 dist)

def serialize_morph (obj : ExpObj) (numLods : Nat) : Option BStream := do
  let mesh ← obj.meshData
  if mesh.shapeKeys.length ≤ 1 then write_uint_8 0
  else
    let md := buildMorphData mesh numLods
    let counts := (md.map (fun lc => lc.2.map (fun ch => ch.2.length))).flatten
    let nt := if counts = [] then 1 else counts.foldl Nat.max 0
    let ccounts := md.map (fun lc => lc.2.length)
    let nc := if ccounts = [] then 1 else ccounts.foldl Nat.max 0
    do
      let a ← write_uint_8 nt
      let b ← write_uint_8 nc
      let c ← write_uint_8 numLods
      let lods ← joinOptList ((List.range numLods).map (morphLodBlock mesh nt nc md))
      pure (a ++ b ++ c ++ lods)

/-! ### Dummy, target, sector, occluder payloads -/

def serialize_dummy (obj : ExpObj) : Option BStream :=
  some (write_vector3 true (obj.bboxMin.getD ⟨0, 0, 0⟩) ++
    write_vector3 true (obj.bboxMax.getD ⟨0, 0, 0⟩))

def serialize_target (obj : ExpObj) : Option BStream := do
  let z ← write_int_16 0
  let ids := obj.linkIds.getD []
  let n ← write_uint_8 ids.length
  let arr ← if ids.isEmpty then pure [] else write_uint16_array ids
  pure (z ++ n ++ arr)

def sectorPortalBlock (p : ExpPortal) : Option BStream := do
  let nv ← write_uint_8 p.verts.length
  let plane := p.plane.getD (0, 0, 1, 0)
  let fl ← hexParse (p.flagsHex.getD "0x0")
  let flw ← write_int_32 fl
  pure (nv ++ write_float_array [plane.1, plane.2.1, plane.2.2.1, plane.2.2.2]
    ++ flw ++ write_float_32 (p.nearRange.getD 0) ++
    write_float_32 (p.farRange.getD 100) ++
    (p.verts.map (write_vector3 true)).flatten)

def serialize_sector (obj : ExpObj) : Option BStream := do
  let mesh ← obj.meshData
  let fl ← obj.sectorFlags
  let a ← hexParse fl.1
  let b ← hexParse fl.2
  let wa ← write_int_32 a
  let wb ← write_int_32 b
  let nv ← write_int_32 mesh.verts.length
  let nf ← write_int_32 mesh.faces.length
  let fcs ← joinOptList (mesh.faces.map
    (fun fc => write_face_indices [fc.v0, fc.v2, fc.v1]))
  let np ← write_uint_8 obj.portalChildren.length
  let ps ← joinOptList (obj.portalChildren.map sectorPortalBlock)
  pure (wa ++ wb ++ nv ++ nf ++
    (mesh.verts.map (fun v => write_vector3 true v.1)).flatten ++ fcs ++
    write_vector3 true (obj.minBounds.getD ⟨0, 0, 0⟩) ++
    write_vector3 true (obj.maxBounds.getD ⟨0, 0, 0⟩) ++ np ++ ps)

def serialize_occluder (obj : ExpObj) : Option BStream := do
  let mesh ← obj.meshData
  let nv ← write_int_32 mesh.verts.length
  let nf ← write_int_32 mesh.faces.length
  let fcs ← joinOptList (mesh.faces.map
    (fun fc => write_face_indices [fc.v0, fc.v2, fc.v1]))
  pure (nv ++ nf ++ (mesh.verts.map (fun v => write_vector3 true v.1)).flatten
    ++ fcs)

/-! ### `serialize_frame`, `serialize_joints`, `serialize_file` -/

/-- Exporter bookkeeping; Blender object and bone names are unique, so the
dict keys are modeled by name. -/
structure ExpState where
  frames_map : List (String × Nat)
  joint_map : List (String × Nat)
  frame_index : Nat
  lod_map : List (String × List ExpObj)

def alistSet (m : List (String × Nat)) (k : String) (v : Nat) :
    List (String × Nat) :=
  (k, v) :: m.filter (fun e => e.1 ≠ k)

/-- The frame/visual type chosen at the top of `serialize_frame`. A Blender
MESH object always carries mesh data, so the shape-key probe's `getD 0`
default is never reached on real input. -/
def classifyFrame (obj : ExpObj) : Nat × Nat :=
  match obj.objType with
  | .mesh =>
      if obj.armatureMod.isSome then
        let sk := (obj.meshData.map (fun m => m.shapeKeys.length)).getD 0
        (FRAME_VISUAL, if sk > 1 then VISUAL_SINGLEMORPH else VISUAL_SINGLEMESH)
      else if obj.hasNumPortals ∨ obj.childHasPlane then
        (FRAME_SECTOR, VISUAL_OBJECT)
      else if obj.displayType = "WIRE" ∧ ¬obj.hasNumPortals then
        (FRAME_OCCLUDER, VISUAL_OBJECT)
      else if ((obj.meshData.map (fun m => m.shapeKeys.length)).getD 0) > 1 then
        (FRAME_VISUAL, VISUAL_MORPH)
      else (FRAME_VISUAL, VISUAL_OBJECT)
  | .empty =>
      if obj.emptyDisplay = "CUBE" then (FRAME_DUMMY, VISUAL_OBJECT)
      else if obj.emptyDisplay = "PLAIN_AXES" then (FRAME_TARGET, VISUAL_OBJECT)
      else (FRAME_VISUAL, VISUAL_OBJECT)
  | .armatureObj => (FRAME_VISUAL, VISUAL_OBJECT)
  | .lightOther => (FRAME_VISUAL, VISUAL_OBJECT)

/-- The type-dependent frame content written after the common header. -/
def frameContent (st : ExpState) (table : List ExpMat) (obj : ExpObj)
    (frame_type visual_type : Nat) : Option BStream :=
  if frame_type = FRAME_VISUAL then
    let lods := (st.lod_map.lookup obj.name).getD [obj]
    if visual_type = VISUAL_OBJECT ∨ visual_type = VISUAL_LITOBJECT then
      (serialize_object table lods).map (fun r => r.1)
    else if visual_type = VISUAL_SINGLEMESH ∨ visual_type = VISUAL_SINGLEMORPH then do
      let r ← serialize_object table lods
      let sm ← serialize_singlemesh obj r.2
      let mo ← if visual_type = VISUAL_SINGLEMORPH then serialize_morph obj r.2
        else pure []
      pure (r.1 ++ sm ++ mo)
    else if visual_type = VISUAL_MORPH then do
      let r ← serialize_object table lods
      let mo ← serialize_morph obj r.2
      pure (r.1 ++ mo)
    else some []
  else if frame_type = FRAME_SECTOR then serialize_sector obj
  else if frame_type = FRAME_DUMMY then serialize_dummy obj
  else if frame_type = FRAME_TARGET then serialize_target obj
  else if frame_type = FRAME_OCCLUDER then serialize_occluder obj
  else some []

/-- `The4DSExporter.serialize_frame`: classify, resolve the parent frame id,
record this object's frame index, write the header, then the content.
Returns the new state, the bytes, and the number of frame records written
(0 for an armature object's early return, else 1). -/
def serialize_frame (st : ExpState) (table : List ExpMat) (obj : ExpObj) :
    Option (ExpState × BStream × Nat) :=
  if obj.objType = ExpObjType.armatureObj then some (st, [], 0)
  else do
    let ft := classifyFrame obj
    let parent_id := match obj.parentName with
      | some p => (st.frames_map.lookup p).getD 0
      | none => 0
    let m := if obj.parentName.isSome then obj.matrixLocal else obj.matrixWorld
    let st' : ExpState :=
      { st with frames_map := alistSet st.frames_map obj.name st.frame_index
                frame_index := st.frame_index + 1 }
    let ftw ← write_uint_8 ft.1
    let vtw ←
      if ft.1 = FRAME_VISUAL then do
        let v ← write_uint_8 ft.2
        let bb ← write_BB 0 0
        pure (v ++ bb)
      else pure []
    let pid ← write_int_16 parent_id
    let c0 ← write_uint_8 0
    let nm ← write_string obj.name
    let pr ← write_string (obj.frameProps.getD "")
    let content ← frameContent st' table obj ft.1 ft.2
    pure (st', ftw ++ vtw ++ pid ++ write_vector3 true m.pos ++
      write_vector3 true m.scale ++ write_quat true m.rot ++ c0 ++ nm ++ pr ++
      content, 1)

/-- One bone's JOINT frame record (`serialize_joints` loop body plus
`serialize_joint`). -/
def jointRecord (st : ExpState) (arm : ExpArmature) (boneIdx : Nat)
    (bone : ExpBone) : Option BStream := do
  let parent_id := match bone.parentName with
    | some pn =>
        (st.joint_map.lookup pn).getD ((st.frames_map.lookup arm.name).getD 0)
    | none => 0
  let m ← match bone.parentName with
    | some pn =>
        (arm.bones.find? (fun b => b.name = pn)).map
          (fun pb => rigidInvCompose pb.matrixLocal bone.matrixLocal)
    | none => some bone.matrixLocal
  let ftw ← write_uint_8 FRAME_JOINT
  let pid ← write_int_16 parent_id
  let c0 ← write_uint_8 0
  let nm ← write_string bone.name
  let es ← write_string ""
  let awInv ← mat4Inv (TMat.toMat4 arm.matrixWorld)
  let jm4 := mat4SwapRows12 (mat4Mul awInv (TMat.toMat4 bone.matrixLocal))
  let bi ← write_int_32 boneIdx
  pure (ftw ++ pid ++ write_vector3 true m.pos ++ write_vector3 true m.scale ++
    write_quat true m.rot ++ c0 ++ nm ++ es ++ write_matrix16 jm4 ++ bi)

def jointRecords (st : ExpState) (arm : ExpArmature) :
    Nat → List ExpBone → Option BStream
  | _, [] => some []
  | i, b :: rest => do
      let h ← jointRecord st arm i b
      let r ← jointRecords st arm (i + 1) rest
      pure (h ++ r)

/-- `The4DSExporter.serialize_joints`: joint indices are pre-assigned from
the current frame index, which is then reset (and never advanced again);
one JOINT record per bone. -/
def serialize_joints (st : ExpState) (arm : ExpArmature) :
    Option (ExpState × BStream × Nat) := do
  let jm := arm.bones.enum.foldl
    (fun m ib => alistSet m ib.2.name (st.frame_index + ib.1)) st.joint_map
  let st1 : ExpState := { st with joint_map := jm }
  let body ← jointRecords st1 arm 0 arm.bones
  pure (st1, body, arm.bones.length)

/-! ### `collect_lods`, `buildObjectList`, `serialize_file` -/

/-- Index of the last occurrence of `needle`, for `str.rsplit(needle, 1)`. -/
def lastIndexOfSub (hay needle : List Char) : Option Nat :=
  ((List.range (hay.length + 1)).filter
    (fun i => listTakeEq needle (hay.drop i))).getLast?

def padSet (l : List (Option ExpObj)) (n : Nat) (o : ExpObj) :
    List (Option ExpObj) :=
  (l ++ List.replicate (n + 1 - l.length) none).set n (some o)

/-- `The4DSExporter.collect_lods`, with the `lod_map` keyed by base-object
name: returns the set of LOD-child names and the trimmed map. -/
def collect_lods (elements : List ExpObj) :
    List String × List (String × List ExpObj) :=
  let step := fun (acc : List String × List (String × List (Option ExpObj)))
      (obj : ExpObj) =>
    if obj.objType = ExpObjType.mesh ∧ strContains (strLower obj.name) "_lod" then
      match lastIndexOfSub obj.name.toList ("_lod".toList) with
      | none => acc
      | some i =>
          let base := String.mk (obj.name.toList.take i)
          let lodStr := String.mk (obj.name.toList.drop (i + 4))
          match parseNatDigits lodStr with
          | none => acc
          | some lodNum =>
              match elements.find? (fun o =>
                o.name = base ∧ o.objType = ExpObjType.mesh) with
              | none => acc
              | some baseObj =>
                  if lodNum < 1 then acc
                  else
                    let lm :=
                      if (acc.2.lookup base).isSome then acc.2
                      else acc.2 ++ [(base, [some baseObj])]
                    (acc.1 ++ [obj.name],
                      lm.map (fun e =>
                        if e.1 = base then (e.1, padSet e.2 lodNum obj) else e))
    else acc
  let r := elements.foldl step ([], [])
  (r.1, r.2.map (fun e => (e.1, e.2.filterMap id)))

/-- `The4DSExporter.buildObjectList`: objects whose name contains
`"_Portal"` never reach the element list (parented ones are remembered in
the write-only `portal_parents` dict, the rest are dropped outright). -/
def buildObjectList (selected : List ExpObj) : List ExpObj :=
  selected.filter (fun o => ¬ strContains o.name "_Portal")

/-- The unique-material table. The source builds a Python set of material
objects; iteration order of that set is unspecified, the model fixes
first-occurrence order (no claim depends on the order). -/
def collectMaterials (elements : List ExpObj) : List ExpMat :=
  (elements.foldl (fun acc o =>
    if o.objType = ExpObjType.mesh then
      acc ++ ((o.meshData.map (fun m => m.materialSlots)).getD []).filterMap id
    else acc) []).foldl
    (fun acc m => if acc.contains m then acc else acc ++ [m]) []

def serializeFrames (st : ExpState) (table : List ExpMat) :
    List ExpObj → Option (ExpState × BStream × Nat)
  | [] => some (st, [], 0)
  | o :: rest => do
      let r1 ← serialize_frame st table o
      let r2 ← serializeFrames r1.1 table rest
      pure (r2.1, r1.2.1 ++ r2.2.1, r1.2.2 + r2.2.2)

def serializeArms (st : ExpState) :
    List ExpObj → Option (ExpState × BStream × Nat)
  | [] => some (st, [], 0)
  | o :: rest => do
      let arm ← o.armData
      let st1 : ExpState :=
        { st with frames_map := alistSet st.frames_map o.name st.frame_index }
      let r1 ← serialize_joints st1 arm
      let r2 ← serializeArms r1.1 rest
      pure (r2.1, r1.2.1 ++ r2.2.1, r1.2.2 + r2.2.2)

/-- `The4DSExporter.serialize_file`: header, materials, the frame-count
word `len(objects) + Σ bones`, the object frames, the joint frames, and
the final no-animation byte. Returns the bytes, the frame count written in
the header, and the number of frame records actually serialized. -/
def serialize_file (selected : List ExpObj) : Option (BStream × Nat × Nat) := do
  let hdr ← serialize_header VERSION_MAFIA
  let elements := buildObjectList selected
  let materials := collectMaterials elements
  let mc ← write_int_16 materials.length
  let mats ← joinOptList (materials.map serialize_material)
  let lodsR := collect_lods elements
  let objects := elements.filter (fun o =>
    (o.objType = ExpObjType.mesh ∨ o.objType = ExpObjType.empty) ∧
      ¬ lodsR.1.contains o.name)
  let armatures := elements.filter (fun o => o.objType = ExpObjType.armatureObj)
  let totalBones :=
    (armatures.map (fun o => (o.armData.map (fun a => a.bones.length)).getD 0)).sum
  let total := objects.length + totalBones
  let tw ← write_int_16 total
  let st0 : ExpState := ⟨[], [], 1, lodsR.2⟩
  let ro ← serializeFrames st0 materials objects
  let rj ← serializeArms ro.1 armatures
  pure (hdr ++ mc ++ mats ++ tw ++ ro.2.1 ++ rj.2.1 ++ [Tok.u8 0],
    total, ro.2.2 + rj.2.2)

end Exp

/-! ## Concrete frame-record streams for the scenario theorems -/

/-- The common header of a non-VISUAL frame record, as `deserialize_frame`
consumes it. -/
def mkFrameHeader (frameType parentId : Nat) (pos scaleV : Vec3) (rot : Quat)
    (name props : String) : BStream :=
  Tok.u8 frameType :: Tok.u16 parentId ::
    (write_vector3 true pos ++ write_vector3 true scaleV ++
      write_quat true rot ++ [Tok.u8 0, Tok.lstr name, Tok.lstr props])

/-- A complete DUMMY frame record with zero bounds. -/
def mkDummyFrame (parentId : Nat) (name : String) : BStream :=
  mkFrameHeader FRAME_DUMMY parentId ⟨0, 0, 0⟩ ⟨1, 1, 1⟩ ⟨1, 0, 0, 0⟩ name "" ++
    (write_vector3 true ⟨0, 0, 0⟩ ++ write_vector3 true ⟨0, 0, 0⟩)

/-- A complete JOINT frame record (zero matrix, bone id 0). -/
def mkJointFrame (parentId : Nat) (name : String) : BStream :=
  mkFrameHeader FRAME_JOINT parentId ⟨0, 0, 0⟩ ⟨1, 1, 1⟩ ⟨1, 0, 0, 0⟩ name "" ++
    (write_matrix16 (List.replicate 16 0) ++ [Tok.u32 0])

/-- C8: a frame whose queued parent index equals its own frame index decodes
successfully (here a DUMMY frame at frame index 1 with parent index 1), the
resolution pass ignores the self-referencing pair — `resolveParentLink`
returns no action for it — and a queue with the pair removed resolves to
exactly the same actions, so all other links are still resolved. -/
theorem C8_self_parent_ignored :
    (∀ (fm : List (Nat × FrameEntry)) (ft : List (Nat × Nat))
        (bm : List (Nat × String)) (arm : Bool) (ab : List String) (i : Nat),
      resolveParentLink fm ft bm arm ab (i, i) = []) ∧
    (∀ (fm : List (Nat × FrameEntry)) (ft : List (Nat × Nat))
        (bm : List (Nat × String)) (arm : Bool) (ab : List String) (i : Nat)
        (l₁ l₂ : List (Nat × Nat)),
      apply_deferred_parenting (l₁ ++ (i, i) :: l₂) fm ft bm arm ab =
        apply_deferred_parenting (l₁ ++ l₂) fm ft bm arm ab) ∧
    (deserialize_frame (initImpState 29 false) [] (mkDummyFrame 1 "a")).map
        (fun r => (r.2.1, r.1.parentingInfo,
          apply_deferred_parenting r.1.parentingInfo r.1.framesMap
            r.1.frameTypes r.1.bonesMap false [])) =
      some (true, [(1, 1)], []) := by
  refine ⟨?_, ?_, by decide⟩
  · intro fm ft bm arm ab i
    simp [resolveParentLink]
  · intro fm ft bm arm ab i l₁ l₂
    simp [apply_deferred_parenting, resolveParentLink]

/-- A complete one-frame file (one DUMMY frame, no materials, no
animation) with the given header version word. -/
def c7Stream (v : Nat) : BStream :=
  Tok.fix "4DS\x00" :: Tok.u16 v :: Tok.raw 8 :: Tok.u16 0 :: Tok.u16 1 ::
    (mkDummyFrame 0 "a" ++ [Tok.u8 0])

/-- C7 (amended): the header gate aborts the whole file, producing no
frames, for a wrong 4-byte magic or for ANY version word other than 29 —
versions 41 and 42 are rejected at the header, not partially supported —
while a version-29 file proceeds past the header and decodes its frames. -/
theorem C7_version_gate_amended :
    (∀ (d c : Bool) (reg : MatRegistry) (v : Nat) (rest : BStream), v ≠ 29 →
      import_file d c reg (Tok.fix "4DS\x00" :: Tok.u16 v :: rest) = .ok none) ∧
    (∀ (d c : Bool) (reg : MatRegistry) (m : String) (rest : BStream),
      m.length = 4 → m ≠ "4DS\x00" →
      import_file d c reg (Tok.fix m :: rest) = .ok none) ∧
    (import_file false false [] (c7Stream 29)).map
      (fun o => o.map (fun r => r.frames)) = .ok (some [0]) := by
  refine ⟨?_, ?_, by rfl⟩
  · intro d c reg v rest hv
    show (if v ≠ VERSION_MAFIA
      then (pure none : Except ImportErr (Option ImportResult)) else _) = .ok none
    rw [if_pos (by simpa [VERSION_MAFIA] using hv)]
    rfl
  · intro d c reg m rest hm4 hm
    unfold import_file
    rw [show read_string_fixed 4 (Tok.fix m :: rest) = some (m, rest) by
      simp [read_string_fixed, hm4]]
    show (if m ≠ "4DS\x00"
      then (pure none : Except ImportErr (Option ImportResult)) else _) = .ok none
    rw [if_pos hm]
    rfl

/-- C7 (counterexample): the same one-frame file is fully decoded with
version word 29 but yields `None` — no frames at all — with version word
41, which the claim calls partially supported. -/
theorem C7_counterexample :
    import_file false false [] (c7Stream 41) = .ok none ∧
    import_file false false [] (c7Stream 42) = .ok none ∧
    (import_file false false [] (c7Stream 29)).map
      (fun o => o.map (fun r => r.frames)) = .ok (some [0]) := by
  refine ⟨by rfl, by rfl, by rfl⟩

/-- C7 witness: the amended gate applied at version 41 and at a wrong
magic. -/
theorem C7_version_gate_amended_witness :
    import_file false false [] (Tok.fix "4DS\x00" :: Tok.u16 41 ::
        (Tok.raw 8 :: Tok.u16 0 :: Tok.u16 1 :: (mkDummyFrame 0 "a" ++ [Tok.u8 0])))
      = .ok none ∧
    import_file false false [] (Tok.fix "XDS\x00" :: Tok.u16 29 :: []) = .ok none :=
  ⟨C7_version_gate_amended.1 false false [] 41
      (Tok.raw 8 :: Tok.u16 0 :: Tok.u16 1 :: (mkDummyFrame 0 "a" ++ [Tok.u8 0]))
      (by decide),
    C7_version_gate_amended.2.1 false false [] "XDS\x00" [] (by decide) (by decide)⟩

/-! ## C1: the truncating frame loop -/

/-- A frame-record header with an arbitrary (unsupported) frame-type
byte. -/
def c1Hdr (b : Nat) : BStream :=
  mkFrameHeader b 0 ⟨0, 0, 0⟩ ⟨1, 1, 1⟩ ⟨1, 0, 0, 0⟩ "x" ""

/-- A 5-frame file whose 3rd frame record carries frame-type byte `b`:
two DUMMY frames, the `b` record, then the animation byte 7. -/
def c1Stream (b : Nat) : BStream :=
  Tok.fix "4DS\x00" :: Tok.u16 29 :: Tok.raw 8 :: Tok.u16 0 :: Tok.u16 5 ::
    (mkDummyFrame 0 "a" ++ (mkDummyFrame 0 "b" ++ (c1Hdr b ++ [Tok.u8 7])))

/-- Session state after decoding the first DUMMY frame. -/
def c1S1 : ImpState :=
  ((deserialize_frame (initImpState 29 false) [] (mkDummyFrame 0 "a")).map
    (fun r => r.1)).getD (initImpState 29 false)

/-- Session state after decoding both DUMMY frames. -/
def c1S2 : ImpState :=
  ((deserialize_frame c1S1 [] (mkDummyFrame 0 "b")).map (fun r => r.1)).getD c1S1

/-- Session state after the aborting record: only its frame-type note is
added. -/
def c1S3 (b : Nat) : ImpState :=
  { c1S2 with frameTypes := (c1S2.frameIndex, b) :: c1S2.frameTypes }

theorem c1_step_a (τ : BStream) :
    deserialize_frame (initImpState 29 false) [] (mkDummyFrame 0 "a" ++ τ) =
      some (c1S1, true, τ) := rfl

theorem c1_step_b (τ : BStream) :
    deserialize_frame c1S1 [] (mkDummyFrame 0 "b" ++ τ) =
      some (c1S2, true, τ) := rfl

/-- The `(frame_type, visual_type)` dispatch on an unsupported frame-type
byte: no branch taken, the state returned untouched with the `false`
truncation signal. -/
theorem frameDispatch_unsupported (b : Nat) (h1 : b ≠ 1) (h5 : b ≠ 5)
    (h6 : b ≠ 6) (h7 : b ≠ 7) (h10 : b ≠ 10) (h12 : b ≠ 12) (st : ImpState)
    (mats : List BMat) (vt pid : Nat) (tm : TMat) (nm up : String)
    (s : BStream) :
    frameDispatch st mats b vt pid tm nm up s = some (st, false, s) := by
  unfold frameDispatch FRAME_VISUAL FRAME_DUMMY FRAME_TARGET FRAME_SECTOR
    FRAME_OCCLUDER FRAME_JOINT
  rw [if_neg h1, if_neg (by simp [h6, h7]), if_neg (by simp [h5, h12]),
    if_neg h10]

set_option maxHeartbeats 4000000 in
/-- Consuming the common non-VISUAL frame header: the frame type is noted,
a positive parent index is queued, and control passes to the dispatch. -/
theorem deserialize_frame_header (st : ImpState) (mats : List BMat)
    (ft pid : Nat) (hft : ft ≠ 1) (pos scaleV : Vec3) (rot : Quat)
    (nm up : String) (τ : BStream) :
    deserialize_frame st mats (mkFrameHeader ft pid pos scaleV rot nm up ++ τ) =
      frameDispatch
        (if pid > 0 then
          { st with
              frameTypes := (st.frameIndex, ft) :: st.frameTypes
              parentingInfo := st.parentingInfo ++ [(st.frameIndex, pid)] }
        else { st with frameTypes := (st.frameIndex, ft) :: st.frameTypes })
        mats ft 0 pid ⟨pos, rot, scaleV⟩ nm up τ := by
  dsimp only [deserialize_frame, mkFrameHeader, bind, Option.bind,
    read_uint_8, read_int_16, read_float_32, read_vector3, read_quat,
    read_string, pure, List.cons_append, List.append_assoc, List.nil_append]
  rw [if_neg (show ¬(ft = FRAME_VISUAL) from hft)]
  rfl

/-- Any frame record whose frame-type byte is none of the six supported
values consumes only its header and returns `false` — the truncation
signal — leaving the state untouched except for the frame-type note. -/
theorem frame_step_unsupported (st : ImpState) (mats : List BMat) (b : Nat)
    (τ : BStream) (h1 : b ≠ 1) (h5 : b ≠ 5) (h6 : b ≠ 6) (h7 : b ≠ 7)
    (h10 : b ≠ 10) (h12 : b ≠ 12) :
    deserialize_frame st mats (c1Hdr b ++ τ) =
      some ({ st with frameTypes := (st.frameIndex, b) :: st.frameTypes },
        false, τ) := by
  rw [show c1Hdr b =
      mkFrameHeader b 0 ⟨0, 0, 0⟩ ⟨1, 1, 1⟩ ⟨1, 0, 0, 0⟩ "x" "" from rfl,
    deserialize_frame_header st mats b 0 h1 _ _ _ _ _ _,
    frameDispatch_unsupported b h1 h5 h6 h7 h10 h12]
  simp

theorem c1_step_un (b : Nat) (τ : BStream) (h1 : b ≠ 1) (h5 : b ≠ 5)
    (h6 : b ≠ 6) (h7 : b ≠ 7) (h10 : b ≠ 10) (h12 : b ≠ 12) :
    deserialize_frame c1S2 [] (c1Hdr b ++ τ) = some (c1S3 b, false, τ) := by
  rw [frame_step_unsupported c1S2 [] b τ h1 h5 h6 h7 h10 h12]
  rfl

theorem decodeFrames_cons_true (mats : List BMat) (n : Nat) (st : ImpState)
    (s : BStream) (st' : ImpState) (s' : BStream)
    (r : ImpState × Nat × BStream)
    (h : deserialize_frame st mats s = some (st', true, s'))
    (h2 : decodeFrames mats n st' s' = some r) :
    decodeFrames mats (n + 1) st s = some (r.1, r.2.1 + 1, r.2.2) := by
  simp [decodeFrames, h, h2]

theorem decodeFrames_cons_false (mats : List BMat) (n : Nat) (st : ImpState)
    (s : BStream) (st' : ImpState) (s' : BStream)
    (h : deserialize_frame st mats s = some (st', false, s')) :
    decodeFrames mats (n + 1) st s = some (st', 1, s') := by
  simp [decodeFrames, h]

theorem c1_decode (b : Nat) (h1 : b ≠ 1) (h5 : b ≠ 5) (h6 : b ≠ 6)
    (h7 : b ≠ 7) (h10 : b ≠ 10) (h12 : b ≠ 12) :
    decodeFrames [] 5 (initImpState 29 false)
      (mkDummyFrame 0 "a" ++ (mkDummyFrame 0 "b" ++ (c1Hdr b ++ [Tok.u8 7]))) =
      some (c1S3 b, 3, [Tok.u8 7]) := by
  have e3 : decodeFrames [] 3 c1S2 (c1Hdr b ++ [Tok.u8 7]) =
      some (c1S3 b, 1, [Tok.u8 7]) := by
    rw [show (3 : Nat) = 2 + 1 from rfl]
    exact decodeFrames_cons_false [] 2 c1S2 _ (c1S3 b) [Tok.u8 7]
      (c1_step_un b [Tok.u8 7] h1 h5 h6 h7 h10 h12)
  have e4 : decodeFrames [] 4 c1S1
      (mkDummyFrame 0 "b" ++ (c1Hdr b ++ [Tok.u8 7])) =
      some (c1S3 b, 2, [Tok.u8 7]) := by
    rw [show (4 : Nat) = 3 + 1 from rfl]
    simpa using decodeFrames_cons_true [] 3 c1S1 _ c1S2 _ _ (c1_step_b _) e3
  rw [show (5 : Nat) = 4 + 1 from rfl]
  simpa using decodeFrames_cons_true [] 4 (initImpState 29 false) _ c1S1 _ _
    (c1_step_a _) e4

/-- The post-frame-loop remainder of `import_file` (with
`catchScaleErr = false`), as a function of the frame loop's result; used
to transport the loop evaluation into the full-file equation. -/
def c1Post (r : Option (ImpState × Nat × BStream)) :
    Except ImportErr (Option ImportResult) := do
  let (st, _iters, s) ← optToErr r
  let baseBone := st.baseBoneName.getD ""
  let hasArm := st.armatureId.isSome
  let armBones ←
    if hasArm ∧ st.joints ≠ [] then
      match build_armature true st.joints baseBone st.framesMap none with
      | .ok (bm, _) => (.ok (bm.map Prod.fst) : Except ImportErr _)
      | .error _ =>
          if false then .ok [] else .error .scaleErr
    else if hasArm then (.ok [baseBone] : Except ImportErr _)
    else (.ok [] : Except ImportErr _)
  let skinApps :=
    if hasArm ∧ st.joints ≠ [] then
      st.skinnedMeshes.map (fun sm =>
        (sm.meshId,
          apply_skinning sm.totalVerts sm.vertexGroups st.boneNodes baseBone))
    else []
  let actions := apply_deferred_parenting st.parentingInfo st.framesMap
    st.frameTypes st.bonesMap hasArm armBones
  let (anim, s) ← optToErr (read_uint_8 s)
  let _ := s
  return some ⟨st.frames, st, actions, skinApps, anim⟩

theorem c1_import_eq (b : Nat) :
    import_file false false [] (c1Stream b) =
      c1Post (decodeFrames [] 5 (initImpState 29 false)
        (mkDummyFrame 0 "a" ++ (mkDummyFrame 0 "b" ++ (c1Hdr b ++ [Tok.u8 7])))) :=
  rfl

/-- C1: the frame loop runs at most `frame_count` iterations, and on the
5-frame file whose 3rd record has any unsupported frame-type byte, decode
returns normally (no error) with exactly the 2 successfully-decoded DUMMY
frames — the loop stops at the 3rd record (3 iterations), the two decoded
objects survive, and the post-loop animation byte is still read. -/
theorem C1_frame_loop_truncation :
    (∀ (mats : List BMat) (n : Nat) (st : ImpState) (s : BStream)
        (r : ImpState × Nat × BStream),
      decodeFrames mats n st s = some r → r.2.1 ≤ n) ∧
    (∀ b : Nat, b ≠ FRAME_VISUAL → b ≠ FRAME_SECTOR → b ≠ FRAME_DUMMY →
        b ≠ FRAME_TARGET → b ≠ FRAME_JOINT → b ≠ FRAME_OCCLUDER →
      (import_file false false [] (c1Stream b)).map (fun o => o.map (fun res =>
        (res.frames, res.finalState.objs.map (fun ob => ob.name),
          res.animationFlag))) = .ok (some ([0, 1], ["a", "b"], 7))) := by
  constructor
  · intro mats n
    induction n with
    | zero =>
        intro st s r h
        simp only [decodeFrames, Option.some.injEq] at h
        subst h
        simp
    | succ n ih =>
        rintro st s ⟨r1, k, r3⟩ h
        show k ≤ n + 1
        unfold decodeFrames at h
        cases hds : deserialize_frame st mats s with
        | none => rw [hds] at h; exact absurd h (by simp)
        | some a =>
            rw [hds] at h
            obtain ⟨st', ok, s'⟩ := a
            cases ok with
            | false =>
                simp at h
                omega
            | true =>
                simp at h
                cases hrec : decodeFrames mats n st' s' with
                | none => rw [hrec] at h; exact absurd h (by simp)
                | some r2 =>
                    rw [hrec] at h
                    obtain ⟨x1, xk, x3⟩ := r2
                    simp at h
                    have hb : xk ≤ n := by
                      simpa using ih st' s' (x1, xk, x3) hrec
                    omega
  · intro b h1 h5 h6 h7 h10 h12
    rw [c1_import_eq b, c1_decode b h1 h5 h6 h7 h10 h12]
    rfl

/-- C1 witness: the iteration bound and the truncation scenario at the
concrete unsupported byte 3. -/
theorem C1_frame_loop_truncation_witness :
    (3 : Nat) ≤ 5 ∧
    (import_file false false [] (c1Stream 3)).map (fun o => o.map (fun res =>
      (res.frames, res.finalState.objs.map (fun ob => ob.name),
        res.animationFlag))) = .ok (some ([0, 1], ["a", "b"], 7)) :=
  ⟨by
    simpa using C1_frame_loop_truncation.1 [] 5 (initImpState 29 false)
      (mkDummyFrame 0 "a" ++ (mkDummyFrame 0 "b" ++ (c1Hdr 3 ++ [Tok.u8 7])))
      (c1S3 3, 3, [Tok.u8 7])
      (c1_decode 3 (by decide) (by decide) (by decide) (by decide) (by decide)
        (by decide)),
    C1_frame_loop_truncation.2 3 (by decide) (by decide) (by decide)
      (by decide) (by decide) (by decide)⟩

/-! ## C3: frame-index accounting of the frame codec -/

theorem modifyObj_frameIndex (st : ImpState) (id : Nat)
    (f : BlendObj → BlendObj) : (modifyObj st id f).frameIndex = st.frameIndex :=
  rfl

theorem setWireFrame_frameIndex (st : ImpState) (id : Nat) (b : Bool) :
    (setWireFrame st id b).frameIndex = st.frameIndex := rfl

theorem attachFrameProps_frameIndex (st : ImpState) (id : Nat) (p : String) :
    (attachFrameProps st id p).frameIndex = st.frameIndex := by
  unfold attachFrameProps
  split <;> rfl

theorem objLodNewObj_frameIndex (st : ImpState) (c l : Nat) (d : Bool) :
    (objLodNewObj st c l d).1.frameIndex = st.frameIndex := by
  unfold objLodNewObj
  split <;> rfl

/-- The LOD loop never touches the frame index. -/
theorem objLodLoop_frameIndex (mats : List BMat) (d r : Bool) :
    ∀ (rem li : Nat) (st : ImpState) (cur : Nat) (acc : List Nat) (s : BStream)
      (res : ImpState × List Nat × BStream),
      objLodLoop mats d r li rem st cur acc s = some res →
      res.1.frameIndex = st.frameIndex := by
  intro rem
  induction rem with
  | zero =>
      intro li st cur acc s res h
      simp only [objLodLoop, Option.some.injEq] at h
      subst h
      rfl
  | succ n ih =>
      intro li st cur acc s res h
      unfold objLodLoop at h
      dsimp only [bind, Option.bind] at h
      cases hc : read_float_32 s with
      | none => rw [hc] at h; simp at h
      | some p =>
          rw [hc] at h
          obtain ⟨clip, s1⟩ := p
          dsimp only [] at h
          cases hn : read_int_16 s1 with
          | none => rw [hn] at h; simp at h
          | some q =>
              rw [hn] at h
              obtain ⟨nv, s2⟩ := q
              dsimp only [] at h
              split at h
              · cases hv : readVertsN nv s2 with
                | none => rw [hv] at h; simp at h
                | some v =>
                    rw [hv] at h
                    obtain ⟨vraw, s3⟩ := v
                    dsimp only [] at h
                    cases hg : read_uint_8 s3 with
                    | none => rw [hg] at h; simp at h
                    | some g =>
                        rw [hg] at h
                        obtain ⟨ng, s4⟩ := g
                        dsimp only [] at h
                        cases hf : readFaceGroupsN (List.map (fun x => x.2.2) vraw)
                            nv mats ng [] [] s4 with
                        | none => rw [hf] at h; simp at h
                        | some fgs =>
                            rw [hf] at h
                            obtain ⟨fcs, slots, s5⟩ := fgs
                            dsimp only [] at h
                            have := ih (li + 1) _ _ _ _ _ h
                            rw [this, modifyObj_frameIndex,
                              objLodNewObj_frameIndex]
              · cases hs : skipBytes (32 * nv) s2 with
                | none => rw [hs] at h; simp at h
                | some s3 =>
                    rw [hs] at h
                    dsimp only [] at h
                    cases hg : read_uint_8 s3 with
                    | none => rw [hg] at h; simp at h
                    | some g =>
                        rw [hg] at h
                        obtain ⟨ng, s4⟩ := g
                        dsimp only [] at h
                        cases hk : skipFaceGroups ng s4 with
                        | none => rw [hk] at h; simp at h
                        | some s5 =>
                            rw [hk] at h
                            dsimp only [] at h
                            have := ih (li + 1) _ _ _ _ _ h
                            rw [this, objLodNewObj_frameIndex]

theorem deserialize_object_frameIndex (st : ImpState) (mats : List BMat)
    (meshId : Nat) (rd : Bool) (s : BStream)
    (res : ImpState × Nat × List Nat × BStream)
    (h : deserialize_object st mats meshId rd s = some res) :
    res.1.frameIndex = st.frameIndex := by
  unfold deserialize_object at h
  dsimp only [bind, Option.bind] at h
  cases hi : read_int_16 s with
  | none => rw [hi] at h; simp at h
  | some p =>
      rw [hi] at h
      obtain ⟨inst, s1⟩ := p
      dsimp only [] at h
      cases hn : read_uint_8 s1 with
      | none => rw [hn] at h; simp at h
      | some q =>
          rw [hn] at h
          obtain ⟨nl, s2⟩ := q
          dsimp only [] at h
          cases hl : objLodLoop mats st.drawLODS rd 0 nl st meshId [] s2 with
          | none => rw [hl] at h; simp at h
          | some r3 =>
              rw [hl] at h
              obtain ⟨st3, vpl, s3⟩ := r3
              dsimp only [] at h
              simp only [Option.pure_def, Option.some.injEq] at h
              rw [← h]
              exact objLodLoop_frameIndex mats st.drawLODS rd nl 0 st meshId
                [] s2 (st3, vpl, s3) hl

theorem deserialize_singlemesh_frameIndex (st : ImpState) (nl meshId : Nat)
    (s : BStream) (res : ImpState × BStream)
    (h : deserialize_singlemesh st nl meshId s = some res) :
    res.1.frameIndex = st.frameIndex := by
  unfold deserialize_singlemesh at h
  cases ha : st.armatureId with
  | some aId =>
      rw [ha] at h
      dsimp only [] at h
      simp only [Option.bind_eq_bind', Option.bind_eq_some'] at h
      obtain ⟨⟨vgs, b2p, s1⟩, -, hfin⟩ := h
      simp only [Option.pure_def, Option.some.injEq] at hfin
      subst hfin
      simp [ha, modifyObj_frameIndex]
  | none =>
      rw [ha] at h
      dsimp only [] at h
      simp only [Option.bind_eq_bind', Option.bind_eq_some'] at h
      obtain ⟨⟨vgs, b2p, s1⟩, -, hfin⟩ := h
      simp only [Option.pure_def, Option.some.injEq] at hfin
      subst hfin
      rfl

theorem deserialize_morph_frameIndex (st : ImpState) (meshId : Nat)
    (vpl : List Nat) (s : BStream) (res : ImpState × BStream)
    (h : deserialize_morph st meshId vpl s = some res) :
    res.1.frameIndex = st.frameIndex := by
  unfold deserialize_morph at h
  dsimp only [bind, Option.bind] at h
  cases h0 : read_uint_8 s with
  | none => rw [h0] at h; simp at h
  | some p =>
      rw [h0] at h
      obtain ⟨nt, s1⟩ := p
      dsimp only [] at h
      split at h
      · simp only [Option.pure_def, Option.some.injEq] at h
        subst h
        rfl
      · cases h1 : read_uint_8 s1 with
        | none => rw [h1] at h; simp at h
        | some q =>
            rw [h1] at h
            obtain ⟨nchan, s2⟩ := q
            dsimp only [] at h
            cases h2 : read_uint_8 s2 with
            | none => rw [h2] at h; simp at h
            | some w =>
                rw [h2] at h
                obtain ⟨nlodsRaw, s3⟩ := w
                dsimp only [] at h
                cases h3 : readMorphLods nt nchan
                    (if vpl.length ≠ nlodsRaw then min nlodsRaw vpl.length
                     else nlodsRaw) s3 with
                | none => rw [h3] at h; simp at h
                | some m =>
                    rw [h3] at h
                    obtain ⟨md, s4⟩ := m
                    dsimp only [] at h
                    simp only [Option.pure_def, Option.some.injEq] at h
                    subst h
                    rw [modifyObj_frameIndex]
                    split
                    · rfl
                    · rw [modifyObj_frameIndex]

theorem deserialize_dummy_frameIndex (st : ImpState) (emptyId : Nat)
    (pos : Vec3) (rot : Quat) (sc : Vec3) (s : BStream)
    (res : ImpState × BStream)
    (h : deserialize_dummy st emptyId pos rot sc s = some res) :
    res.1.frameIndex = st.frameIndex := by
  unfold deserialize_dummy at h
  simp only [Option.bind_eq_bind', Option.bind_eq_some'] at h
  obtain ⟨⟨mn, s1⟩, -, h⟩ := h
  obtain ⟨⟨mx, s2⟩, -, h⟩ := h
  simp only [Option.pure_def, Option.some.injEq] at h
  subst h
  rfl

theorem deserialize_target_frameIndex (st : ImpState) (emptyId : Nat)
    (pos : Vec3) (rot : Quat) (sc : Vec3) (s : BStream)
    (res : ImpState × BStream)
    (h : deserialize_target st emptyId pos rot sc s = some res) :
    res.1.frameIndex = st.frameIndex := by
  unfold deserialize_target at h
  simp only [Option.bind_eq_bind', Option.bind_eq_some'] at h
  obtain ⟨⟨u, s1⟩, -, h⟩ := h
  obtain ⟨⟨nlinks, s2⟩, -, h⟩ := h
  obtain ⟨⟨ids, s3⟩, -, h⟩ := h
  simp only [Option.pure_def, Option.some.injEq] at h
  subst h
  rfl

theorem foldl_frameIndex {α : Type _} (f : ImpState → α → ImpState)
    (hf : ∀ st a, (f st a).frameIndex = st.frameIndex) :
    ∀ (l : List α) (st : ImpState), (l.foldl f st).frameIndex = st.frameIndex := by
  intro l
  induction l with
  | nil => intro st; rfl
  | cons a t ih => intro st; rw [List.foldl_cons, ih, hf]

theorem deserialize_sector_frameIndex (st : ImpState) (meshId : Nat)
    (pos : Vec3) (rot : Quat) (sc : Vec3) (s : BStream)
    (res : ImpState × BStream)
    (h : deserialize_sector st meshId pos rot sc s = some res) :
    res.1.frameIndex = st.frameIndex := by
  unfold deserialize_sector at h
  dsimp only [bind, Option.bind] at h
  cases h1 : read_int_32 s with
  | none => rw [h1] at h; simp at h
  | some p1 =>
      rw [h1] at h
      obtain ⟨f1, s1⟩ := p1
      dsimp only [] at h
      cases h2 : read_int_32 s1 with
      | none => rw [h2] at h; simp at h
      | some p2 =>
          rw [h2] at h
          obtain ⟨f2, s2⟩ := p2
          dsimp only [] at h
          cases h3 : read_int_32 s2 with
          | none => rw [h3] at h; simp at h
          | some p3 =>
              rw [h3] at h
              obtain ⟨nv, s3⟩ := p3
              dsimp only [] at h
              cases h4 : read_int_32 s3 with
              | none => rw [h4] at h; simp at h
              | some p4 =>
                  rw [h4] at h
                  obtain ⟨nf, s4⟩ := p4
                  dsimp only [] at h
                  -- the version-dependent bounds/vertex layout, then the
                  -- shared suffix in each of the three cases
                  split at h
                  · cases hv : readVec3List nv s4 with
                    | none => rw [hv] at h; simp at h
                    | some q1 =>
                        rw [hv] at h
                        obtain ⟨verts, t1⟩ := q1
                        dsimp only [] at h
                        cases hf : readFaceList nf t1 with
                        | none => rw [hf] at h; simp at h
                        | some q2 =>
                            rw [hf] at h
                            obtain ⟨faces, t2⟩ := q2
                            dsimp only [] at h
                            cases hm : read_vector3 true t2 with
                            | none => rw [hm] at h; simp at h
                            | some q3 =>
                                rw [hm] at h
                                obtain ⟨mnB, t3⟩ := q3
                                dsimp only [] at h
                                cases hx : read_vector3 true t3 with
                                | none => rw [hx] at h; simp at h
                                | some q4 =>
                                    rw [hx] at h
                                    obtain ⟨mxB, t4⟩ := q4
                                    dsimp only [] at h
                                    cases h6 : read_uint_8 t4 with
                                    | none => rw [h6] at h; simp at h
                                    | some p6 =>
                                        rw [h6] at h
                                        obtain ⟨np, s6⟩ := p6
                                        dsimp only [] at h
                                        cases h7 : readPortals st.version np s6 with
                                        | none => rw [h7] at h; simp at h
                                        | some p7 =>
                                            rw [h7] at h
                                            obtain ⟨portals, s7⟩ := p7
                                            dsimp only [] at h
                                            simp only [Option.pure_def,
                                              Option.some.injEq] at h
                                            subst h
                                            rw [foldl_frameIndex]
                                            · rw [setWireFrame_frameIndex,
                                                modifyObj_frameIndex]
                                            · intro st' a
                                              rw [setWireFrame_frameIndex]
                  · split at h
                    · cases hv : read_quat false s4 with
                      | none => rw [hv] at h; simp at h
                      | some q1 =>
                          rw [hv] at h
                          obtain ⟨mnQ, t1⟩ := q1
                          dsimp only [] at h
                          cases hw : read_quat false t1 with
                          | none => rw [hw] at h; simp at h
                          | some q2 =>
                              rw [hw] at h
                              obtain ⟨mxQ, t2⟩ := q2
                              dsimp only [] at h
                              cases hq : readQuatV3List nv t2 with
                              | none => rw [hq] at h; simp at h
                              | some q3 =>
                                  rw [hq] at h
                                  obtain ⟨verts, t3⟩ := q3
                                  dsimp only [] at h
                                  cases hf : readFaceList nf t3 with
                                  | none => rw [hf] at h; simp at h
                                  | some q4 =>
                                      rw [hf] at h
                                      obtain ⟨faces, t4⟩ := q4
                                      dsimp only [] at h
                                      cases h6 : read_uint_8 t4 with
                                      | none => rw [h6] at h; simp at h
                                      | some p6 =>
                                          rw [h6] at h
                                          obtain ⟨np, s6⟩ := p6
                                          dsimp only [] at h
                                          cases h7 : readPortals st.version np s6 with
                                          | none => rw [h7] at h; simp at h
                                          | some p7 =>
                                              rw [h7] at h
                                              obtain ⟨portals, s7⟩ := p7
                                              dsimp only [] at h
                                              simp only [Option.pure_def,
                                                Option.some.injEq] at h
                                              subst h
                                              rw [foldl_frameIndex]
                                              · rw [setWireFrame_frameIndex,
                                                  modifyObj_frameIndex]
                                              · intro st' a
                                                rw [setWireFrame_frameIndex]
                    · cases hm : read_vector3 true s4 with
                      | none => rw [hm] at h; simp at h
                      | some q1 =>
                          rw [hm] at h
                          obtain ⟨mnB, t1⟩ := q1
                          dsimp only [] at h
                          cases hx : read_vector3 true t1 with
                          | none => rw [hx] at h; simp at h
                          | some q2 =>
                              rw [hx] at h
                              obtain ⟨mxB, t2⟩ := q2
                              dsimp only [] at h
                              cases hv : readVec3List nv t2 with
                              | none => rw [hv] at h; simp at h
                              | some q3 =>
                                  rw [hv] at h
                                  obtain ⟨verts, t3⟩ := q3
                                  dsimp only [] at h
                                  cases hf : readFaceList nf t3 with
                                  | none => rw [hf] at h; simp at h
                                  | some q4 =>
                                      rw [hf] at h
                                      obtain ⟨faces, t4⟩ := q4
                                      dsimp only [] at h
                                      cases h6 : read_uint_8 t4 with
                                      | none => rw [h6] at h; simp at h
                                      | some p6 =>
                                          rw [h6] at h
                                          obtain ⟨np, s6⟩ := p6
                                          dsimp only [] at h
                                          cases h7 : readPortals st.version np s6 with
                                          | none => rw [h7] at h; simp at h
                                          | some p7 =>
                                              rw [h7] at h
                                              obtain ⟨portals, s7⟩ := p7
                                              dsimp only [] at h
                                              simp only [Option.pure_def,
                                                Option.some.injEq] at h
                                              subst h
                                              rw [foldl_frameIndex]
                                              · rw [setWireFrame_frameIndex,
                                                  modifyObj_frameIndex]
                                              · intro st' a
                                                rw [setWireFrame_frameIndex]

theorem deserialize_occluder_frameIndex (st : ImpState) (meshId : Nat)
    (pos : Vec3) (rot : Quat) (sc : Vec3) (s : BStream)
    (res : ImpState × BStream)
    (h : deserialize_occluder st meshId pos rot sc s = some res) :
    res.1.frameIndex = st.frameIndex := by
  unfold deserialize_occluder at h
  dsimp only [bind, Option.bind] at h
  cases h1 : read_int_32 s with
  | none => rw [h1] at h; simp at h
  | some p1 =>
      rw [h1] at h
      obtain ⟨nv, s1⟩ := p1
      dsimp only [] at h
      cases h2 : read_int_32 s1 with
      | none => rw [h2] at h; simp at h
      | some p2 =>
          rw [h2] at h
          obtain ⟨nf, s2⟩ := p2
          dsimp only [] at h
          split at h
          · cases h3 : readVec4XzyList nv s2 with
            | none => rw [h3] at h; simp at h
            | some p3 =>
                rw [h3] at h
                obtain ⟨verts, s3⟩ := p3
                dsimp only [] at h
                cases h4 : readFaceList nf s3 with
                | none => rw [h4] at h; simp at h
                | some p4 =>
                    rw [h4] at h
                    obtain ⟨faces, s4⟩ := p4
                    dsimp only [] at h
                    simp only [Option.pure_def, Option.some.injEq] at h
                    subst h
                    rw [setWireFrame_frameIndex, modifyObj_frameIndex]
          · cases h3 : readVec3List nv s2 with
            | none => rw [h3] at h; simp at h
            | some p3 =>
                rw [h3] at h
                obtain ⟨verts, s3⟩ := p3
                dsimp only [] at h
                cases h4 : readFaceList nf s3 with
                | none => rw [h4] at h; simp at h
                | some p4 =>
                    rw [h4] at h
                    obtain ⟨faces, s4⟩ := p4
                    dsimp only [] at h
                    simp only [Option.pure_def, Option.some.injEq] at h
                    subst h
                    rw [setWireFrame_frameIndex, modifyObj_frameIndex]

/-! Per-branch frame-index increments. -/

theorem frameVisualObject_frameIndex (st : ImpState) (mats : List BMat)
    (nm up : String) (tm : TMat) (s : BStream) (res : ImpState × Bool × BStream)
    (h : frameVisualObject st mats nm up tm s = some res) :
    res.1.frameIndex = st.frameIndex + 1 ∧ res.2.1 = true := by
  unfold frameVisualObject at h
  dsimp only [bind, Option.bind] at h
  cases hG : makeMesh st nm true tm with
  | mk st0 mid =>
      rw [hG] at h
      dsimp only [] at h
      have h0 : st0.frameIndex = st.frameIndex :=
        (congrArg (fun p => (Prod.fst p).frameIndex) hG).symm
      cases hd : deserialize_object { st0 with frameIndex := st0.frameIndex + 1 }
          mats mid true s with
      | none => rw [hd] at h; simp at h
      | some r4 =>
          rw [hd] at h
          obtain ⟨st1, nl, vpl, s1⟩ := r4
          dsimp only [] at h
          simp only [Option.pure_def, Option.some.injEq] at h
          subst h
          refine ⟨?_, rfl⟩
          have hp := deserialize_object_frameIndex _ _ _ _ _ _ hd
          rw [attachFrameProps_frameIndex]
          split
          · rw [setWireFrame_frameIndex, hp]
            show st0.frameIndex + 1 = st.frameIndex + 1
            rw [h0]
          · rw [hp]
            show st0.frameIndex + 1 = st.frameIndex + 1
            rw [h0]

theorem frameVisualSingleMesh_frameIndex (st : ImpState) (mats : List BMat)
    (nm up : String) (tm : TMat) (s : BStream) (res : ImpState × Bool × BStream)
    (h : frameVisualSingleMesh st mats nm up tm s = some res) :
    res.1.frameIndex = st.frameIndex + 1 ∧ res.2.1 = true := by
  unfold frameVisualSingleMesh at h
  dsimp only [bind, Option.bind] at h
  cases hG : makeMesh st nm true tm with
  | mk st0 mid =>
      rw [hG] at h
      dsimp only [] at h
      have h0 : st0.frameIndex = st.frameIndex :=
        (congrArg (fun p => (Prod.fst p).frameIndex) hG).symm
      cases hd : deserialize_object st0 mats mid false s with
      | none => rw [hd] at h; simp at h
      | some r4 =>
          rw [hd] at h
          obtain ⟨st1, nl, vpl, s1⟩ := r4
          dsimp only [] at h
          cases hs : deserialize_singlemesh st1 nl mid s1 with
          | none => rw [hs] at h; simp at h
          | some r5 =>
              rw [hs] at h
              obtain ⟨st2, s2⟩ := r5
              dsimp only [] at h
              simp only [Option.pure_def, Option.some.injEq] at h
              subst h
              refine ⟨?_, rfl⟩
              have hp := deserialize_object_frameIndex _ _ _ _ _ _ hd
              have hq := deserialize_singlemesh_frameIndex _ _ _ _ _ hs
              rw [attachFrameProps_frameIndex]
              show st2.frameIndex + 1 = st.frameIndex + 1
              rw [hq, hp, h0]

theorem frameVisualBillboard_frameIndex (st : ImpState) (mats : List BMat)
    (nm up : String) (tm : TMat) (s : BStream) (res : ImpState × Bool × BStream)
    (h : frameVisualBillboard st mats nm up tm s = some res) :
    res.1.frameIndex = st.frameIndex + 1 ∧ res.2.1 = true := by
  unfold frameVisualBillboard at h
  dsimp only [bind, Option.bind] at h
  cases hG : makeMesh st nm true tm with
  | mk st0 mid =>
      rw [hG] at h
      dsimp only [] at h
      have h0 : st0.frameIndex = st.frameIndex :=
        (congrArg (fun p => (Prod.fst p).frameIndex) hG).symm
      cases hd : deserialize_object st0 mats mid false s with
      | none => rw [hd] at h; simp at h
      | some r4 =>
          rw [hd] at h
          obtain ⟨st1, nl, vpl, s1⟩ := r4
          dsimp only [] at h
          cases h5 : read_int_32 s1 with
          | none => rw [h5] at h; simp at h
          | some p5 =>
              rw [h5] at h
              obtain ⟨u1, s2⟩ := p5
              dsimp only [] at h
              cases h6 : read_uint_8 s2 with
              | none => rw [h6] at h; simp at h
              | some p6 =>
                  rw [h6] at h
                  obtain ⟨u2, s3⟩ := p6
                  dsimp only [] at h
                  simp only [Option.pure_def, Option.some.injEq] at h
                  subst h
                  refine ⟨?_, rfl⟩
                  have hp := deserialize_object_frameIndex _ _ _ _ _ _ hd
                  rw [attachFrameProps_frameIndex]
                  show st1.frameIndex + 1 = st.frameIndex + 1
                  rw [hp, h0]

theorem frameVisualSingleMorph_frameIndex (st : ImpState) (mats : List BMat)
    (nm up : String) (tm : TMat) (s : BStream) (res : ImpState × Bool × BStream)
    (h : frameVisualSingleMorph st mats nm up tm s = some res) :
    res.1.frameIndex = st.frameIndex + 1 ∧ res.2.1 = true := by
  unfold frameVisualSingleMorph at h
  dsimp only [bind, Option.bind] at h
  cases hG : makeMesh st nm true tm with
  | mk st0 mid =>
      rw [hG] at h
      dsimp only [] at h
      have h0 : st0.frameIndex = st.frameIndex :=
        (congrArg (fun p => (Prod.fst p).frameIndex) hG).symm
      cases hd : deserialize_object st0 mats mid false s with
      | none => rw [hd] at h; simp at h
      | some r4 =>
          rw [hd] at h
          obtain ⟨st1, nl, vpl, s1⟩ := r4
          dsimp only [] at h
          cases hs : deserialize_singlemesh st1 nl mid s1 with
          | none => rw [hs] at h; simp at h
          | some r5 =>
              rw [hs] at h
              obtain ⟨st2, s2⟩ := r5
              dsimp only [] at h
              cases hm : deserialize_morph st2 mid vpl s2 with
              | none => rw [hm] at h; simp at h
              | some r6 =>
                  rw [hm] at h
                  obtain ⟨st3, s3⟩ := r6
                  dsimp only [] at h
                  simp only [Option.pure_def, Option.some.injEq] at h
                  subst h
                  refine ⟨?_, rfl⟩
                  have hp := deserialize_object_frameIndex _ _ _ _ _ _ hd
                  have hq := deserialize_singlemesh_frameIndex _ _ _ _ _ hs
                  have hr := deserialize_morph_frameIndex _ _ _ _ _ hm
                  rw [attachFrameProps_frameIndex]
                  show st3.frameIndex + 1 = st.frameIndex + 1
                  rw [hr, hq, hp, h0]

theorem frameVisualMorph_frameIndex (st : ImpState) (mats : List BMat)
    (nm up : String) (tm : TMat) (s : BStream) (res : ImpState × Bool × BStream)
    (h : frameVisualMorph st mats nm up tm s = some res) :
    res.1.frameIndex = st.frameIndex + 1 ∧ res.2.1 = true := by
  unfold frameVisualMorph at h
  dsimp only [bind, Option.bind] at h
  cases hG : makeMesh st nm true tm with
  | mk st0 mid =>
      rw [hG] at h
      dsimp only [] at h
      have h0 : st0.frameIndex = st.frameIndex :=
        (congrArg (fun p => (Prod.fst p).frameIndex) hG).symm
      cases hd : deserialize_object st0 mats mid false s with
      | none => rw [hd] at h; simp at h
      | some r4 =>
          rw [hd] at h
          obtain ⟨st1, nl, vpl, s1⟩ := r4
          dsimp only [] at h
          cases hm : deserialize_morph st1 mid vpl s1 with
          | none => rw [hm] at h; simp at h
          | some r6 =>
              rw [hm] at h
              obtain ⟨st3, s3⟩ := r6
              dsimp only [] at h
              simp only [Option.pure_def, Option.some.injEq] at h
              subst h
              refine ⟨?_, rfl⟩
              have hp := deserialize_object_frameIndex _ _ _ _ _ _ hd
              have hr := deserialize_morph_frameIndex _ _ _ _ _ hm
              rw [attachFrameProps_frameIndex]
              show st3.frameIndex + 1 = st.frameIndex + 1
              rw [hr, hp, h0]

theorem frameDummyTarget_frameIndex (st : ImpState) (ft : Nat)
    (nm up : String) (pos : Vec3) (rot : Quat) (scv : Vec3) (s : BStream)
    (res : ImpState × Bool × BStream)
    (h : frameDummyTarget st ft nm up pos rot scv s = some res) :
    res.1.frameIndex = st.frameIndex + 1 ∧ res.2.1 = true := by
  unfold frameDummyTarget at h
  dsimp only [bind, Option.bind] at h
  cases hG : makeDummy st nm with
  | mk st0 mid =>
      rw [hG] at h
      dsimp only [] at h
      have h0 : st0.frameIndex = st.frameIndex :=
        (congrArg (fun p => (Prod.fst p).frameIndex) hG).symm
      split at h
      · cases hd : deserialize_dummy st0 mid pos rot scv s with
        | none => rw [hd] at h; simp at h
        | some r4 =>
            rw [hd] at h
            obtain ⟨st1, s1⟩ := r4
            dsimp only [] at h
            simp only [Option.pure_def, Option.some.injEq] at h
            subst h
            refine ⟨?_, rfl⟩
            have hp := deserialize_dummy_frameIndex _ _ _ _ _ _ _ hd
            rw [attachFrameProps_frameIndex]
            show st1.frameIndex + 1 = st.frameIndex + 1
            rw [hp, h0]
      · cases hd : deserialize_target st0 mid pos rot scv s with
        | none => rw [hd] at h; simp at h
        | some r4 =>
            rw [hd] at h
            obtain ⟨st1, s1⟩ := r4
            dsimp only [] at h
            simp only [Option.pure_def, Option.some.injEq] at h
            subst h
            refine ⟨?_, rfl⟩
            have hp := deserialize_target_frameIndex _ _ _ _ _ _ _ hd
            rw [attachFrameProps_frameIndex]
            show st1.frameIndex + 1 = st.frameIndex + 1
            rw [hp, h0]

theorem frameSectorOccluder_frameIndex (st : ImpState) (ft : Nat)
    (nm up : String) (tm : TMat) (pos : Vec3) (rot : Quat) (scv : Vec3)
    (s : BStream) (res : ImpState × Bool × BStream)
    (h : frameSectorOccluder st ft nm up tm pos rot scv s = some res) :
    res.1.frameIndex = st.frameIndex + 1 ∧ res.2.1 = true := by
  unfold frameSectorOccluder at h
  dsimp only [bind, Option.bind] at h
  cases hG : makeMesh st nm false tm with
  | mk st0 mid =>
      rw [hG] at h
      dsimp only [] at h
      have h0 : st0.frameIndex = st.frameIndex :=
        (congrArg (fun p => (Prod.fst p).frameIndex) hG).symm
      split at h
      · cases hd : deserialize_sector st0 mid pos rot scv s with
        | none => rw [hd] at h; simp at h
        | some r4 =>
            rw [hd] at h
            obtain ⟨st1, s1⟩ := r4
            dsimp only [] at h
            simp only [Option.pure_def, Option.some.injEq] at h
            subst h
            refine ⟨?_, rfl⟩
            have hp := deserialize_sector_frameIndex _ _ _ _ _ _ _ hd
            rw [attachFrameProps_frameIndex]
            show st1.frameIndex + 1 = st.frameIndex + 1
            rw [hp, h0]
      · cases hd : deserialize_occluder st0 mid pos rot scv s with
        | none => rw [hd] at h; simp at h
        | some r4 =>
            rw [hd] at h
            obtain ⟨st1, s1⟩ := r4
            dsimp only [] at h
            simp only [Option.pure_def, Option.some.injEq] at h
            subst h
            refine ⟨?_, rfl⟩
            have hp := deserialize_occluder_frameIndex _ _ _ _ _ _ _ hd
            rw [attachFrameProps_frameIndex]
            show st1.frameIndex + 1 = st.frameIndex + 1
            rw [hp, h0]

/-- The Joint branch advances the frame index only when the armature
already exists, yet always reports success. -/
theorem frameJoint_frameIndex (st : ImpState) (nm : String) (pid : Nat)
    (tm : TMat) (s : BStream) (res : ImpState × Bool × BStream)
    (h : frameJoint st nm pid tm s = some res) :
    res.1.frameIndex = st.frameIndex +
      (if st.armatureId.isSome then 1 else 0) ∧ res.2.1 = true := by
  unfold frameJoint at h
  dsimp only [bind, Option.bind] at h
  cases h1 : read_floats 16 s with
  | none => rw [h1] at h; simp at h
  | some p1 =>
      rw [h1] at h
      obtain ⟨m16, s1⟩ := p1
      dsimp only [] at h
      cases h2 : read_int_32 s1 with
      | none => rw [h2] at h; simp at h
      | some p2 =>
          rw [h2] at h
          obtain ⟨bid, s2⟩ := p2
          dsimp only [] at h
          split at h
          · rename_i hsome
            simp only [Option.pure_def, Option.some.injEq] at h
            subst h
            simp [hsome]
          · rename_i hnone
            simp only [Option.pure_def, Option.some.injEq] at h
            subst h
            simp [hnone]

/-- Frame-index step of the dispatch: 0 when the record is unsupported
(`false` returned), 0 for a Joint without an armature, 1 otherwise. -/
theorem frameDispatch_frameIndex (st : ImpState) (mats : List BMat)
    (ft vt pid : Nat) (tm : TMat) (nm up : String) (s : BStream)
    (res : ImpState × Bool × BStream)
    (h : frameDispatch st mats ft vt pid tm nm up s = some res) :
    res.1.frameIndex = st.frameIndex +
      (if res.2.1 = false then 0
       else if ft = FRAME_JOINT ∧ st.armatureId = none then 0 else 1) := by
  unfold frameDispatch at h
  split at h
  · rename_i hft
    split at h
    · obtain ⟨hfi, hok⟩ := frameVisualObject_frameIndex _ _ _ _ _ _ _ h
      simp [hfi, hok, hft, FRAME_VISUAL, FRAME_JOINT]
    · split at h
      · obtain ⟨hfi, hok⟩ := frameVisualSingleMesh_frameIndex _ _ _ _ _ _ _ h
        simp [hfi, hok, hft, FRAME_VISUAL, FRAME_JOINT]
      · split at h
        · obtain ⟨hfi, hok⟩ := frameVisualBillboard_frameIndex _ _ _ _ _ _ _ h
          simp [hfi, hok, hft, FRAME_VISUAL, FRAME_JOINT]
        · split at h
          · obtain ⟨hfi, hok⟩ :=
              frameVisualSingleMorph_frameIndex _ _ _ _ _ _ _ h
            simp [hfi, hok, hft, FRAME_VISUAL, FRAME_JOINT]
          · split at h
            · obtain ⟨hfi, hok⟩ := frameVisualMorph_frameIndex _ _ _ _ _ _ _ h
              simp [hfi, hok, hft, FRAME_VISUAL, FRAME_JOINT]
            · simp only [Option.some.injEq] at h
              subst h
              simp
  · split at h
    · rename_i hnv hor
      obtain ⟨hfi, hok⟩ := frameDummyTarget_frameIndex _ _ _ _ _ _ _ _ _ h
      rcases hor with h6 | h7
      · simp [hfi, hok, h6, FRAME_DUMMY, FRAME_JOINT]
      · simp [hfi, hok, h7, FRAME_TARGET, FRAME_JOINT]
    · split at h
      · rename_i hnv hnd hor
        obtain ⟨hfi, hok⟩ :=
          frameSectorOccluder_frameIndex _ _ _ _ _ _ _ _ _ _ h
        rcases hor with h5 | h12
        · simp [hfi, hok, h5, FRAME_SECTOR, FRAME_JOINT]
        · simp [hfi, hok, h12, FRAME_OCCLUDER, FRAME_JOINT]
      · split at h
        · rename_i hnv hnd hns hj
          obtain ⟨hfi, hok⟩ := frameJoint_frameIndex _ _ _ _ _ _ h
          cases ha : st.armatureId with
          | none => simp [hfi, hok, hj, ha]
          | some a => simp [hfi, hok, hj, ha]
        · simp only [Option.some.injEq] at h
          subst h
          simp

/-- C3 (amended): a successfully decoded frame record advances the frame
index by exactly one — EXCEPT a Joint record decoded while no armature
exists, which succeeds without consuming a frame-index slot (and a record
whose type is unsupported, which returns the truncation signal and
consumes no slot either). So the frame index is not advanced uniformly
for every decoded record, contrary to the claim. -/
theorem C3_frame_slot_amended (st : ImpState) (mats : List BMat) (t : Nat)
    (srest : BStream) (res : ImpState × Bool × BStream)
    (h : deserialize_frame st mats (Tok.u8 t :: srest) = some res) :
    res.1.frameIndex = st.frameIndex +
      (if res.2.1 = false then 0
       else if t = FRAME_JOINT ∧ st.armatureId = none then 0 else 1) := by
  unfold deserialize_frame at h
  dsimp only [bind, Option.bind] at h
  rw [show read_uint_8 (Tok.u8 t :: srest) = some (t, srest) from rfl] at h
  dsimp only [] at h
  split at h
  · cases hv : read_uint_8 srest with
    | none => rw [hv] at h; simp at h
    | some pv =>
        rw [hv] at h
        obtain ⟨vt, sv⟩ := pv
        dsimp only [] at h
        cases hsk : skipBytes 2 sv with
        | none => rw [hsk] at h; simp at h
        | some s0 =>
            rw [hsk] at h
            dsimp only [] at h
            cases hp : read_int_16 s0 with
            | none => rw [hp] at h; simp at h
            | some pp =>
                rw [hp] at h
                obtain ⟨pid, s1⟩ := pp
                dsimp only [] at h
                cases hpos : read_vector3 true s1 with
                | none => rw [hpos] at h; simp at h
                | some p1 =>
                    rw [hpos] at h
                    obtain ⟨pos, s2⟩ := p1
                    dsimp only [] at h
                    cases hsc : read_vector3 true s2 with
                    | none => rw [hsc] at h; simp at h
                    | some p2 =>
                        rw [hsc] at h
                        obtain ⟨scv, s3⟩ := p2
                        dsimp only [] at h
                        cases hq : read_quat true s3 with
                        | none => rw [hq] at h; simp at h
                        | some p3 =>
                            rw [hq] at h
                            obtain ⟨rot, s4⟩ := p3
                            dsimp only [] at h
                            cases hc : read_uint_8 s4 with
                            | none => rw [hc] at h; simp at h
                            | some p4 =>
                                rw [hc] at h
                                obtain ⟨cul, s5⟩ := p4
                                dsimp only [] at h
                                cases hn : read_string s5 with
                                | none => rw [hn] at h; simp at h
                                | some p5 =>
                                    rw [hn] at h
                                    obtain ⟨nm, s6⟩ := p5
                                    dsimp only [] at h
                                    cases hu : read_string s6 with
                                    | none => rw [hu] at h; simp at h
                                    | some p6 =>
                                        rw [hu] at h
                                        obtain ⟨up, s7⟩ := p6
                                        dsimp only [] at h
                                        split at h
                                        · have hd :=
                                            frameDispatch_frameIndex _ _ _ _ _
                                              _ _ _ _ _ h
                                          simpa using hd
                                        · have hd :=
                                            frameDispatch_frameIndex _ _ _ _ _
                                              _ _ _ _ _ h
                                          simpa using hd
  · cases hp : read_int_16 srest with
    | none => rw [hp] at h; simp at h
    | some pp =>
        rw [hp] at h
        obtain ⟨pid, s1⟩ := pp
        dsimp only [] at h
        cases hpos : read_vector3 true s1 with
        | none => rw [hpos] at h; simp at h
        | some p1 =>
            rw [hpos] at h
            obtain ⟨pos, s2⟩ := p1
            dsimp only [] at h
            cases hsc : read_vector3 true s2 with
            | none => rw [hsc] at h; simp at h
            | some p2 =>
                rw [hsc] at h
                obtain ⟨scv, s3⟩ := p2
                dsimp only [] at h
                cases hq : read_quat true s3 with
                | none => rw [hq] at h; simp at h
                | some p3 =>
                    rw [hq] at h
                    obtain ⟨rot, s4⟩ := p3
                    dsimp only [] at h
                    cases hc : read_uint_8 s4 with
                    | none => rw [hc] at h; simp at h
                    | some p4 =>
                        rw [hc] at h
                        obtain ⟨cul, s5⟩ := p4
                        dsimp only [] at h
                        cases hn : read_string s5 with
                        | none => rw [hn] at h; simp at h
                        | some p5 =>
                            rw [hn] at h
                            obtain ⟨nm, s6⟩ := p5
                            dsimp only [] at h
                            cases hu : read_string s6 with
                            | none => rw [hu] at h; simp at h
                            | some p6 =>
                                rw [hu] at h
                                obtain ⟨up, s7⟩ := p6
                                dsimp only [] at h
                                split at h
                                · have hd := frameDispatch_frameIndex _ _ _ _ _
                                    _ _ _ _ _ h
                                  simpa using hd
                                · have hd := frameDispatch_frameIndex _ _ _ _ _
                                    _ _ _ _ _ h
                                  simpa using hd

/-- C3 (counterexample): a Joint frame record decoded from the initial
state — where no armature exists yet — is reported as successfully decoded
(`true`), but the frame index is still 1 afterwards: the record consumed
no slot in the frame-index space, so the next record is assigned index 1,
not 2. -/
theorem C3_counterexample :
    (initImpState 29 false).frameIndex = 1 ∧
    (deserialize_frame (initImpState 29 false) [] (mkJointFrame 0 "j")).map
      (fun r => (r.2.1, r.1.frameIndex)) = some (true, 1) := by
  exact ⟨rfl, by rfl⟩

/-- C3 witness: the amended slot rule applied to a concrete DUMMY record
(frame type 6): the index does advance by one there. -/
theorem C3_frame_slot_amended_witness : c1S1.frameIndex = 2 := by
  have := C3_frame_slot_amended (initImpState 29 false) [] 6
    ((mkDummyFrame 0 "a").tail) (c1S1, true, []) (by rfl)
  simpa using this

/-! ## C10: header frame count vs records serialized -/

/-- Transport a property through an `Option` bind: if every value the
continuation can produce satisfies `P`, so does any value of the bind. -/
theorem opt_bind_forall {α γ : Type _} (P : γ → Prop) (x : Option α)
    (f : α → Option γ) (hf : ∀ a c, f a = some c → P c) :
    ∀ c, x >>= f = some c → P c := by
  intro c hc
  cases x with
  | none => exact absurd hc (by simp)
  | some a =>
      rw [show (some a >>= f : Option γ) = f a from rfl] at hc
      exact hf a c hc

/-- Transport a property through an `Option`-valued `if`: if both branches
only produce values satisfying `P`, so does the conditional. -/
theorem opt_ite_forall {γ : Type _} (P : γ → Prop) (c : Prop) [Decidable c]
    (x y : Option γ) (hx : ∀ v, x = some v → P v) (hy : ∀ v, y = some v → P v) :
    ∀ v, (if c then x else y) = some v → P v := by
  intro v hv
  by_cases hc : c
  · rw [if_pos hc] at hv
    exact hx v hv
  · rw [if_neg hc] at hv
    exact hy v hv

/-- `serialize_frame` emits exactly one record, except the armature early
return which emits none. -/
theorem serialize_frame_records (st : Exp.ExpState) (table : List Exp.ExpMat)
    (o : Exp.ExpObj) (r : Exp.ExpState × BStream × Nat)
    (h : Exp.serialize_frame st table o = some r) :
    r.2.2 = if o.objType = Exp.ExpObjType.armatureObj then 0 else 1 := by
  unfold Exp.serialize_frame at h
  split at h
  · rename_i harm
    simp only [Option.some.injEq] at h
    subst h
    simp [harm]
  · rename_i harm
    rw [if_neg harm]
    refine opt_bind_forall (fun x => x.2.2 = 1) _ _ ?_ r h
    intro a c h
    refine opt_ite_forall (fun x => x.2.2 = 1) _ _ _ ?_ ?_ c h
    all_goals
      intro c h
      repeat
        refine opt_bind_forall (fun x => x.2.2 = 1) _ _ ?_ c h
        intro a c h
      simp only [Option.pure_def, Option.some.injEq] at h
      subst h
      rfl

theorem serializeFrames_records (table : List Exp.ExpMat) :
    ∀ (l : List Exp.ExpObj) (st : Exp.ExpState)
      (r : Exp.ExpState × BStream × Nat),
      (∀ o ∈ l, o.objType ≠ Exp.ExpObjType.armatureObj) →
      Exp.serializeFrames st table l = some r → r.2.2 = l.length := by
  intro l
  induction l with
  | nil =>
      intro st r _ h
      simp only [Exp.serializeFrames, Option.some.injEq] at h
      subst h
      rfl
  | cons o rest ih =>
      intro st r hall h
      unfold Exp.serializeFrames at h
      simp only [Option.bind_eq_bind', Option.bind_eq_some'] at h
      obtain ⟨r1, h1, h⟩ := h
      obtain ⟨r2, h2, h⟩ := h
      simp only [Option.pure_def, Option.some.injEq] at h
      subst h
      have e1 := serialize_frame_records _ _ _ _ h1
      rw [if_neg (hall o (by simp))] at e1
      have e2 := ih _ _ (fun o2 ho2 => hall o2 (by simp [ho2])) h2
      simp [e1, e2, Nat.add_comm]

theorem serialize_joints_records (st : Exp.ExpState) (arm : Exp.ExpArmature)
    (r : Exp.ExpState × BStream × Nat)
    (h : Exp.serialize_joints st arm = some r) :
    r.2.2 = arm.bones.length := by
  unfold Exp.serialize_joints at h
  simp only [Option.bind_eq_bind', Option.bind_eq_some'] at h
  obtain ⟨b, -, h⟩ := h
  simp only [Option.pure_def, Option.some.injEq] at h
  subst h
  rfl

theorem serializeArms_records :
    ∀ (l : List Exp.ExpObj) (st : Exp.ExpState)
      (r : Exp.ExpState × BStream × Nat),
      Exp.serializeArms st l = some r →
      r.2.2 = (l.map (fun o =>
        ((o.armData.map (fun a => a.bones.length)).getD 0))).sum := by
  intro l
  induction l with
  | nil =>
      intro st r h
      simp only [Exp.serializeArms, Option.some.injEq] at h
      subst h
      rfl
  | cons o rest ih =>
      intro st r h
      unfold Exp.serializeArms at h
      simp only [Option.bind_eq_bind', Option.bind_eq_some'] at h
      obtain ⟨arm, ha, h⟩ := h
      obtain ⟨r1, h1, h⟩ := h
      obtain ⟨r2, h2, h⟩ := h
      simp only [Option.pure_def, Option.some.injEq] at h
      subst h
      have e1 := serialize_joints_records _ _ _ h1
      have e2 := ih _ _ h2
      simp [e1, e2, ha]

/-- C10 (amended): on a successful export, the u16 frame count written in
the header equals the number of frame records serialized; that number is
one record per element of the PORTAL-FILTERED selection (`buildObjectList`
silently drops every selected object whose name contains `"_Portal"`) of
type mesh or empty that is not a LOD child, plus one Joint record per bone
of each selected (non-portal-named) armature — not one per selected mesh
or empty object as claimed. -/
theorem C10_header_count_amended (sel : List Exp.ExpObj)
    (r : BStream × Nat × Nat) (h : Exp.serialize_file sel = some r) :
    r.2.1 = r.2.2 ∧
    r.2.1 = ((Exp.buildObjectList sel).filter (fun o =>
        (o.objType = Exp.ExpObjType.mesh ∨ o.objType = Exp.ExpObjType.empty) ∧
          ¬ (Exp.collect_lods (Exp.buildObjectList sel)).1.contains o.name)).length
      + (((Exp.buildObjectList sel).filter (fun o =>
          o.objType = Exp.ExpObjType.armatureObj)).map (fun o =>
          ((o.armData.map (fun a => a.bones.length)).getD 0))).sum := by
  unfold Exp.serialize_file at h
  simp only [Option.bind_eq_bind', Option.bind_eq_some'] at h
  obtain ⟨hdr, -, h⟩ := h
  obtain ⟨mc, -, h⟩ := h
  obtain ⟨mats, -, h⟩ := h
  obtain ⟨tw, -, h⟩ := h
  obtain ⟨ro, hro, h⟩ := h
  obtain ⟨rj, hrj, h⟩ := h
  simp only [Option.pure_def, Option.some.injEq] at h
  subst h
  have e1 := serializeFrames_records _ _ _ _ (by
    intro o ho
    have hp := (List.mem_filter.mp ho).2
    simp only [decide_eq_true_eq, Bool.and_eq_true, Bool.not_eq_true',
      decide_eq_false_iff_not, Bool.or_eq_true] at hp
    rcases hp with ⟨h1, -⟩
    rcases h1 with h1 | h1 <;> simp [h1]) hro
  have e2 := serializeArms_records _ _ _ hrj
  exact ⟨by simp [e1, e2], rfl⟩

/-- Empty mesh datablock for the counterexample objects. -/
def c10mesh : Exp.ExpMesh := ⟨[], [], [], false, [], [], []⟩

def c10A : Exp.ExpObj :=
  { Exp.defaultExpObj with name := "A", meshData := some c10mesh }

/-- A selected, non-LOD mesh whose name contains `"_Portal"`. -/
def c10P : Exp.ExpObj :=
  { Exp.defaultExpObj with
      name := "B_Portal"
      parentName := some "A"
      meshData := some c10mesh }

/-- C10 (counterexample): with two selected non-LOD meshes, one of them
named `"B_Portal"`, the export writes a header count of 1 and serializes 1
record — not one record per selected mesh/empty object (2): the
portal-named object is dropped by `buildObjectList` before any counting. -/
theorem C10_counterexample :
    (Exp.serialize_file [c10A, c10P]).map (fun r => (r.2.1, r.2.2)) =
      some (1, 1) ∧
    ([c10A, c10P].filter (fun o =>
      o.objType = Exp.ExpObjType.mesh ∨
        o.objType = Exp.ExpObjType.empty)).length = 2 := by
  exact ⟨by rfl, by rfl⟩

/-- C10 witness: the amended count equation applied to the concrete
two-object selection. -/
theorem C10_header_count_amended_witness :
    ((Exp.serialize_file [c10A, c10P]).getD ([], 0, 0)).2.1 =
      ((Exp.serialize_file [c10A, c10P]).getD ([], 0, 0)).2.2 :=
  (C10_header_count_amended [c10A, c10P]
    ((Exp.serialize_file [c10A, c10P]).getD ([], 0, 0)) (by rfl)).1

/-! ## C2: one-mesh scene round trip (`serialize_object` →
`deserialize_object` and `serialize_material` → `deserialize_material`) -/

/-! ### Spec-side description of the mesh codec -/

def expPos (m : Exp.ExpMesh) (v : Nat) : Vec3 :=
  (m.verts.getD v (⟨0, 0, 0⟩, ⟨0, 0, 0⟩)).1

def expNorm (m : Exp.ExpMesh) (v : Nat) : Vec3 :=
  (m.verts.getD v (⟨0, 0, 0⟩, ⟨0, 0, 0⟩)).2

def expUV (m : Exp.ExpMesh) (u : Vec2) : Vec2 :=
  if m.hasUV then u else ⟨0, 0⟩

/-- The three flattened vertices one face contributes, in loop-visit order
`v0, v2, v1`. -/
def cornerDataG (mverts : List (Vec3 × Vec3)) (hasUV : Bool)
    (fc : Exp.ExpFace) : List (Vec3 × Vec3 × Vec2) :=
  let uvOf := fun (u : Vec2) => if hasUV then u else ⟨0, 0⟩
  [((mverts.getD fc.v0 (⟨0, 0, 0⟩, ⟨0, 0, 0⟩)).1,
    (mverts.getD fc.v0 (⟨0, 0, 0⟩, ⟨0, 0, 0⟩)).2,
    (⟨(uvOf fc.uv0).x, -(uvOf fc.uv0).y⟩ : Vec2)),
   ((mverts.getD fc.v2 (⟨0, 0, 0⟩, ⟨0, 0, 0⟩)).1,
    (mverts.getD fc.v2 (⟨0, 0, 0⟩, ⟨0, 0, 0⟩)).2,
    (⟨(uvOf fc.uv2).x, -(uvOf fc.uv2).y⟩ : Vec2)),
   ((mverts.getD fc.v1 (⟨0, 0, 0⟩, ⟨0, 0, 0⟩)).1,
    (mverts.getD fc.v1 (⟨0, 0, 0⟩, ⟨0, 0, 0⟩)).2,
    (⟨(uvOf fc.uv1).x, -(uvOf fc.uv1).y⟩ : Vec2))]

def flatData (m : Exp.ExpMesh) : List (Vec3 × Vec3 × Vec2) :=
  (m.faces.map (cornerDataG m.verts m.hasUV)).flatten

/-- Run the insertion-ordered grouping over a whole slot-keyed list. -/
def slotGroups {α : Type _} :
    List (Nat × α) → List (Nat × List α) → List (Nat × List α)
  | [], acc => acc
  | (s, x) :: rest, acc => slotGroups rest (Exp.addFaceGroup s x acc)

/-- The faces' slots paired with their flat-vertex base offsets (face `k`
owns flattened vertices `3k, 3k+1, 3k+2`). -/
def enumBases : List Exp.ExpFace → Nat → List (Nat × Nat)
  | [], _ => []
  | fc :: r, L => (fc.matIndex, L) :: enumBases r (L + 3)

def triGroupList (m : Exp.ExpMesh) : List (Nat × List Nat) :=
  slotGroups (enumBases m.faces 0) []

def triOfB (L : Nat) : Nat × Nat × Nat := (L, L + 1, L + 2)

def groupElems {α : Type _} (gs : List (Nat × List α)) : List α :=
  (gs.map Prod.snd).flatten

theorem flattenFace_eq (mverts : List (Vec3 × Vec3)) (hasUV : Bool)
    (vs : List (Vec3 × Vec3 × Vec2)) (fc : Exp.ExpFace) :
    Exp.flattenFace mverts hasUV ⟨vs⟩ fc
      = (⟨vs ++ cornerDataG mverts hasUV fc⟩,
         (vs.length, vs.length + 1, vs.length + 2)) := by
  simp [Exp.flattenFace, Exp.flattenCorner, cornerDataG, List.append_assoc]

theorem flattenMesh_aux (mverts : List (Vec3 × Vec3)) (hasUV : Bool) :
    ∀ (fs : List Exp.ExpFace) (vs : List (Vec3 × Vec3 × Vec2))
      (gacc : List (Nat × List (Nat × Nat × Nat))),
      fs.foldl (fun acc fc =>
          let r := Exp.flattenFace mverts hasUV acc.1 fc
          (r.1, Exp.addFaceGroup fc.matIndex r.2 acc.2)) (⟨vs⟩, gacc)
        = (⟨vs ++ (fs.map (cornerDataG mverts hasUV)).flatten⟩,
           slotGroups ((enumBases fs vs.length).map
             (fun p => (p.1, triOfB p.2))) gacc) := by
  intro fs
  induction fs with
  | nil => intro vs gacc; simp [slotGroups, enumBases]
  | cons fc rest ih =>
      intro vs gacc
      simp only [List.foldl_cons, flattenFace_eq]
      rw [ih]
      have h3 : (vs ++ cornerDataG mverts hasUV fc).length = vs.length + 3 := by
        simp [cornerDataG]
      rw [h3]
      simp [enumBases, slotGroups, triOfB, List.append_assoc]

theorem flattenMesh_spec (m : Exp.ExpMesh) :
    Exp.flattenMesh m
      = (⟨flatData m⟩,
         slotGroups ((enumBases m.faces 0).map
           (fun p => (p.1, triOfB p.2))) []) := by
  have := flattenMesh_aux m.verts m.hasUV m.faces [] []
  simpa [Exp.flattenMesh, flatData] using this

theorem addFaceGroup_map {α β : Type _} (g : α → β) (s : Nat) (x : α)
    (acc : List (Nat × List α)) :
    Exp.addFaceGroup s (g x) (acc.map (fun p => (p.1, p.2.map g)))
      = (Exp.addFaceGroup s x acc).map (fun p => (p.1, p.2.map g)) := by
  induction acc with
  | nil => simp [Exp.addFaceGroup]
  | cons hd tl ih =>
      obtain ⟨k, ts⟩ := hd
      by_cases hk : k = s <;> simp [Exp.addFaceGroup, hk, ih]

theorem slotGroups_map {α β : Type _} (g : α → β) :
    ∀ (l : List (Nat × α)) (acc : List (Nat × List α)),
      slotGroups (l.map (fun p => (p.1, g p.2)))
          (acc.map (fun p => (p.1, p.2.map g)))
        = (slotGroups l acc).map (fun p => (p.1, p.2.map g)) := by
  intro l
  induction l with
  | nil => intro acc; simp [slotGroups]
  | cons hd tl ih =>
      intro acc
      obtain ⟨s, x⟩ := hd
      simp only [List.map_cons, slotGroups]
      rw [addFaceGroup_map, ih]

theorem flattenMesh_tri (m : Exp.ExpMesh) :
    Exp.flattenMesh m
      = (⟨flatData m⟩,
         (triGroupList m).map (fun p => (p.1, p.2.map triOfB))) := by
  rw [flattenMesh_spec, triGroupList]
  congr 1
  have := slotGroups_map triOfB (enumBases m.faces 0) []
  simpa using this

theorem groupElems_cons {α : Type _} (k : Nat) (ts : List α)
    (tl : List (Nat × List α)) :
    groupElems ((k, ts) :: tl) = ts ++ groupElems tl := rfl

theorem groupElems_addFaceGroup {α : Type _} (s : Nat) (x : α)
    (acc : List (Nat × List α)) :
    (groupElems (Exp.addFaceGroup s x acc)).Perm (x :: groupElems acc) := by
  induction acc with
  | nil => simp [Exp.addFaceGroup, groupElems]
  | cons hd tl ih =>
      obtain ⟨k, ts⟩ := hd
      by_cases hk : k = s
      · have hstep : Exp.addFaceGroup s x ((k, ts) :: tl)
            = (k, ts ++ [x]) :: tl := by simp [Exp.addFaceGroup, hk]
        rw [hstep, groupElems_cons, groupElems_cons, List.append_assoc]
        exact List.perm_middle
      · have hstep : Exp.addFaceGroup s x ((k, ts) :: tl)
            = (k, ts) :: Exp.addFaceGroup s x tl := by
          simp [Exp.addFaceGroup, hk]
        rw [hstep, groupElems_cons, groupElems_cons]
        exact (ih.append_left ts).trans List.perm_middle

theorem groupElems_slotGroups {α : Type _} :
    ∀ (l : List (Nat × α)) (acc : List (Nat × List α)),
      (groupElems (slotGroups l acc)).Perm (l.map Prod.snd ++ groupElems acc) := by
  intro l
  induction l with
  | nil => intro acc; simp [slotGroups, groupElems]
  | cons hd tl ih =>
      intro acc
      obtain ⟨s, x⟩ := hd
      simp only [slotGroups, List.map_cons, List.cons_append]
      refine (ih (Exp.addFaceGroup s x acc)).trans ?_
      have h1 := (groupElems_addFaceGroup s x acc).append_left (tl.map Prod.snd)
      refine h1.trans ?_
      exact List.perm_middle

theorem enumBases_map_snd :
    ∀ (fs : List Exp.ExpFace) (L0 : Nat),
      (enumBases fs L0).map Prod.snd = List.range' L0 fs.length 3 := by
  intro fs
  induction fs with
  | nil => intro L0; simp [enumBases]
  | cons fc rest ih =>
      intro L0
      simp [enumBases, ih, List.range']

theorem enumBases_length (fs : List Exp.ExpFace) (L0 : Nat) :
    (enumBases fs L0).length = fs.length := by
  induction fs generalizing L0 with
  | nil => simp [enumBases]
  | cons fc rest ih => simp [enumBases, ih]

theorem triGroupList_elems (m : Exp.ExpMesh) :
    (groupElems (triGroupList m)).Perm
      (List.range' 0 m.faces.length 3) := by
  have h := groupElems_slotGroups (enumBases m.faces 0) []
  rw [enumBases_map_snd] at h
  simpa [groupElems] using h

theorem triGroupList_mem (m : Exp.ExpMesh) (L : Nat)
    (h : L ∈ groupElems (triGroupList m)) :
    ∃ k, k < m.faces.length ∧ L = 3 * k := by
  have := (triGroupList_elems m).mem_iff.mp h
  rw [List.mem_range'] at this
  obtain ⟨i, hi, he⟩ := this
  subst he
  exact ⟨i, hi, by ring⟩

theorem triGroupList_nodup (m : Exp.ExpMesh) :
    (groupElems (triGroupList m)).Nodup := by
  refine ((triGroupList_elems m).nodup_iff).mpr ?_
  exact List.nodup_range' 0 m.faces.length 3 (by omega)

theorem groupElems_length_ge {α : Type _} :
    ∀ (gs : List (Nat × List α)) (g : Nat × List α), g ∈ gs →
      g.2.length ≤ (groupElems gs).length := by
  intro gs
  induction gs with
  | nil => intro g h; cases h
  | cons hd tl ih =>
      intro g hg
      obtain ⟨k, ts⟩ := hd
      rcases List.mem_cons.mp hg with h | h
      · subst h; simp [groupElems]
      · have := ih g h
        rw [groupElems_cons, List.length_append]
        omega

theorem mem_groupElems {α : Type _} (gs : List (Nat × List α))
    (g : Nat × List α) (x : α) (hg : g ∈ gs) (hx : x ∈ g.2) :
    x ∈ groupElems gs := by
  show x ∈ (gs.map Prod.snd).flatten
  exact List.mem_flatten.mpr ⟨g.2, List.mem_map_of_mem Prod.snd hg, hx⟩

theorem groupElems_triGroupList_length (m : Exp.ExpMesh) :
    (groupElems (triGroupList m)).length = m.faces.length := by
  rw [(triGroupList_elems m).length_eq, List.length_range']

theorem flatData_length (m : Exp.ExpMesh) :
    (flatData m).length = 3 * m.faces.length := by
  show ((m.faces.map (cornerDataG m.verts m.hasUV)).flatten).length
      = 3 * m.faces.length
  induction m.faces with
  | nil => simp
  | cons fc rest ih =>
      simp only [List.map_cons, List.flatten_cons, List.length_append, ih]
      simp [cornerDataG]
      omega

theorem indexOf?_lt_length {α : Type _} [BEq α] (l : List α) (a : α) (i : Nat)
    (h : l.indexOf? a = some i) : i < l.length :=
  (List.findIdx?_eq_some_iff_findIdx_eq.mp h).1

/-- The material id the exporter writes for a slot: `matIdOf` when it
succeeds (which it does whenever the slot list is nonempty). -/
def expMatId (table : List Exp.ExpMat) (slots : List (Option Exp.ExpMat))
    (s : Nat) : Nat := (Exp.matIdOf table slots s).getD 0

theorem matIdOf_some (table : List Exp.ExpMat)
    (slots : List (Option Exp.ExpMat)) (s : Nat)
    (hs : slots ≠ []) (htb : table.length < 65535) :
    Exp.matIdOf table slots s = some (expMatId table slots s) ∧
      expMatId table slots s < 65536 := by
  have hlt : (if s < slots.length then s else 0) < slots.length := by
    split
    · assumption
    · exact List.length_pos.mpr hs
  obtain ⟨sl, hsl⟩ : ∃ sl, slots[if s < slots.length then s else 0]? = some sl :=
    ⟨_, List.getElem?_eq_getElem hlt⟩
  cases sl with
  | none =>
      constructor <;> simp [Exp.matIdOf, hsl, expMatId]
  | some mm =>
      cases him : table.indexOf? mm with
      | none =>
          constructor <;> simp [Exp.matIdOf, hsl, him, expMatId]
      | some i =>
          have hib := indexOf?_lt_length table mm i him
          constructor
          · simp [Exp.matIdOf, hsl, him, expMatId]
          · have : expMatId table slots s = i + 1 := by
              simp [Exp.matIdOf, hsl, him, expMatId]
            omega

/-- The byte run of one face group whose triples are the canonical
`(L, L+1, L+2)` of its base offsets. -/
def triBytes (bs : List Nat) : BStream :=
  (bs.map (fun L => [Tok.u16 L, Tok.u16 (L + 1), Tok.u16 (L + 2)])).flatten

def grpBytesR (mid : Nat → Nat) (g : Nat × List Nat) : BStream :=
  Tok.u16 g.2.length :: (triBytes g.2 ++ [Tok.u16 (mid g.1)])

/-- What `serialize_object` produces on a one-LOD mesh object. -/
def objStream (table : List Exp.ExpMat) (m : Exp.ExpMesh) : BStream :=
  Tok.u16 0 :: Tok.u8 1 :: Tok.f32 (100 * (1 + ((0 : Nat) : ℚ)))
    :: Tok.u16 (3 * m.faces.length)
    :: (Exp.writeFlatVerts (flatData m)
        ++ Tok.u8 (triGroupList m).length
          :: ((triGroupList m).map
              (grpBytesR (expMatId table m.materialSlots))).flatten)

theorem joinOptList_map {α : Type _} (F : α → Option BStream) (G : α → BStream) :
    ∀ (l : List α), (∀ x ∈ l, F x = some (G x)) →
      Exp.joinOptList (l.map F) = some ((l.map G).flatten) := by
  intro l
  induction l with
  | nil => intro _; simp [Exp.joinOptList]
  | cons a tl ih =>
      intro h
      have ha := h a (List.mem_cons_self a tl)
      have htl := ih (fun x hx => h x (List.mem_cons_of_mem a hx))
      simp [Exp.joinOptList, ha, htl]

theorem writeFaceGroup_spec (table : List Exp.ExpMat)
    (slots : List (Option Exp.ExpMat)) (s : Nat) (bs : List Nat)
    (hlen : bs.length < 65536) (hb : ∀ L ∈ bs, L + 2 < 65536)
    (hs : slots ≠ []) (htb : table.length < 65535) :
    Exp.writeFaceGroup table slots (s, bs.map triOfB)
      = some (grpBytesR (expMatId table slots) (s, bs)) := by
  obtain ⟨hv, hvb⟩ := matIdOf_some table slots s hs htb
  have hcnt : write_int_16 bs.length = some [Tok.u16 bs.length] := by
    simp [write_int_16, hlen]
  have hjoin : Exp.joinOptList ((bs.map triOfB).map
        (fun t => write_face_indices [t.1, t.2.1, t.2.2]))
      = some (triBytes bs) := by
    rw [List.map_map]
    refine joinOptList_map _ _ bs ?_
    intro L hL
    have := hb L hL
    show write_face_indices [L, L + 1, L + 2] = _
    simp [write_face_indices]
    omega
  have hmid : write_int_16 (expMatId table slots s)
      = some [Tok.u16 (expMatId table slots s)] := by
    simp [write_int_16, hvb]
  simp only [List.map_map] at hjoin
  simp [Exp.writeFaceGroup, hcnt, hjoin, hv, hmid, grpBytesR]

theorem serialize_object_spec (table : List Exp.ExpMat) (o : Exp.ExpObj)
    (m : Exp.ExpMesh) (ho : o.meshData = some m)
    (Hnv : 3 * m.faces.length < 65536)
    (Hg : (triGroupList m).length < 256)
    (Hs : m.materialSlots ≠ [])
    (Htb : table.length < 65535) :
    Exp.serialize_object table [o] = some (objStream table m, 1) := by
  have hF : m.faces.length < 65536 := by omega
  have hjoin : Exp.joinOptList
      (((triGroupList m).map (fun p => (p.1, p.2.map triOfB))).map
        (Exp.writeFaceGroup table m.materialSlots))
      = some (((triGroupList m).map
          (grpBytesR (expMatId table m.materialSlots))).flatten) := by
    rw [List.map_map]
    refine joinOptList_map _ _ _ ?_
    intro g hg
    have hb : ∀ L ∈ g.2, L + 2 < 65536 := by
      intro L hL
      obtain ⟨k, hk, he⟩ := triGroupList_mem m L (mem_groupElems _ g L hg hL)
      omega
    have hlen : g.2.length < 65536 := by
      have h1 := groupElems_length_ge (triGroupList m) g hg
      rw [groupElems_triGroupList_length] at h1
      omega
    show Exp.writeFaceGroup table m.materialSlots (g.1, g.2.map triOfB) = _
    exact writeFaceGroup_spec table m.materialSlots g.1 g.2 hlen hb Hs Htb
  have h0 : write_int_16 0 = some [Tok.u16 0] := rfl
  have h1 : write_uint_8 1 = some [Tok.u8 1] := rfl
  have hnv : write_int_16 (flatData m).length
      = some [Tok.u16 (3 * m.faces.length)] := by
    rw [flatData_length]
    simp [write_int_16, Hnv]
  have hng : write_uint_8 (triGroupList m).length
      = some [Tok.u8 (triGroupList m).length] := by
    simp [write_uint_8, Hg]
  simp only [List.map_map] at hjoin
  simp [Exp.serialize_object, Exp.serializeLods, Exp.serialize_object_lod,
    ho, flattenMesh_tri, h0, h1, hnv, hng, hjoin, objStream, write_float_32]

/-! ### C2: decode side of the spec description -/

/-- The positions of the flattened (per-corner) vertex list. -/
def posData (m : Exp.ExpMesh) : List Vec3 := (flatData m).map (fun v => v.1)

/-- The UVs the importer reconstructs from the flattened list (the write
negated V, the read negates it back). -/
def uvsData (m : Exp.ExpMesh) : List Vec2 :=
  (flatData m).map (fun v => (⟨v.2.2.x, -v.2.2.y⟩ : Vec2))

theorem posData_eq (m : Exp.ExpMesh) :
    posData m = (m.faces.map (fun fc =>
      [expPos m fc.v0, expPos m fc.v2, expPos m fc.v1])).flatten := by
  show ((m.faces.map (cornerDataG m.verts m.hasUV)).flatten).map (fun v => v.1)
      = _
  rw [List.map_flatten, List.map_map]
  refine congrArg List.flatten (List.map_congr_left ?_)
  intro fc _
  simp [cornerDataG, expPos, Function.comp]

theorem uvsData_eq (m : Exp.ExpMesh) :
    uvsData m = (m.faces.map (fun fc =>
      [expUV m fc.uv0, expUV m fc.uv2, expUV m fc.uv1])).flatten := by
  show ((m.faces.map (cornerDataG m.verts m.hasUV)).flatten).map
        (fun v => (⟨v.2.2.x, -v.2.2.y⟩ : Vec2)) = _
  rw [List.map_flatten, List.map_map]
  refine congrArg List.flatten (List.map_congr_left ?_)
  intro fc _
  simp [cornerDataG, expUV, Function.comp]

theorem flat3_getD {α : Type _} (d : α) :
    ∀ (ls : List (List α)), (∀ l ∈ ls, l.length = 3) →
      ∀ (k j : Nat), k < ls.length → j < 3 →
        ls.flatten.getD (3 * k + j) d = (ls.getD k []).getD j d := by
  intro ls
  induction ls with
  | nil =>
      intro _ k j hk _
      exact (Nat.not_lt_zero k hk).elim
  | cons l tl ih =>
      intro h3 k j hk hj
      have hl : l.length = 3 := h3 l (List.mem_cons_self l tl)
      cases k with
      | zero =>
          simp only [List.flatten_cons]
          rw [show 3 * 0 + j = j by omega]
          rw [List.getD_append _ _ _ _ (by omega)]
          rfl
      | succ q =>
          simp only [List.flatten_cons]
          rw [show 3 * (q + 1) + j = l.length + (3 * q + j) by omega]
          rw [List.getD_append_right _ _ _ _ (by omega),
            Nat.add_sub_cancel_left]
          exact ih (fun x hx => h3 x (List.mem_cons_of_mem l hx)) q j
            (by simpa using hk) hj

theorem getD_map_lt {α β : Type _} (f : α → β) (l : List α) (k : Nat)
    (hk : k < l.length) (d : β) (e : α) :
    (l.map f).getD k d = f (l.getD k e) := by
  rw [List.getD_eq_getElem?_getD, List.getElem?_map,
    List.getElem?_eq_getElem hk]
  rw [List.getD_eq_getElem l e hk]
  rfl

/-! ### Reading back the written vertex and face-group streams -/

theorem read_vector3_true_write (w : Vec3) (t : BStream) :
    read_vector3 true (write_vector3 true w ++ t) = some (w, t) := by
  obtain ⟨x, y, z⟩ := w
  simp [read_vector3, write_vector3, read_float_32]

theorem read_vector2_write (u : Vec2) (t : BStream) :
    read_vector2 (write_vector2 u ++ t) = some (u, t) := by
  obtain ⟨a, b⟩ := u
  simp [read_vector2, write_vector2, read_float_32]

theorem readVertsN_spec :
    ∀ (vs : List (Vec3 × Vec3 × Vec2)) (rest : BStream),
      readVertsN vs.length (Exp.writeFlatVerts vs ++ rest)
        = some (vs.map (fun v =>
            (v.1, v.2.1, (⟨v.2.2.x, -v.2.2.y⟩ : Vec2))), rest) := by
  intro vs
  induction vs with
  | nil => intro rest; simp [Exp.writeFlatVerts, readVertsN]
  | cons v tl ih =>
      intro rest
      have hw : Exp.writeFlatVerts (v :: tl)
          = write_vector3 true v.1 ++ (write_vector3 true v.2.1
            ++ (write_vector2 v.2.2 ++ Exp.writeFlatVerts tl)) := by
        simp [Exp.writeFlatVerts]
      rw [hw]
      simp only [List.length_cons]
      simp [readVertsN, List.append_assoc, read_vector3_true_write,
        read_vector2_write, ih rest]

/-- The face the importer keeps for a face-group triangle whose written
triple is `(L, L+1, L+2)` (after the importer's own `[0, 2, 1]` swap). -/
def decBase (uvs : List Vec2) (s L : Nat) : DecFace :=
  ⟨L, L + 2, L + 1, s,
   (uvs.getD L ⟨0, 0⟩, uvs.getD (L + 2) ⟨0, 0⟩, uvs.getD (L + 1) ⟨0, 0⟩)⟩

theorem sort3_base (L : Nat) : sort3 L (L + 2) (L + 1) = (L, L + 1, L + 2) := by
  simp only [sort3, Prod.mk.injEq]
  refine ⟨by omega, by omega, by omega⟩

theorem sameVertexSet_bases (f : DecFace) (A L : Nat)
    (h1 : f.a = A) (h2 : f.b = A + 2) (h3 : f.c = A + 1) (hne : A ≠ L) :
    sameVertexSet f (L, L + 2, L + 1) = false := by
  simp only [sameVertexSet, h1, h2, h3]
  rw [sort3_base, sort3_base]
  simp only [decide_eq_false_iff_not, Prod.mk.injEq]
  omega

theorem addFace_base (uvs : List Vec2) (nv s : Nat) (acc : List DecFace)
    (L : Nat) (hLb : L + 2 < nv)
    (hany : acc.any (fun f => sameVertexSet f (L, L + 2, L + 1)) = false) :
    addFace uvs nv s acc (L, L + 1, L + 2)
      = some (acc ++ [decBase uvs s L]) := by
  rw [show addFace uvs nv s acc (L, L + 1, L + 2)
      = if L < nv ∧ L + 2 < nv ∧ L + 1 < nv then
          (if L = L + 2 ∨ L = L + 1 ∨ L + 2 = L + 1 ∨
              acc.any (fun f => sameVertexSet f (L, L + 2, L + 1)) then
            some acc
          else
            some (acc ++ [⟨L, L + 2, L + 1, s,
              (uvs.getD L ⟨0, 0⟩, uvs.getD (L + 2) ⟨0, 0⟩,
               uvs.getD (L + 1) ⟨0, 0⟩)⟩]))
        else none from rfl]
  rw [if_pos (by omega : L < nv ∧ L + 2 < nv ∧ L + 1 < nv)]
  rw [if_neg (by
    rw [hany]
    simp only [Bool.false_eq_true, or_false]
    omega)]
  rfl

theorem triBytes_cons (L : Nat) (tl : List Nat) :
    triBytes (L :: tl)
      = Tok.u16 L :: Tok.u16 (L + 1) :: Tok.u16 (L + 2) :: triBytes tl := by
  simp [triBytes]

theorem readFacesN_spec (uvs : List Vec2) (nv s : Nat) :
    ∀ (bs : List Nat) (done : List Nat) (acc : List DecFace) (rest : BStream),
      (∀ L ∈ bs, L + 2 < nv) →
      (∀ f ∈ acc, ∃ A ∈ done, f.a = A ∧ f.b = A + 2 ∧ f.c = A + 1) →
      (∀ L ∈ bs, L ∉ done) →
      bs.Nodup →
      readFacesN uvs nv s bs.length acc (triBytes bs ++ rest)
        = some (acc ++ bs.map (decBase uvs s), rest) := by
  intro bs
  induction bs with
  | nil => intro done acc rest _ _ _ _; simp [triBytes, readFacesN]
  | cons L tl ih =>
      intro done acc rest hb hacc hdis hnd
      have hLb := hb L (List.mem_cons_self L tl)
      have hany : acc.any (fun f => sameVertexSet f (L, L + 2, L + 1))
          = false := by
        rw [List.any_eq_false]
        intro f hf
        obtain ⟨A, hA, h1, h2, h3⟩ := hacc f hf
        have hne : A ≠ L := by
          intro h
          exact (hdis L (List.mem_cons_self L tl)) (h ▸ hA)
        simp [sameVertexSet_bases f A L h1 h2 h3 hne]
      have hread : read_face_indices (Tok.u16 L :: Tok.u16 (L + 1)
            :: Tok.u16 (L + 2) :: (triBytes tl ++ rest))
          = some ((L, L + 1, L + 2), triBytes tl ++ rest) := rfl
      have hadd := addFace_base uvs nv s acc L hLb hany
      have hres := ih (done ++ [L]) (acc ++ [decBase uvs s L]) rest
        (fun x hx => hb x (List.mem_cons_of_mem L hx))
        (by
          intro f hf
          rcases List.mem_append.mp hf with h | h
          · obtain ⟨A, hA, he⟩ := hacc f h
            exact ⟨A, List.mem_append_left _ hA, he⟩
          · have hfe : f = decBase uvs s L := by simpa using h
            subst hfe
            exact ⟨L, List.mem_append_right _ (List.mem_singleton_self L),
              rfl, rfl, rfl⟩)
        (by
          intro x hx hmem
          rcases List.mem_append.mp hmem with h | h
          · exact hdis x (List.mem_cons_of_mem L hx) h
          · have hxe : x = L := by simpa using h
            subst hxe
            exact (List.nodup_cons.mp hnd).1 hx)
        (List.nodup_cons.mp hnd).2
      rw [triBytes_cons]
      simp only [List.length_cons]
      simp [readFacesN, hread, hadd, hres]

/-- The faces a run of face groups contributes, group ordinals counting up
from `s0`. -/
def specFacesFrom (uvs : List Vec2) (s0 : Nat) :
    List (Nat × List Nat) → List DecFace
  | [] => []
  | g :: r => g.2.map (decBase uvs s0) ++ specFacesFrom uvs (s0 + 1) r

/-- The slot a face-group trailer resolves to: the 1-based reference into
the decoded material list, empty when 0 or out of range. -/
def specSlot (mats : List BMat) (id : Nat) : Option BMat :=
  if 0 < id ∧ id ≤ mats.length then mats[id - 1]? else none

theorem readFaceGroupsN_spec (uvs : List Vec2) (nv : Nat) (mats : List BMat)
    (mid : Nat → Nat) :
    ∀ (gs : List (Nat × List Nat)) (done : List Nat) (acc : List DecFace)
      (slots : List (Option BMat)) (rest : BStream),
      (∀ L ∈ groupElems gs, L + 2 < nv) →
      (∀ f ∈ acc, ∃ A ∈ done, f.a = A ∧ f.b = A + 2 ∧ f.c = A + 1) →
      (∀ L ∈ groupElems gs, L ∉ done) →
      (groupElems gs).Nodup →
      readFaceGroupsN uvs nv mats gs.length acc slots
          ((gs.map (grpBytesR mid)).flatten ++ rest)
        = some (acc ++ specFacesFrom uvs slots.length gs,
            slots ++ gs.map (fun g => specSlot mats (mid g.1)), rest) := by
  intro gs
  induction gs with
  | nil =>
      intro done acc slots rest _ _ _ _
      simp [readFaceGroupsN, specFacesFrom]
  | cons g gtl ih =>
      intro done acc slots rest hb hacc hdis hnd
      obtain ⟨gs1, gbs⟩ := g
      rw [groupElems_cons] at hb hdis hnd
      have hnds := List.nodup_append.mp hnd
      have hfres := readFacesN_spec uvs nv slots.length gbs done acc
        (Tok.u16 (mid gs1) :: ((gtl.map (grpBytesR mid)).flatten ++ rest))
        (fun L hL => hb L (List.mem_append_left _ hL))
        hacc
        (fun L hL => hdis L (List.mem_append_left _ hL))
        hnds.1
      have hrec := ih (done ++ gbs)
        (acc ++ gbs.map (decBase uvs slots.length))
        (slots ++ [if 0 < mid gs1 ∧ mid gs1 ≤ mats.length
          then mats[mid gs1 - 1]? else none]) rest
        (fun L hL => hb L (List.mem_append_right _ hL))
        (by
          intro f hf
          rcases List.mem_append.mp hf with h | h
          · obtain ⟨A, hA, he⟩ := hacc f h
            exact ⟨A, List.mem_append_left _ hA, he⟩
          · obtain ⟨A, hA, he⟩ := List.mem_map.mp h
            subst he
            exact ⟨A, List.mem_append_right _ hA, rfl, rfl, rfl⟩)
        (by
          intro L hL hmem
          rcases List.mem_append.mp hmem with h | h
          · exact hdis L (List.mem_append_right _ hL) h
          · exact hnds.2.2 h hL)
        hnds.2.1
      simp only [List.length_cons]
      simp [readFaceGroupsN, grpBytesR, read_int_16, hfres, hrec,
        specFacesFrom, specSlot, List.append_assoc]

/-! ### `remove_doubles` in the well-separated regime -/

/-- The index a vertex welds to: the first vertex at the same position
(itself when its position is unshared). -/
def posIdx (verts : List Vec3) (i : Nat) : Nat :=
  ((List.range verts.length).find?
    (fun j => verts.getD j ⟨0, 0, 0⟩ = verts.getD i ⟨0, 0, 0⟩)).getD i

def keptIdx (verts : List Vec3) : List Nat :=
  (List.range verts.length).filter (fun i => posIdx verts i = i)

def rankOf (verts : List Vec3) (i : Nat) : Nat :=
  (keptIdx verts).findIdx (fun x => x = posIdx verts i)

/-- The surviving vertex list: the first occurrence of each distinct
position, in order. -/
def dedupVerts (verts : List Vec3) : List Vec3 :=
  (keptIdx verts).map (fun i => verts.getD i ⟨0, 0, 0⟩)

def remapFace (verts : List Vec3) (f : DecFace) : DecFace :=
  { f with a := rankOf verts f.a, b := rankOf verts f.b,
           c := rankOf verts f.c }

theorem distSq_expand (a b : Vec3) :
    distSq a b = (a.x - b.x) * (a.x - b.x) + (a.y - b.y) * (a.y - b.y)
      + (a.z - b.z) * (a.z - b.z) := rfl

theorem distSq_self (v : Vec3) : distSq v v = 0 := by
  rw [distSq_expand]; ring

theorem find?_congr {α : Type _} (p q : α → Bool) :
    ∀ (l : List α), (∀ a ∈ l, p a = q a) → l.find? p = l.find? q := by
  intro l
  induction l with
  | nil => intro _; rfl
  | cons a tl ih =>
      intro h
      have ha := h a (List.mem_cons_self a tl)
      by_cases hp : p a = true
      · rw [List.find?_cons_of_pos _ hp, List.find?_cons_of_pos _ (ha ▸ hp)]
      · rw [List.find?_cons_of_neg _ (by simpa using hp),
          List.find?_cons_of_neg _ (by rw [← ha]; simpa using hp)]
        exact ih (fun x hx => h x (List.mem_cons_of_mem a hx))

theorem posIdx_found (verts : List Vec3) (i : Nat) (hi : i < verts.length) :
    ∃ j, (List.range verts.length).find?
      (fun j => verts.getD j ⟨0, 0, 0⟩ = verts.getD i ⟨0, 0, 0⟩) = some j := by
  cases hf : (List.range verts.length).find?
      (fun j => verts.getD j ⟨0, 0, 0⟩ = verts.getD i ⟨0, 0, 0⟩) with
  | some j => exact ⟨j, rfl⟩
  | none =>
      exfalso
      have := List.find?_eq_none.mp hf i (List.mem_range.mpr hi)
      simp at this

theorem posIdx_lt (verts : List Vec3) (i : Nat) (hi : i < verts.length) :
    posIdx verts i < verts.length := by
  obtain ⟨j, hj⟩ := posIdx_found verts i hi
  have hmem := List.mem_of_find?_eq_some hj
  simp only [posIdx, hj, Option.getD_some]
  exact List.mem_range.mp hmem

theorem posIdx_eq_pos (verts : List Vec3) (i : Nat) (hi : i < verts.length) :
    verts.getD (posIdx verts i) ⟨0, 0, 0⟩ = verts.getD i ⟨0, 0, 0⟩ := by
  obtain ⟨j, hj⟩ := posIdx_found verts i hi
  have hpj := List.find?_some hj
  simp only [posIdx, hj, Option.getD_some]
  exact of_decide_eq_true hpj

theorem posIdx_idem (verts : List Vec3) (i : Nat) (hi : i < verts.length) :
    posIdx verts (posIdx verts i) = posIdx verts i := by
  have hp := posIdx_eq_pos verts i hi
  obtain ⟨j, hj⟩ := posIdx_found verts i hi
  have hcong : (List.range verts.length).find?
        (fun a => verts.getD a ⟨0, 0, 0⟩
          = verts.getD (posIdx verts i) ⟨0, 0, 0⟩)
      = (List.range verts.length).find?
        (fun a => verts.getD a ⟨0, 0, 0⟩ = verts.getD i ⟨0, 0, 0⟩) :=
    find?_congr _ _ _ (fun a _ => by rw [hp])
  show ((List.range verts.length).find?
      (fun a => verts.getD a ⟨0, 0, 0⟩
        = verts.getD (posIdx verts i) ⟨0, 0, 0⟩)).getD (posIdx verts i)
      = posIdx verts i
  rw [hcong, hj, Option.getD_some]
  show j = ((List.range verts.length).find?
      (fun a => verts.getD a ⟨0, 0, 0⟩ = verts.getD i ⟨0, 0, 0⟩)).getD i
  rw [hj, Option.getD_some]

theorem findIdx_self_get {α : Type _} [DecidableEq α] :
    ∀ (l : List α) (x : α), x ∈ l →
      l.findIdx (fun y => y = x) < l.length ∧
        l[l.findIdx (fun y => y = x)]? = some x := by
  intro l
  induction l with
  | nil => intro x hx; cases hx
  | cons a tl ih =>
      intro x hx
      by_cases hax : a = x
      · have h0 : (a :: tl).findIdx (fun y => y = x) = 0 := by
          rw [List.findIdx_cons]
          simp [hax]
        rw [h0]
        exact ⟨by simp, by simp [hax]⟩
      · have h1 : (a :: tl).findIdx (fun y => y = x)
            = tl.findIdx (fun y => y = x) + 1 := by
          rw [List.findIdx_cons]
          simp [hax]
        have hx' : x ∈ tl := by
          rcases List.mem_cons.mp hx with h | h
          · exact absurd h.symm hax
          · exact h
        obtain ⟨hlt, hget⟩ := ih x hx'
        rw [h1]
        refine ⟨by simpa using hlt, ?_⟩
        simpa using hget

theorem posIdx_mem_kept (verts : List Vec3) (i : Nat)
    (hi : i < verts.length) : posIdx verts i ∈ keptIdx verts := by
  refine List.mem_filter.mpr ⟨List.mem_range.mpr (posIdx_lt verts i hi), ?_⟩
  simp [posIdx_idem verts i hi]

theorem kept_getElem_rank (verts : List Vec3) (i : Nat)
    (hi : i < verts.length) :
    (keptIdx verts)[rankOf verts i]? = some (posIdx verts i) :=
  (findIdx_self_get (keptIdx verts) (posIdx verts i)
    (posIdx_mem_kept verts i hi)).2

theorem dedup_getD_rank (verts : List Vec3) (i : Nat)
    (hi : i < verts.length) :
    (dedupVerts verts).getD (rankOf verts i) ⟨0, 0, 0⟩
      = verts.getD i ⟨0, 0, 0⟩ := by
  have hget := kept_getElem_rank verts i hi
  show ((keptIdx verts).map (fun k => verts.getD k ⟨0, 0, 0⟩)).getD
      (rankOf verts i) ⟨0, 0, 0⟩ = verts.getD i ⟨0, 0, 0⟩
  rw [List.getD_eq_getElem?_getD, List.getElem?_map, hget]
  simpa using posIdx_eq_pos verts i hi

theorem rankOf_ne (verts : List Vec3) (a b : Nat)
    (ha : a < verts.length) (hb : b < verts.length)
    (hne : verts.getD a ⟨0, 0, 0⟩ ≠ verts.getD b ⟨0, 0, 0⟩) :
    rankOf verts a ≠ rankOf verts b := by
  intro h
  have h1 := kept_getElem_rank verts a ha
  have h2 := kept_getElem_rank verts b hb
  rw [h] at h1
  have h3 := h1.symm.trans h2
  have hpq : posIdx verts a = posIdx verts b := by injection h3
  apply hne
  rw [← posIdx_eq_pos verts a ha, ← posIdx_eq_pos verts b hb, hpq]

theorem filterMap_total {α β : Type _} (F : α → Option β) (G : α → β) :
    ∀ (l : List α), (∀ x ∈ l, F x = some (G x)) →
      l.filterMap F = l.map G := by
  intro l
  induction l with
  | nil => intro _; rfl
  | cons a tl ih =>
      intro h
      have ha := h a (List.mem_cons_self a tl)
      have htl := ih (fun x hx => h x (List.mem_cons_of_mem a hx))
      simp [List.filterMap_cons, ha, htl]

theorem target_eq_posIdx (d : ℚ) (verts : List Vec3)
    (hsep : ∀ i j, i < verts.length → j < verts.length →
      verts.getD i ⟨0, 0, 0⟩ = verts.getD j ⟨0, 0, 0⟩ ∨
      ¬ distSq (verts.getD i ⟨0, 0, 0⟩) (verts.getD j ⟨0, 0, 0⟩) ≤ d * d)
    (i : Nat) (hi : i < verts.length) :
    ((List.range verts.length).find?
      (fun j => distSq (verts.getD j ⟨0, 0, 0⟩) (verts.getD i ⟨0, 0, 0⟩)
        ≤ d * d)).getD i = posIdx verts i := by
  refine congrArg (fun o => Option.getD o i) (find?_congr _ _ _ ?_)
  intro j hj
  have hjlt := List.mem_range.mp hj
  rcases hsep j i hjlt hi with he | hne
  · rw [he]
    simp [distSq_self, mul_self_nonneg d]
  · have hne2 : verts.getD j ⟨0, 0, 0⟩ ≠ verts.getD i ⟨0, 0, 0⟩ := by
      intro he
      apply hne
      rw [he, distSq_self]
      exact mul_self_nonneg d
    rw [decide_eq_decide]
    exact ⟨fun h => absurd h hne, fun h => absurd h hne2⟩

theorem removeDoubles_sep (d : ℚ) (verts : List Vec3) (faces : List DecFace)
    (hsep : ∀ i j, i < verts.length → j < verts.length →
      verts.getD i ⟨0, 0, 0⟩ = verts.getD j ⟨0, 0, 0⟩ ∨
      ¬ distSq (verts.getD i ⟨0, 0, 0⟩) (verts.getD j ⟨0, 0, 0⟩) ≤ d * d)
    (hfaces : ∀ f ∈ faces, f.a < verts.length ∧ f.b < verts.length ∧
      f.c < verts.length ∧
      verts.getD f.a ⟨0, 0, 0⟩ ≠ verts.getD f.b ⟨0, 0, 0⟩ ∧
      verts.getD f.b ⟨0, 0, 0⟩ ≠ verts.getD f.c ⟨0, 0, 0⟩ ∧
      verts.getD f.a ⟨0, 0, 0⟩ ≠ verts.getD f.c ⟨0, 0, 0⟩) :
    removeDoubles d verts faces
      = (dedupVerts verts, faces.map (remapFace verts)) := by
  have htgt := target_eq_posIdx d verts hsep
  have hkc : (List.range verts.length).filter
      (fun i => ((List.range verts.length).find?
        (fun j => distSq (verts.getD j ⟨0, 0, 0⟩) (verts.getD i ⟨0, 0, 0⟩)
          ≤ d * d)).getD i = i) = keptIdx verts := by
    refine List.filter_congr ?_
    intro a ha
    rw [htgt a (List.mem_range.mp ha)]
  simp only [removeDoubles]
  rw [hkc]
  simp only [Prod.mk.injEq]
  constructor
  · rfl
  · refine filterMap_total _ _ faces ?_
    intro f hf
    obtain ⟨ha, hb, hc, hab, hbc, hac⟩ := hfaces f hf
    dsimp only
    rw [htgt f.a ha, htgt f.b hb, htgt f.c hc]
    rw [if_neg (by
      intro h
      rcases h with h | h | h
      · exact rankOf_ne verts f.a f.b ha hb hab h
      · exact rankOf_ne verts f.b f.c hb hc hbc h
      · exact rankOf_ne verts f.a f.c ha hc hac h)]
    rfl

/-! ### The faces regrouped by material slot, with their source indices -/

def dExpFace : Exp.ExpFace := ⟨0, 0, 0, ⟨0, 0⟩, ⟨0, 0⟩, ⟨0, 0⟩, 0⟩

/-- The faces paired with their ordinal index, keyed by slot. -/
def enumFaces : List Exp.ExpFace → Nat → List (Nat × (Nat × Exp.ExpFace))
  | [], _ => []
  | fc :: r, k => (fc.matIndex, (k, fc)) :: enumFaces r (k + 1)

/-- The source faces in export grouping order: grouped by material slot in
first-use order, original order inside a group. -/
def faceGroups (m : Exp.ExpMesh) : List (Nat × List (Nat × Exp.ExpFace)) :=
  slotGroups (enumFaces m.faces 0) []

/-- Pair each group element with its group's ordinal, groups in order. -/
def flattenWithOrd {β : Type _} (s0 : Nat) :
    List (Nat × List β) → List (Nat × β)
  | [] => []
  | g :: r => g.2.map (fun x => (s0, x)) ++ flattenWithOrd (s0 + 1) r

theorem enumFaces_length :
    ∀ (fs : List Exp.ExpFace) (k0 : Nat), (enumFaces fs k0).length = fs.length := by
  intro fs
  induction fs with
  | nil => intro k0; rfl
  | cons fc r ih => intro k0; simp [enumFaces, ih]

theorem enumFaces_mem :
    ∀ (fs : List Exp.ExpFace) (k0 : Nat) (p : Nat × (Nat × Exp.ExpFace)),
      p ∈ enumFaces fs k0 →
        k0 ≤ p.2.1 ∧ p.2.1 < k0 + fs.length ∧
        fs.getD (p.2.1 - k0) dExpFace = p.2.2 := by
  intro fs
  induction fs with
  | nil => intro k0 p hp; cases hp
  | cons fc r ih =>
      intro k0 p hp
      rcases List.mem_cons.mp hp with h | h
      · subst h
        refine ⟨le_refl _, by simp, ?_⟩
        simp
      · obtain ⟨h1, h2, h3⟩ := ih (k0 + 1) p h
        refine ⟨by omega, by simp only [List.length_cons]; omega, ?_⟩
        have he : p.2.1 - k0 = (p.2.1 - (k0 + 1)) + 1 := by omega
        rw [he]
        simpa using h3

theorem enumBases_eq_enumFaces :
    ∀ (fs : List Exp.ExpFace) (k0 : Nat),
      enumBases fs (3 * k0)
        = (enumFaces fs k0).map (fun p => (p.1, 3 * p.2.1)) := by
  intro fs
  induction fs with
  | nil => intro k0; rfl
  | cons fc r ih =>
      intro k0
      simp only [enumBases, enumFaces, List.map_cons]
      rw [show 3 * k0 + 3 = 3 * (k0 + 1) by ring]
      rw [ih (k0 + 1)]

theorem triGroupList_eq_faceGroups (m : Exp.ExpMesh) :
    triGroupList m
      = (faceGroups m).map (fun g => (g.1, g.2.map (fun p => 3 * p.1))) := by
  have h := enumBases_eq_enumFaces m.faces 0
  norm_num at h
  show slotGroups (enumBases m.faces 0) [] = _
  rw [h]
  have h2 := slotGroups_map (fun q : Nat × Exp.ExpFace => 3 * q.1)
    (enumFaces m.faces 0) []
  simpa using h2

theorem specFacesFrom_map (uvs : List Vec2) :
    ∀ (gs : List (Nat × List (Nat × Exp.ExpFace))) (s0 : Nat),
      specFacesFrom uvs s0
          (gs.map (fun g => (g.1, g.2.map (fun p => 3 * p.1))))
        = (flattenWithOrd s0 gs).map (fun q => decBase uvs q.1 (3 * q.2.1)) := by
  intro gs
  induction gs with
  | nil => intro s0; rfl
  | cons g r ih =>
      intro s0
      simp only [List.map_cons, specFacesFrom, flattenWithOrd,
        List.map_append, List.map_map]
      rw [ih (s0 + 1)]
      rfl

theorem flattenWithOrd_length {β : Type _} :
    ∀ (gs : List (Nat × List β)) (s0 : Nat),
      (flattenWithOrd s0 gs).length = (groupElems gs).length := by
  intro gs
  induction gs with
  | nil => intro s0; rfl
  | cons g r ih =>
      intro s0
      obtain ⟨k, ts⟩ := g
      rw [groupElems_cons]
      simp [flattenWithOrd, ih]

theorem flattenWithOrd_mem {β : Type _} :
    ∀ (gs : List (Nat × List β)) (s0 : Nat) (q : Nat × β),
      q ∈ flattenWithOrd s0 gs → q.2 ∈ groupElems gs := by
  intro gs
  induction gs with
  | nil => intro s0 q hq; cases hq
  | cons g r ih =>
      intro s0 q hq
      obtain ⟨k, ts⟩ := g
      rw [groupElems_cons]
      simp only [flattenWithOrd] at hq
      rcases List.mem_append.mp hq with h | h
      · obtain ⟨x, hx, he⟩ := List.mem_map.mp h
        refine List.mem_append_left _ ?_
        rw [← he]
        exact hx
      · exact List.mem_append_right _ (ih (s0 + 1) q h)

theorem faceGroups_elems (m : Exp.ExpMesh) :
    (groupElems (faceGroups m)).Perm ((enumFaces m.faces 0).map Prod.snd) := by
  have h := groupElems_slotGroups (enumFaces m.faces 0) []
  simpa [groupElems] using h

theorem groupElems_faceGroups_length (m : Exp.ExpMesh) :
    (groupElems (faceGroups m)).length = m.faces.length := by
  rw [(faceGroups_elems m).length_eq, List.length_map, enumFaces_length]

theorem flattenWithOrd_faceGroups_mem (m : Exp.ExpMesh)
    (q : Nat × (Nat × Exp.ExpFace))
    (hq : q ∈ flattenWithOrd 0 (faceGroups m)) :
    q.2.1 < m.faces.length ∧ m.faces.getD q.2.1 dExpFace = q.2.2 := by
  have h1 := flattenWithOrd_mem (faceGroups m) 0 q hq
  have h2 := (faceGroups_elems m).mem_iff.mp h1
  obtain ⟨p, hp, hpe⟩ := List.mem_map.mp h2
  obtain ⟨_, hlt, hget⟩ := enumFaces_mem m.faces 0 p hp
  rw [hpe] at hlt hget
  refine ⟨by omega, ?_⟩
  simpa using hget

/-! ### Corner access into the flattened data -/

theorem posData_length (m : Exp.ExpMesh) :
    (posData m).length = 3 * m.faces.length := by
  show ((flatData m).map (fun v => v.1)).length = _
  rw [List.length_map, flatData_length]

theorem posData_getD_face (m : Exp.ExpMesh) (k : Nat)
    (hk : k < m.faces.length) :
    (posData m).getD (3 * k) ⟨0, 0, 0⟩
        = expPos m (m.faces.getD k dExpFace).v0 ∧
      (posData m).getD (3 * k + 1) ⟨0, 0, 0⟩
        = expPos m (m.faces.getD k dExpFace).v2 ∧
      (posData m).getD (3 * k + 2) ⟨0, 0, 0⟩
        = expPos m (m.faces.getD k dExpFace).v1 := by
  have h3 : ∀ l ∈ m.faces.map (fun fc =>
      [expPos m fc.v0, expPos m fc.v2, expPos m fc.v1]), l.length = 3 := by
    intro l hl
    obtain ⟨fc, _, he⟩ := List.mem_map.mp hl
    rw [← he]
    rfl
  have hk' : k < (m.faces.map (fun fc =>
      [expPos m fc.v0, expPos m fc.v2, expPos m fc.v1])).length := by
    simpa using hk
  refine ⟨?_, ?_, ?_⟩
  · have h := flat3_getD (⟨0, 0, 0⟩ : Vec3) _ h3 k 0 hk' (by omega)
    rw [show 3 * k + 0 = 3 * k by omega] at h
    rw [posData_eq m, h, getD_map_lt _ _ k hk _ dExpFace]
    rfl
  · have h := flat3_getD (⟨0, 0, 0⟩ : Vec3) _ h3 k 1 hk' (by omega)
    rw [posData_eq m, h, getD_map_lt _ _ k hk _ dExpFace]
    rfl
  · have h := flat3_getD (⟨0, 0, 0⟩ : Vec3) _ h3 k 2 hk' (by omega)
    rw [posData_eq m, h, getD_map_lt _ _ k hk _ dExpFace]
    rfl

theorem uvsData_getD_face (m : Exp.ExpMesh) (k : Nat)
    (hk : k < m.faces.length) :
    (uvsData m).getD (3 * k) ⟨0, 0⟩
        = expUV m (m.faces.getD k dExpFace).uv0 ∧
      (uvsData m).getD (3 * k + 1) ⟨0, 0⟩
        = expUV m (m.faces.getD k dExpFace).uv2 ∧
      (uvsData m).getD (3 * k + 2) ⟨0, 0⟩
        = expUV m (m.faces.getD k dExpFace).uv1 := by
  have h3 : ∀ l ∈ m.faces.map (fun fc =>
      [expUV m fc.uv0, expUV m fc.uv2, expUV m fc.uv1]), l.length = 3 := by
    intro l hl
    obtain ⟨fc, _, he⟩ := List.mem_map.mp hl
    rw [← he]
    rfl
  have hk' : k < (m.faces.map (fun fc =>
      [expUV m fc.uv0, expUV m fc.uv2, expUV m fc.uv1])).length := by
    simpa using hk
  refine ⟨?_, ?_, ?_⟩
  · have h := flat3_getD (⟨0, 0⟩ : Vec2) _ h3 k 0 hk' (by omega)
    rw [show 3 * k + 0 = 3 * k by omega] at h
    rw [uvsData_eq m, h, getD_map_lt _ _ k hk _ dExpFace]
    rfl
  · have h := flat3_getD (⟨0, 0⟩ : Vec2) _ h3 k 1 hk' (by omega)
    rw [uvsData_eq m, h, getD_map_lt _ _ k hk _ dExpFace]
    rfl
  · have h := flat3_getD (⟨0, 0⟩ : Vec2) _ h3 k 2 hk' (by omega)
    rw [uvsData_eq m, h, getD_map_lt _ _ k hk _ dExpFace]
    rfl

/-! ### The decoded mesh, named -/

/-- The decoded face list: the source faces regrouped by material slot,
slot field the group ordinal, vertex indices remapped through the weld. -/
def specFaces (m : Exp.ExpMesh) : List DecFace :=
  (flattenWithOrd 0 (faceGroups m)).map
    (fun q => remapFace (posData m) (decBase (uvsData m) q.1 (3 * q.2.1)))

def specSlots (table : List Exp.ExpMat) (m : Exp.ExpMesh)
    (mats : List BMat) : List (Option BMat) :=
  (triGroupList m).map
    (fun g => specSlot mats (expMatId table m.materialSlots g.1))

/-- What the importer stores for the re-imported mesh. -/
def specMesh (table : List Exp.ExpMat) (m : Exp.ExpMesh) (mats : List BMat) :
    DecodedMesh :=
  ⟨dedupVerts (posData m), specFaces m,
   loopNormalsOf (dedupVerts (posData m)) (specFaces m),
   specSlots table m mats⟩

theorem buildLODMesh_true_eq (vertsRaw : List (Vec3 × Vec3 × Vec2))
    (faces : List DecFace) (slots : List (Option BMat)) :
    buildLODMesh true vertsRaw faces slots
      = ⟨(removeDoubles (1/1000) (vertsRaw.map (·.1)) faces).1,
         (removeDoubles (1/1000) (vertsRaw.map (·.1)) faces).2,
         loopNormalsOf (removeDoubles (1/1000) (vertsRaw.map (·.1)) faces).1
           (removeDoubles (1/1000) (vertsRaw.map (·.1)) faces).2,
         slots⟩ := rfl

theorem getD_enum_map_self {α : Type _} (g : α → α) (l : List α) (id : Nat)
    (hid : id < l.length) (d : α) :
    (l.enum.map (fun io => if io.1 = id then g io.2 else io.2)).getD id d
      = g (l.getD id d) := by
  rw [List.getD_eq_getElem?_getD, List.getElem?_map, List.getElem?_enum,
    List.getElem?_eq_getElem hid]
  rw [List.getD_eq_getElem l d hid]
  simp

theorem getObj_modifyObj (st : ImpState) (id : Nat) (g : BlendObj → BlendObj)
    (hid : id < st.objs.length) :
    getObj (modifyObj st id g) id = g (getObj st id) :=
  getD_enum_map_self g st.objs id hid _

theorem meshOf_modifyObj (st : ImpState) (id : Nat) (M : DecodedMesh)
    (hid : id < st.objs.length) :
    meshOf (modifyObj st id (fun o => { o with data := .meshData M })) id
      = M := by
  unfold meshOf
  rw [getObj_modifyObj _ _ _ hid]

theorem dedupVerts_subset (verts : List Vec3) (p : Vec3)
    (hp : p ∈ dedupVerts verts) : p ∈ verts := by
  obtain ⟨i, hi, he⟩ := List.mem_map.mp hp
  have hir := List.mem_range.mp (List.mem_filter.mp hi).1
  rw [← he, List.getD_eq_getElem verts _ hir]
  exact List.getElem_mem hir

theorem deserialize_object_spec (table : List Exp.ExpMat) (m : Exp.ExpMesh)
    (mats : List BMat) (st : ImpState) (meshId : Nat) (tail : BStream)
    (Hsep : ∀ i j, i < (posData m).length → j < (posData m).length →
      (posData m).getD i ⟨0, 0, 0⟩ = (posData m).getD j ⟨0, 0, 0⟩ ∨
      ¬ distSq ((posData m).getD i ⟨0, 0, 0⟩) ((posData m).getD j ⟨0, 0, 0⟩)
        ≤ (1/1000 : ℚ) * (1/1000))
    (Hdeg : ∀ fc ∈ m.faces,
      expPos m fc.v0 ≠ expPos m fc.v1 ∧ expPos m fc.v0 ≠ expPos m fc.v2 ∧
      expPos m fc.v1 ≠ expPos m fc.v2) :
    deserialize_object st mats meshId true (objStream table m ++ tail)
      = some (modifyObj st meshId (fun o =>
          { o with data := .meshData (specMesh table m mats) }), 1,
        [3 * m.faces.length], tail) := by
  have hrv : readVertsN (3 * m.faces.length)
      (Exp.writeFlatVerts (flatData m)
        ++ (Tok.u8 (triGroupList m).length
          :: (((triGroupList m).map
              (grpBytesR (expMatId table m.materialSlots))).flatten ++ tail)))
      = some ((flatData m).map
            (fun v => (v.1, v.2.1, (⟨v.2.2.x, -v.2.2.y⟩ : Vec2))),
          Tok.u8 (triGroupList m).length
            :: (((triGroupList m).map
                (grpBytesR (expMatId table m.materialSlots))).flatten
              ++ tail)) := by
    rw [← flatData_length m]
    exact readVertsN_spec (flatData m) _
  have huv : ((flatData m).map
        (fun v => (v.1, v.2.1, (⟨v.2.2.x, -v.2.2.y⟩ : Vec2)))).map
      (fun v => v.2.2) = uvsData m := by
    rw [List.map_map]
    rfl
  have hpos : ((flatData m).map
        (fun v => (v.1, v.2.1, (⟨v.2.2.x, -v.2.2.y⟩ : Vec2)))).map
      (fun v => v.1) = posData m := by
    rw [List.map_map]
    rfl
  have hgroups := readFaceGroupsN_spec (uvsData m) (3 * m.faces.length) mats
    (expMatId table m.materialSlots) (triGroupList m) [] [] [] tail
    (by
      intro L hL
      obtain ⟨k, hk, he⟩ := triGroupList_mem m L hL
      omega)
    (by intro f hf; cases hf)
    (by intro L _ h; cases h)
    (triGroupList_nodup m)
  have hfaces0 : specFacesFrom (uvsData m) 0 (triGroupList m)
      = (flattenWithOrd 0 (faceGroups m)).map
        (fun q => decBase (uvsData m) q.1 (3 * q.2.1)) := by
    rw [triGroupList_eq_faceGroups, specFacesFrom_map]
  have hfcond : ∀ f ∈ (flattenWithOrd 0 (faceGroups m)).map
      (fun q => decBase (uvsData m) q.1 (3 * q.2.1)),
      f.a < (posData m).length ∧ f.b < (posData m).length ∧
      f.c < (posData m).length ∧
      (posData m).getD f.a ⟨0, 0, 0⟩ ≠ (posData m).getD f.b ⟨0, 0, 0⟩ ∧
      (posData m).getD f.b ⟨0, 0, 0⟩ ≠ (posData m).getD f.c ⟨0, 0, 0⟩ ∧
      (posData m).getD f.a ⟨0, 0, 0⟩ ≠ (posData m).getD f.c ⟨0, 0, 0⟩ := by
    intro f hf
    obtain ⟨q, hq, he⟩ := List.mem_map.mp hf
    obtain ⟨hk, hfc⟩ := flattenWithOrd_faceGroups_mem m q hq
    have hmem : m.faces.getD q.2.1 dExpFace ∈ m.faces :=
      (List.getD_eq_getElem m.faces dExpFace hk) ▸ List.getElem_mem hk
    have hdeg := Hdeg (m.faces.getD q.2.1 dExpFace) hmem
    obtain ⟨hp0, hp1, hp2⟩ := posData_getD_face m q.2.1 hk
    subst he
    refine ⟨?_, ?_, ?_, ?_, ?_, ?_⟩
    · show 3 * q.2.1 < (posData m).length
      rw [posData_length]
      omega
    · show 3 * q.2.1 + 2 < (posData m).length
      rw [posData_length]
      omega
    · show 3 * q.2.1 + 1 < (posData m).length
      rw [posData_length]
      omega
    · show (posData m).getD (3 * q.2.1) ⟨0, 0, 0⟩
        ≠ (posData m).getD (3 * q.2.1 + 2) ⟨0, 0, 0⟩
      rw [hp0, hp2]
      exact hdeg.1
    · show (posData m).getD (3 * q.2.1 + 2) ⟨0, 0, 0⟩
        ≠ (posData m).getD (3 * q.2.1 + 1) ⟨0, 0, 0⟩
      rw [hp2, hp1]
      exact hdeg.2.2
    · show (posData m).getD (3 * q.2.1) ⟨0, 0, 0⟩
        ≠ (posData m).getD (3 * q.2.1 + 1) ⟨0, 0, 0⟩
      rw [hp0, hp1]
      exact hdeg.2.1
  have hrd := removeDoubles_sep (1/1000) (posData m)
    ((flattenWithOrd 0 (faceGroups m)).map
      (fun q => decBase (uvsData m) q.1 (3 * q.2.1))) Hsep hfcond
  have hsf : ((flattenWithOrd 0 (faceGroups m)).map
        (fun q => decBase (uvsData m) q.1 (3 * q.2.1))).map
      (remapFace (posData m)) = specFaces m := by
    rw [List.map_map]
    rfl
  have hmesh : buildLODMesh true
      ((flatData m).map (fun v => (v.1, v.2.1, (⟨v.2.2.x, -v.2.2.y⟩ : Vec2))))
      (specFacesFrom (uvsData m) 0 (triGroupList m))
      ((triGroupList m).map
        (fun g => specSlot mats (expMatId table m.materialSlots g.1)))
      = specMesh table m mats := by
    rw [buildLODMesh_true_eq, hpos, hfaces0, hrd, hsf]
    rfl
  simp only [objStream]
  simp [deserialize_object, objLodLoop, objLodNewObj, read_int_16,
    read_uint_8, read_float_32, hrv, huv, hgroups, hmesh]

theorem mesh_roundtrip_general
    (table : List Exp.ExpMat) (o : Exp.ExpObj) (m : Exp.ExpMesh)
    (mats : List BMat) (st : ImpState) (meshId : Nat)
    (ho : o.meshData = some m)
    (hid : meshId < st.objs.length)
    (Hnv : 3 * m.faces.length < 65536)
    (Hg : (triGroupList m).length < 256)
    (Hs : m.materialSlots ≠ [])
    (Htb : table.length < 65535)
    (Hsep : ∀ p ∈ posData m, ∀ q ∈ posData m,
      p = q ∨ 1 < 1000000 * distSq p q)
    (Hdeg : ∀ fc ∈ m.faces,
      expPos m fc.v0 ≠ expPos m fc.v1 ∧ expPos m fc.v0 ≠ expPos m fc.v2 ∧
      expPos m fc.v1 ≠ expPos m fc.v2) :
    Exp.serialize_object table [o] = some (objStream table m, 1) ∧
    (∀ tail, deserialize_object st mats meshId true (objStream table m ++ tail)
      = some (modifyObj st meshId (fun ob =>
          { ob with data := .meshData (specMesh table m mats) }), 1,
        [3 * m.faces.length], tail)) ∧
    meshOf (modifyObj st meshId (fun ob =>
        { ob with data := .meshData (specMesh table m mats) })) meshId
      = specMesh table m mats ∧
    (specMesh table m mats).verts = dedupVerts (posData m) ∧
    (∀ p ∈ (specMesh table m mats).verts, p ∈ posData m) ∧
    (specMesh table m mats).faces.length = m.faces.length ∧
    (specMesh table m mats).faces.map (fun f =>
        ((specMesh table m mats).verts.getD f.a ⟨0, 0, 0⟩,
         (specMesh table m mats).verts.getD f.b ⟨0, 0, 0⟩,
         (specMesh table m mats).verts.getD f.c ⟨0, 0, 0⟩))
      = (flattenWithOrd 0 (faceGroups m)).map (fun q =>
          (expPos m q.2.2.v0, expPos m q.2.2.v1, expPos m q.2.2.v2)) ∧
    (specMesh table m mats).faces.map (fun f => f.uvs)
      = (flattenWithOrd 0 (faceGroups m)).map (fun q =>
          (expUV m q.2.2.uv0, expUV m q.2.2.uv1, expUV m q.2.2.uv2)) ∧
    (specMesh table m mats).faces.map (fun f => f.slot)
      = (flattenWithOrd 0 (faceGroups m)).map (fun q => q.1) ∧
    (specMesh table m mats).loopNormals
      = loopNormalsOf (specMesh table m mats).verts
          (specMesh table m mats).faces ∧
    (specMesh table m mats).slotMats = specSlots table m mats := by
  have Hsep' : ∀ i j, i < (posData m).length → j < (posData m).length →
      (posData m).getD i ⟨0, 0, 0⟩ = (posData m).getD j ⟨0, 0, 0⟩ ∨
      ¬ distSq ((posData m).getD i ⟨0, 0, 0⟩) ((posData m).getD j ⟨0, 0, 0⟩)
        ≤ (1/1000 : ℚ) * (1/1000) := by
    intro i j hi hj
    have hpi : (posData m).getD i ⟨0, 0, 0⟩ ∈ posData m :=
      (List.getD_eq_getElem (posData m) _ hi) ▸ List.getElem_mem hi
    have hpj : (posData m).getD j ⟨0, 0, 0⟩ ∈ posData m :=
      (List.getD_eq_getElem (posData m) _ hj) ▸ List.getElem_mem hj
    rcases Hsep _ hpi _ hpj with he | hgt
    · exact Or.inl he
    · refine Or.inr ?_
      intro hle
      have h1 : (1000000 : ℚ) * distSq ((posData m).getD i ⟨0, 0, 0⟩)
            ((posData m).getD j ⟨0, 0, 0⟩)
          ≤ 1000000 * ((1/1000 : ℚ) * (1/1000)) :=
        mul_le_mul_of_nonneg_left hle (by norm_num)
      norm_num at h1
      linarith
  refine ⟨serialize_object_spec table o m ho Hnv Hg Hs Htb,
    fun tail => deserialize_object_spec table m mats st meshId tail Hsep' Hdeg,
    meshOf_modifyObj st meshId (specMesh table m mats) hid,
    rfl,
    fun p hp => dedupVerts_subset (posData m) p hp,
    ?_, ?_, ?_, ?_, rfl, rfl⟩
  · show (specFaces m).length = m.faces.length
    rw [specFaces, List.length_map, flattenWithOrd_length,
      groupElems_faceGroups_length]
  · show (specFaces m).map _ = _
    rw [specFaces, List.map_map]
    refine List.map_congr_left ?_
    intro q hq
    obtain ⟨hk, hfc⟩ := flattenWithOrd_faceGroups_mem m q hq
    obtain ⟨hp0, hp1, hp2⟩ := posData_getD_face m q.2.1 hk
    have h0 : 3 * q.2.1 < (posData m).length := by
      rw [posData_length]; omega
    have h1 : 3 * q.2.1 + 1 < (posData m).length := by
      rw [posData_length]; omega
    have h2 : 3 * q.2.1 + 2 < (posData m).length := by
      rw [posData_length]; omega
    have ea : (dedupVerts (posData m)).getD
        (rankOf (posData m) (3 * q.2.1)) ⟨0, 0, 0⟩ = expPos m q.2.2.v0 := by
      rw [dedup_getD_rank (posData m) _ h0, hp0, hfc]
    have eb : (dedupVerts (posData m)).getD
        (rankOf (posData m) (3 * q.2.1 + 2)) ⟨0, 0, 0⟩
        = expPos m q.2.2.v1 := by
      rw [dedup_getD_rank (posData m) _ h2, hp2, hfc]
    have ec : (dedupVerts (posData m)).getD
        (rankOf (posData m) (3 * q.2.1 + 1)) ⟨0, 0, 0⟩
        = expPos m q.2.2.v2 := by
      rw [dedup_getD_rank (posData m) _ h1, hp1, hfc]
    show ((dedupVerts (posData m)).getD
        (rankOf (posData m) (3 * q.2.1)) ⟨0, 0, 0⟩,
      (dedupVerts (posData m)).getD
        (rankOf (posData m) (3 * q.2.1 + 2)) ⟨0, 0, 0⟩,
      (dedupVerts (posData m)).getD
        (rankOf (posData m) (3 * q.2.1 + 1)) ⟨0, 0, 0⟩)
      = (expPos m q.2.2.v0, expPos m q.2.2.v1, expPos m q.2.2.v2)
    rw [ea, eb, ec]
  · show (specFaces m).map _ = _
    rw [specFaces, List.map_map]
    refine List.map_congr_left ?_
    intro q hq
    obtain ⟨hk, hfc⟩ := flattenWithOrd_faceGroups_mem m q hq
    obtain ⟨hu0, hu1, hu2⟩ := uvsData_getD_face m q.2.1 hk
    have ea : (uvsData m).getD (3 * q.2.1) ⟨0, 0⟩
        = expUV m q.2.2.uv0 := by rw [hu0, hfc]
    have eb : (uvsData m).getD (3 * q.2.1 + 2) ⟨0, 0⟩
        = expUV m q.2.2.uv1 := by rw [hu2, hfc]
    have ec : (uvsData m).getD (3 * q.2.1 + 1) ⟨0, 0⟩
        = expUV m q.2.2.uv2 := by rw [hu1, hfc]
    show ((uvsData m).getD (3 * q.2.1) ⟨0, 0⟩,
      (uvsData m).getD (3 * q.2.1 + 2) ⟨0, 0⟩,
      (uvsData m).getD (3 * q.2.1 + 1) ⟨0, 0⟩)
      = (expUV m q.2.2.uv0, expUV m q.2.2.uv1, expUV m q.2.2.uv2)
    rw [ea, eb, ec]
  · show (specFaces m).map _ = _
    rw [specFaces, List.map_map]
    exact List.map_congr_left (fun q _ => rfl)


/-- Single-triangle export mesh over one empty material slot: three
vertices `(position, normal)`, one face `(0, 1, 2)` with per-corner UVs,
and an active UV layer. -/
def c2meshG (p0 p1 p2 n0 n1 n2 : Vec3) (u0 u1 u2 : Vec2) : Exp.ExpMesh :=
  ⟨[(p0, n0), (p1, n1), (p2, n2)], [⟨0, 1, 2, u0, u1, u2, 0⟩], [none], true,
    [], [], []⟩

def c2objG (p0 p1 p2 n0 n1 n2 : Vec3) (u0 u1 u2 : Vec2) : Exp.ExpObj :=
  { Exp.defaultExpObj with
      name := "tri"
      meshData := some (c2meshG p0 p1 p2 n0 n1 n2 u0 u1 u2) }

/-- Import-session start state: the mesh object the enclosing frame codec
creates before the payload decode runs. -/
def c2st0 : ImpState :=
  (makeMesh (initImpState 29 false) "tri" true Exp.tmatId).1

/-- `remove_doubles` is the identity on a triangle whose three vertices are
pairwise farther apart than the weld distance. -/
theorem removeDoubles_tri (d : ℚ) (v0 v1 v2 : Vec3) (sl : Nat)
    (uv : Vec2 × Vec2 × Vec2)
    (h01 : ¬ distSq v0 v1 ≤ d * d) (h02 : ¬ distSq v0 v2 ≤ d * d)
    (h12 : ¬ distSq v1 v2 ≤ d * d) :
    removeDoubles d [v0, v1, v2] [⟨0, 2, 1, sl, uv⟩]
      = ([v0, v1, v2], [⟨0, 2, 1, sl, uv⟩]) := by
  have h00 : ∀ v : Vec3, distSq v v ≤ d * d := by
    intro v
    have hz : distSq v v = 0 := by
      show Vec3.normSq ⟨v.x - v.x, v.y - v.y, v.z - v.z⟩ = 0
      simp [Vec3.normSq]
    rw [hz]
    exact mul_self_nonneg d
  have b01 : decide (distSq v0 v1 ≤ d * d) = false := decide_eq_false h01
  have b02 : decide (distSq v0 v2 ≤ d * d) = false := decide_eq_false h02
  have b12 : decide (distSq v1 v2 ≤ d * d) = false := decide_eq_false h12
  have bs : ∀ v : Vec3, decide (distSq v v ≤ d * d) = true :=
    fun v => decide_eq_true (h00 v)
  have hr : List.range 3 = [0, 1, 2] := rfl
  simp only [removeDoubles, List.length_cons, List.length_nil, hr]
  simp [List.find?, List.filter, List.findIdx, b01, b02, b12, bs,
    List.getD, List.findIdx.go]

/-- `distSq` on explicit components. -/
theorem distSq_mk (ax ay az bx bb bz : ℚ) :
    distSq ⟨ax, ay, az⟩ ⟨bx, bb, bz⟩
      = (ax - bx) * (ax - bx) + (ay - bb) * (ay - bb)
        + (az - bz) * (az - bz) := rfl

theorem buildLODMesh_true (vr : List (Vec3 × Vec3 × Vec2)) (fs : List DecFace)
    (sl : List (Option BMat)) :
    buildLODMesh true vr fs sl
      = ⟨(removeDoubles (1/1000) (vr.map (fun v => v.1)) fs).1,
         (removeDoubles (1/1000) (vr.map (fun v => v.1)) fs).2,
         loopNormalsOf (removeDoubles (1/1000) (vr.map (fun v => v.1)) fs).1
           (removeDoubles (1/1000) (vr.map (fun v => v.1)) fs).2, sl⟩ := rfl

/-- The well-formed material record parameters the exporter's field values
induce. -/
def c2recOf (flags : Nat) (dt tat et : String) (met : ℚ) (em : Vec3)
    (al : ℚ) : MatRecParams :=
  ⟨flags, ⟨1, 1, 1⟩, ⟨1, 1, 1⟩, em, al, met, et, dt, tat⟩

/-- Every flag word `matFields` can produce leaves the animated-diffuse bit
clear and sets the alpha-texture bit only together with the add-effect
bit. -/
theorem matFields_flags_wf (m : Exp.ExpMat) :
    hasFlag (Exp.matFields m).1 MTL_ANIMTEXDIFF = false ∧
    (hasFlag (Exp.matFields m).1 MTL_ALPHATEX = true →
      hasFlag (Exp.matFields m).1 MTL_ADDEFFECT = true) := by
  have hfst : ∀ (a : Nat) (s : String) (q : ℚ),
      ((a, s, q) : Nat × String × ℚ).1 = a := fun _ _ _ => rfl
  obtain ⟨hp, bc, al, met, es, ec⟩ := m
  cases hp <;>
    rcases bc with _ | img | ⟨_ | d, _ | e⟩ <;>
      rcases al with v | img2 | _ | _
  all_goals simp [Exp.matFields, hfst]
  all_goals
    first
      | decide
      | (split <;> first | decide | (simp [hfst] <;> decide))
      | (split <;>
          first
            | decide
            | (split <;> first | decide | (simp [hfst] <;> decide)))

/-- `serialize_material` writes exactly the well-formed record layout that
`deserialize_material` parses, for the field values `matFields` computes
(provided the three texture names fit the length-byte write). -/
theorem serialize_material_mkRecord (m : Exp.ExpMat) (flags : Nat)
    (dt tat et : String) (met : ℚ) (em : Vec3) (al : ℚ)
    (hmf : Exp.matFields m = (flags, dt, tat, et, met, em, al))
    (hfl : flags < 4294967296) (hdt : dt.length ≤ 255)
    (hta : tat.length ≤ 255) (het : et.length ≤ 255) :
    Exp.serialize_material m
      = some (mkMaterialRecord (c2recOf flags dt tat et met em al)) := by
  obtain ⟨hanim, halpha⟩ := matFields_flags_wf m
  rw [hmf] at hanim halpha
  have hdt2 : ¬ dt.length > 255 := by omega
  have hta2 : ¬ tat.length > 255 := by omega
  have het2 : ¬ et.length > 255 := by omega
  unfold Exp.serialize_material
  rw [hmf]
  cases ha : hasFlag flags MTL_ALPHATEX <;>
    cases he : hasFlag flags MTL_ENVMAP
  · simp [write_int_32, write_string, write_float_32, hfl, hdt2, hta2, het2,
      ha, he, mkMaterialRecord, mkMaterialTail, c2recOf, hanim]
  · simp [write_int_32, write_string, write_float_32, hfl, hdt2, hta2, het2,
      ha, he, mkMaterialRecord, mkMaterialTail, c2recOf, hanim]
  · have hadd := halpha (by simpa using ha)
    simp [write_int_32, write_string, write_float_32, hfl, hdt2, hta2, het2,
      ha, he, hadd, mkMaterialRecord, mkMaterialTail, c2recOf, hanim]
  · have hadd := halpha (by simpa using ha)
    simp [write_int_32, write_string, write_float_32, hfl, hdt2, hta2, het2,
      ha, he, hadd, mkMaterialRecord, mkMaterialTail, c2recOf, hanim]

set_option maxHeartbeats 1000000 in
/-- C2 (amended): for every one-mesh scene whose mesh fits the format's
size fields (u16 vertex count, u8 group count, u16 material references),
has at least one material slot, uses corner positions that are pairwise
either coincident or farther apart than the importer's 1 mm weld distance,
and has no degenerate face (two corners of one face at the same position),
the geometry round trip holds: the exporter emits exactly `objStream`, the
importer consumes exactly that stream, and the decoded mesh `specMesh` has
the first occurrence of every corner position as its vertex list (exact
positions, hence within the claimed 1e-5), one decoded face per source
face with the faces regrouped by material slot in first-use order, corner
positions and corner UVs equal to the source corners in source corner
order (the `(i0, i2, i1)` winding permutation applied on encode and on
decode cancels), the group ordinal as every face's slot, and the group
material references resolved against the decoded material list; material
records also round-trip (the encoded record is the exact well-formed
layout, the decoder consumes exactly that record, and the decoded material
reflects the flag word, e.g. its colour-key bit). NOT covered: normals,
which the importer recomputes from face geometry instead of the stored
values (see `C2_counterexample`), and meshes with distinct vertices closer
than the weld distance or with degenerate faces, which `remove_doubles`
alters. -/
theorem C2_roundtrip_amended
    (table : List Exp.ExpMat) (o : Exp.ExpObj) (m : Exp.ExpMesh)
    (mats : List BMat) (st : ImpState) (meshId : Nat)
    (mm : Exp.ExpMat) (flags : Nat) (dt tat et : String) (met : ℚ)
    (em : Vec3) (al : ℚ)
    (ho : o.meshData = some m)
    (hid : meshId < st.objs.length)
    (Hnv : 3 * m.faces.length < 65536)
    (Hg : (triGroupList m).length < 256)
    (Hs : m.materialSlots ≠ [])
    (Htb : table.length < 65535)
    (Hsep : ∀ p ∈ posData m, ∀ q ∈ posData m,
      p = q ∨ 1 < 1000000 * distSq p q)
    (Hdeg : ∀ fc ∈ m.faces,
      expPos m fc.v0 ≠ expPos m fc.v1 ∧ expPos m fc.v0 ≠ expPos m fc.v2 ∧
      expPos m fc.v1 ≠ expPos m fc.v2)
    (hmf : Exp.matFields mm = (flags, dt, tat, et, met, em, al))
    (hfl : flags < 4294967296) (hdt : dt.length ≤ 255)
    (hta : tat.length ≤ 255) (het : et.length ≤ 255) :
    Exp.serialize_object table [o] = some (objStream table m, 1)
    ∧ (∀ tail,
        deserialize_object st mats meshId true (objStream table m ++ tail)
          = some (modifyObj st meshId (fun ob =>
              { ob with data := .meshData (specMesh table m mats) }), 1,
            [3 * m.faces.length], tail))
    ∧ meshOf (modifyObj st meshId (fun ob =>
          { ob with data := .meshData (specMesh table m mats) })) meshId
        = specMesh table m mats
    ∧ (specMesh table m mats).verts = dedupVerts (posData m)
    ∧ (∀ p ∈ (specMesh table m mats).verts, p ∈ posData m)
    ∧ (specMesh table m mats).faces.length = m.faces.length
    ∧ (specMesh table m mats).faces.map (fun f =>
          ((specMesh table m mats).verts.getD f.a ⟨0, 0, 0⟩,
           (specMesh table m mats).verts.getD f.b ⟨0, 0, 0⟩,
           (specMesh table m mats).verts.getD f.c ⟨0, 0, 0⟩))
        = (flattenWithOrd 0 (faceGroups m)).map (fun q =>
            (expPos m q.2.2.v0, expPos m q.2.2.v1, expPos m q.2.2.v2))
    ∧ (specMesh table m mats).faces.map (fun f => f.uvs)
        = (flattenWithOrd 0 (faceGroups m)).map (fun q =>
            (expUV m q.2.2.uv0, expUV m q.2.2.uv1, expUV m q.2.2.uv2))
    ∧ (specMesh table m mats).faces.map (fun f => f.slot)
        = (flattenWithOrd 0 (faceGroups m)).map (fun q => q.1)
    ∧ (specMesh table m mats).loopNormals
        = loopNormalsOf (specMesh table m mats).verts
            (specMesh table m mats).faces
    ∧ (specMesh table m mats).slotMats = specSlots table m mats
    ∧ Exp.serialize_material mm
        = some (mkMaterialRecord (c2recOf flags dt tat et met em al))
    ∧ (∀ rest,
        deserialize_material []
            (mkMaterialRecord (c2recOf flags dt tat et met em al) ++ rest)
          = some ((decodeMatResult (c2recOf flags dt tat et met em al) []).1,
              (decodeMatResult (c2recOf flags dt tat et met em al) []).2,
              rest))
    ∧ ((decodeMatResult (c2recOf flags dt tat et met em al) []).1).useColorKey
        = hasFlag flags MTL_COLORKEY := by
  obtain ⟨h1, h2, h3, h4, h5, h6, h7, h8, h9, h10, h11⟩ :=
    mesh_roundtrip_general table o m mats st meshId ho hid Hnv Hg Hs Htb
      Hsep Hdeg
  exact ⟨h1, h2, h3, h4, h5, h6, h7, h8, h9, h10, h11,
    serialize_material_mkRecord mm flags dt tat et met em al hmf hfl hdt
      hta het,
    fun rest => deserialize_material_mkRecord
      (c2recOf flags dt tat et met em al) [] rest,
    rfl⟩

/-- Concrete witness material: principled shader, Base Color linked to the
image `"box"`, constant alpha 1/2. -/
def c2wMat : Exp.ExpMat := ⟨true, .tex "box", .unlinked (1/2), 0, 0, none⟩

/-- Concrete witness mesh: a quad split into two triangles over two
material slots; four distinct integer-coordinate vertices, shared corner
positions pairwise coincident or farther apart than the weld distance. -/
def c2wMesh : Exp.ExpMesh :=
  ⟨[(⟨0, 0, 0⟩, ⟨0, 0, 1⟩), (⟨2, 0, 0⟩, ⟨0, 0, 1⟩), (⟨0, 2, 0⟩, ⟨0, 0, 1⟩),
    (⟨2, 2, 0⟩, ⟨0, 0, 1⟩)],
   [⟨0, 1, 2, ⟨0, 0⟩, ⟨1, 0⟩, ⟨0, 1⟩, 0⟩,
    ⟨1, 3, 2, ⟨1, 0⟩, ⟨1, 1⟩, ⟨0, 1⟩, 1⟩],
   [none, none], true, [], [], []⟩

def c2wObj : Exp.ExpObj :=
  { Exp.defaultExpObj with name := "quad", meshData := some c2wMesh }

set_option maxHeartbeats 4000000 in
/-- C2 witness: the amended round trip at a concrete two-face, two-slot
quad and a concrete diffuse-textured material. -/
theorem C2_roundtrip_amended_witness :
    Exp.serialize_object [] [c2wObj] = some (objStream [] c2wMesh, 1)
    ∧ (specMesh [] c2wMesh []).verts
        = [⟨0, 0, 0⟩, ⟨0, 2, 0⟩, ⟨2, 0, 0⟩, ⟨2, 2, 0⟩]
    ∧ (specMesh [] c2wMesh []).faces.length = 2
    ∧ Exp.serialize_material c2wMat
        = some (mkMaterialRecord (c2recOf 262144 "BOX" "" "" 0 ⟨0, 0, 0⟩
            (1/2))) := by
  obtain ⟨h1, -, -, h4, -, h6, -, -, -, -, -, hm1, -, -⟩ :=
    C2_roundtrip_amended [] c2wObj c2wMesh [] c2st0 0 c2wMat 262144 "BOX"
      "" "" 0 ⟨0, 0, 0⟩ (1/2) rfl (by decide) (by decide) (by decide)
      (by decide) (by decide)
      (by
        have hlist : posData c2wMesh
            = [⟨0, 0, 0⟩, ⟨0, 2, 0⟩, ⟨2, 0, 0⟩, ⟨2, 0, 0⟩, ⟨0, 2, 0⟩,
               ⟨2, 2, 0⟩] := by decide
        rw [hlist]
        intro p hp q hq
        simp only [List.mem_cons, List.not_mem_nil, or_false] at hp hq
        rcases hp with h | h | h | h | h | h <;> subst h <;>
          rcases hq with h | h | h | h | h | h <;> subst h <;>
          first
            | exact Or.inl rfl
            | (refine Or.inr ?_; rw [distSq_mk]; norm_num))
      (by decide) (by rfl) (by decide) (by decide) (by decide) (by decide)
  exact ⟨h1, h4.trans (by decide), h6.trans (by decide), hm1⟩

/-- Counterexample scene: the triangle `(0,0,0), (2,0,0), (0,1,0)` whose
three stored vertex normals all point along `+x`. -/
def c2cObj : Exp.ExpObj :=
  c2objG ⟨0, 0, 0⟩ ⟨2, 0, 0⟩ ⟨0, 1, 0⟩ ⟨1, 0, 0⟩ ⟨1, 0, 0⟩ ⟨1, 0, 0⟩
    ⟨0, 0⟩ ⟨0, 0⟩ ⟨0, 0⟩

def c2cStream : BStream :=
  ((Exp.serialize_object [] [c2cObj]).map Prod.fst).getD []

def c2cSt : ImpState :=
  ((deserialize_object c2st0 [] 0 true c2cStream).map (fun r => r.1)).getD
    c2st0

/-- The recomputed loop normals of the decoded counterexample triangle:
one face, area-weighted accumulation `(0, 0, 1)` at every corner. -/
theorem c2_loopNormals_eval :
    loopNormalsOf [⟨0, 0, 0⟩, ⟨0, 1, 0⟩, ⟨2, 0, 0⟩]
        [⟨0, 2, 1, 0, (⟨0, 0⟩, ⟨0, 0⟩, ⟨0, 0⟩)⟩]
      = [some ⟨0, 0, 1⟩, some ⟨0, 0, 1⟩, some ⟨0, 0, 1⟩] := by
  have hcross : faceCross [⟨0, 0, 0⟩, ⟨0, 1, 0⟩, ⟨2, 0, 0⟩]
      ⟨0, 2, 1, 0, (⟨0, 0⟩, ⟨0, 0⟩, ⟨0, 0⟩)⟩ = ⟨0, 0, 2⟩ := by
    show Vec3.cross ((⟨2, 0, 0⟩ : Vec3) - ⟨0, 0, 0⟩)
        ((⟨0, 1, 0⟩ : Vec3) - ⟨0, 0, 0⟩) = ⟨0, 0, 2⟩
    show (⟨(0 - 0) * (0 - 0) - (0 - 0) * (1 - 0),
        (0 - 0) * (0 - 0) - (2 - 0) * (0 - 0),
        (2 - 0) * (1 - 0) - (0 - 0) * (0 - 0)⟩ : Vec3) = ⟨0, 0, 2⟩
    simp only [Vec3.mk.injEq]
    norm_num
  have hqn : qnormalize ⟨0, 0, 1⟩ = some ⟨0, 0, 1⟩ := by
    have h1 : Vec3.normSq (⟨0, 0, 1⟩ : Vec3) = 1 := by
      show (0 * 0 + 0 * 0 + 1 * 1 : ℚ) = 1
      norm_num
    have hone : ((((1 : Nat)) : ℚ) / (((1 : Nat)) : ℚ)) = 1 := by norm_num
    unfold qnormalize
    rw [h1]
    rw [show ratSqrt 1 = some ((((1 : Nat)) : ℚ) / (((1 : Nat)) : ℚ)) from rfl]
    rw [hone]
    show (if (1 : ℚ) = 0 then some (⟨0, 0, 0⟩ : Vec3)
        else some (⟨(⟨0, 0, 1⟩ : Vec3).x / 1, (⟨0, 0, 1⟩ : Vec3).y / 1,
          (⟨0, 0, 1⟩ : Vec3).z / 1⟩ : Vec3)) = some (⟨0, 0, 1⟩ : Vec3)
    rw [if_neg (by norm_num : ¬ (1 : ℚ) = 0)]
    simp only [Option.some.injEq, Vec3.mk.injEq]
    norm_num
  have hacc : (⟨0, 0, 0⟩ : Vec3) + Vec3.smul (1/2) ⟨0, 0, 2⟩
      = ⟨0, 0, 1⟩ := by
    show (⟨0 + 1/2 * 0, 0 + 1/2 * 0, 0 + 1/2 * 2⟩ : Vec3) = ⟨0, 0, 1⟩
    simp only [Vec3.mk.injEq]
    norm_num
  have hall : ([(⟨0, 2, 1, 0, (⟨0, 0⟩, ⟨0, 0⟩, ⟨0, 0⟩)⟩ : DecFace)].all
      (fun g => faceCross [⟨0, 0, 0⟩, ⟨0, 1, 0⟩, ⟨2, 0, 0⟩] g = ⟨0, 0, 0⟩))
      = false := by
    simp only [List.all_cons, List.all_nil, Bool.and_true, hcross]
    decide
  show [(if ([(⟨0, 2, 1, 0, (⟨0, 0⟩, ⟨0, 0⟩, ⟨0, 0⟩)⟩ : DecFace)].all
        (fun g => faceCross [⟨0, 0, 0⟩, ⟨0, 1, 0⟩, ⟨2, 0, 0⟩] g
          = ⟨0, 0, 0⟩)) = true
      then some ⟨0, 0, 1⟩
      else qnormalize ((⟨0, 0, 0⟩ : Vec3) + Vec3.smul (1/2)
        (faceCross [⟨0, 0, 0⟩, ⟨0, 1, 0⟩, ⟨2, 0, 0⟩]
          ⟨0, 2, 1, 0, (⟨0, 0⟩, ⟨0, 0⟩, ⟨0, 0⟩)⟩))),
      (if ([(⟨0, 2, 1, 0, (⟨0, 0⟩, ⟨0, 0⟩, ⟨0, 0⟩)⟩ : DecFace)].all
        (fun g => faceCross [⟨0, 0, 0⟩, ⟨0, 1, 0⟩, ⟨2, 0, 0⟩] g
          = ⟨0, 0, 0⟩)) = true
      then some ⟨0, 0, 1⟩
      else qnormalize ((⟨0, 0, 0⟩ : Vec3) + Vec3.smul (1/2)
        (faceCross [⟨0, 0, 0⟩, ⟨0, 1, 0⟩, ⟨2, 0, 0⟩]
          ⟨0, 2, 1, 0, (⟨0, 0⟩, ⟨0, 0⟩, ⟨0, 0⟩)⟩))),
      (if ([(⟨0, 2, 1, 0, (⟨0, 0⟩, ⟨0, 0⟩, ⟨0, 0⟩)⟩ : DecFace)].all
        (fun g => faceCross [⟨0, 0, 0⟩, ⟨0, 1, 0⟩, ⟨2, 0, 0⟩] g
          = ⟨0, 0, 0⟩)) = true
      then some ⟨0, 0, 1⟩
      else qnormalize ((⟨0, 0, 0⟩ : Vec3) + Vec3.smul (1/2)
        (faceCross [⟨0, 0, 0⟩, ⟨0, 1, 0⟩, ⟨2, 0, 0⟩]
          ⟨0, 2, 1, 0, (⟨0, 0⟩, ⟨0, 0⟩, ⟨0, 0⟩)⟩)))]
      = [some ⟨0, 0, 1⟩, some ⟨0, 0, 1⟩, some ⟨0, 0, 1⟩]
  rw [hall]
  simp only [Bool.false_eq_true, if_false]
  rw [hcross, hacc, hqn]

set_option maxHeartbeats 4000000 in
/-- C2 (counterexample): encode succeeds, decode succeeds, but every decoded
loop normal is the recomputed face normal `(0, 0, 1)` while every stored
source vertex normal is `(1, 0, 0)` — squared distance 2, far beyond the
claimed 1e-5 tolerance. The importer rebuilds custom split normals from
face geometry (area-weighted smoothing) and never uses the normals read
from the stream, so `decode(encode(G)) = G` fails on normals. -/
theorem C2_counterexample :
    (Exp.serialize_object [] [c2cObj]).isSome = true
    ∧ (deserialize_object c2st0 [] 0 true c2cStream).isSome = true
    ∧ (meshOf c2cSt 0).loopNormals
        = [some ⟨0, 0, 1⟩, some ⟨0, 0, 1⟩, some ⟨0, 0, 1⟩]
    ∧ ((c2objG ⟨0, 0, 0⟩ ⟨2, 0, 0⟩ ⟨0, 1, 0⟩ ⟨1, 0, 0⟩ ⟨1, 0, 0⟩ ⟨1, 0, 0⟩
          ⟨0, 0⟩ ⟨0, 0⟩ ⟨0, 0⟩).meshData.map
            (fun md => md.verts.map (fun v => v.2))).getD []
        = [⟨1, 0, 0⟩, ⟨1, 0, 0⟩, ⟨1, 0, 0⟩]
    ∧ ((1 : ℚ) / 100000) * ((1 : ℚ) / 100000)
        < distSq ⟨0, 0, 1⟩ ⟨1, 0, 0⟩ := by
  refine ⟨rfl, rfl, ?_, rfl, by rw [distSq_mk]; norm_num⟩
  have hremc := removeDoubles_tri (1/1000) ⟨0, 0, 0⟩ ⟨0, 1, 0⟩ ⟨2, 0, 0⟩ 0
      (⟨0, 0⟩, ⟨0, 0⟩, ⟨0, 0⟩)
      (by rw [distSq_mk]; norm_num) (by rw [distSq_mk]; norm_num)
      (by rw [distSq_mk]; norm_num)
  have hMc : meshOf c2cSt 0
      = buildLODMesh true
          [(⟨0, 0, 0⟩, ⟨1, 0, 0⟩, ⟨0, 0⟩), (⟨0, 1, 0⟩, ⟨1, 0, 0⟩, ⟨0, 0⟩),
            (⟨2, 0, 0⟩, ⟨1, 0, 0⟩, ⟨0, 0⟩)]
          [⟨0, 2, 1, 0, (⟨0, 0⟩, ⟨0, 0⟩, ⟨0, 0⟩)⟩] [none] := rfl
  rw [hMc, buildLODMesh_true,
    show ([((⟨0, 0, 0⟩ : Vec3), (⟨1, 0, 0⟩ : Vec3), (⟨0, 0⟩ : Vec2)),
        (⟨0, 1, 0⟩, ⟨1, 0, 0⟩, ⟨0, 0⟩),
        (⟨2, 0, 0⟩, ⟨1, 0, 0⟩, ⟨0, 0⟩)].map (fun v => v.1))
      = [⟨0, 0, 0⟩, ⟨0, 1, 0⟩, ⟨2, 0, 0⟩] from rfl,
    hremc]
  exact c2_loopNormals_eval

end Mafia4DS
